import Mathlib

/-!
# Juego de Espías: the game engine, its codec and its stores

A shallow embedding of `js/config.js`, `js/storage.js` and `js/game.js`.

* JavaScript strings are lists of UTF-16 code units (`JSString`).
* `localStorage` is the pair of string slots the engine uses.
* The module-level variables of `game.js`, the two storage slots, the
  dictionary array and the turn indicator of the page form one record,
  `Mundo`, which every operation receives and returns.
* A JavaScript exception is the `lanza` outcome of `Resultado`, which carries
  the state reached when it was raised.
* `Math.random` is an oracle: a function giving the raw draw for each step.
-/

namespace SpyGame

/-! ## Strings and the platform codec functions -/

/-- A JavaScript string, as its sequence of UTF-16 code units. -/
abbrev JSString := List Nat

/-- Code units of an ASCII literal of the source. -/
def lit (s : String) : JSString := s.toList.map Char.toNat

/-- The constant `ENCRYPTION_KEY = "AGENT33"` of config.js. -/
def ENCRYPTION_KEY : JSString := [65, 71, 69, 78, 84, 51, 51]

/-- The method `charCodeAt` on an index inside the string. -/
def charCodeAt (s : JSString) (i : Nat) : Nat := s.getD i 0

/-- The function `String.fromCharCode`: the argument is taken modulo 2^16. -/
def fromCharCode (n : Nat) : Nat := n % 65536

/-- Base64 alphabet: the character code of a 6-bit value. -/
def car64 (n : Nat) : Nat :=
  if n < 26 then 65 + n
  else if n < 52 then 97 + (n - 26)
  else if n < 62 then 48 + (n - 52)
  else if n = 62 then 43
  else 47

/-- Base64 alphabet: the 6-bit value of a character code, if it has one. -/
def val64 (c : Nat) : Option Nat :=
  if 65 ≤ c ∧ c ≤ 90 then some (c - 65)
  else if 97 ≤ c ∧ c ≤ 122 then some (c - 71)
  else if 48 ≤ c ∧ c ≤ 57 then some (c + 4)
  else if c = 43 then some 62
  else if c = 47 then some 63
  else none

/-- Base64 text of a byte sequence, three bytes to four characters, padded with `=`. -/
def codificar64 : List Nat → List Nat
  | a :: b :: c :: resto =>
      car64 (a / 4) :: car64 ((a % 4) * 16 + b / 16) :: car64 ((b % 16) * 4 + c / 64)
        :: car64 (c % 64) :: codificar64 resto
  | [a, b] => [car64 (a / 4), car64 ((a % 4) * 16 + b / 16), car64 ((b % 16) * 4), 61]
  | [a] => [car64 (a / 4), car64 ((a % 4) * 16), 61, 61]
  | [] => []

/-- The browser function `btoa`: raises (here `none`) when a code unit exceeds 255. -/
def btoa (s : JSString) : Option JSString :=
  if s.all (fun c => decide (c ≤ 255)) then some (codificar64 s) else none

/-- ASCII whitespace, which `atob` removes before decoding. -/
def esEspacio64 (c : Nat) : Bool := c = 9 ∨ c = 10 ∨ c = 12 ∨ c = 13 ∨ c = 32

/-- Removes one or two `=` that end the text. -/
def quitarRelleno : List Nat → List Nat
  | [61, 61] => []
  | [61] => []
  | [] => []
  | c :: resto => c :: quitarRelleno resto

/-- The 6-bit values of a text, when every character is in the alphabet. -/
def sextetos : List Nat → Option (List Nat)
  | [] => some []
  | c :: resto =>
      match val64 c, sextetos resto with
      | some v, some vs => some (v :: vs)
      | _, _ => none

/-- Bytes of a sequence of 6-bit values; the bits left over at the end are dropped. -/
def decodificar64 : List Nat → List Nat
  | a :: b :: c :: d :: resto =>
      (a * 4 + b / 16) :: ((b % 16) * 16 + c / 4) :: ((c % 4) * 64 + d) :: decodificar64 resto
  | [a, b, c] => [a * 4 + b / 16, (b % 16) * 16 + c / 4]
  | [a, b] => [a * 4 + b / 16]
  | _ => []

/-- The browser function `atob` (forgiving Base64 decode): `none` when it raises. -/
def atob (s : JSString) : Option JSString :=
  let datos := s.filter (fun c => !esEspacio64 c)
  let datos := if datos.length % 4 = 0 then quitarRelleno datos else datos
  if datos.length % 4 = 1 then none
  else (sextetos datos).map decodificar64

/-! ## storage.js: the XOR codec -/

/-- The loop shared by `cifrarXOR` and `descifrarXOR`, started at index `i`. -/
def bucleXOR (i : Nat) : JSString → JSString
  | [] => []
  | c :: resto =>
      fromCharCode (c ^^^ charCodeAt ENCRYPTION_KEY (i % ENCRYPTION_KEY.length))
        :: bucleXOR (i + 1) resto

/-- The function `cifrarXOR` of storage.js; `none` when `btoa` raises. -/
@[irreducible] def cifrarXOR (text : JSString) : Option JSString :=
  btoa (bucleXOR 0 text)

/-- The function `descifrarXOR` of storage.js; `none` is the `null` of its `catch`. -/
@[irreducible] def descifrarXOR (base64String : JSString) : Option JSString :=
  match atob base64String with
  | some cipherText => some (bucleXOR 0 cipherText)
  | none => none

/-! ## JavaScript values and the platform functions `JSON.stringify` and `JSON.parse`

Numbers written as integers are exact integers. A numeric literal with a
fraction or an exponent is kept as it is written (`numDec`): arithmetic on
doubles is outside this embedding, and no operation of the program computes
with such a value. Objects keep the insertion order of their properties. -/

/-- A JavaScript value of the kinds the program stores, reads and writes. -/
inductive JSVal where
  | undefined
  | null
  | bool (b : Bool)
  | num (n : Int)
  | numDec (lexema : JSString)
  | str (s : JSString)
  | arr (elementos : List JSVal)
  | obj (props : List (JSString × JSVal))

/-- Decimal digits of a natural number, most significant first, before `acc`. -/
def digitosAux : Nat → Nat → List Nat → List Nat
  | 0, _, acc => acc
  | f + 1, n, acc =>
      if n < 10 then (48 + n) :: acc
      else digitosAux f (n / 10) ((48 + n % 10) :: acc)

/-- Decimal text of a natural number. -/
def decimal (n : Nat) : JSString := digitosAux (n + 1) n []

/-- Decimal text of an integer, as `JSON.stringify` writes it. -/
def decimalInt (n : Int) : JSString :=
  if n < 0 then 45 :: decimal n.natAbs else decimal n.toNat

/-- Lower-case hexadecimal digit. -/
def hexDigito (n : Nat) : Nat := if n < 10 then 48 + n else 87 + n

/-- The escape `\uXXXX` of a code unit. -/
def escapeU (c : Nat) : JSString :=
  [92, 117, hexDigito (c / 4096 % 16), hexDigito (c / 256 % 16), hexDigito (c / 16 % 16),
    hexDigito (c % 16)]

/-- High (leading) surrogate. -/
def esAlto (c : Nat) : Bool := 55296 ≤ c ∧ c ≤ 56319

/-- Low (trailing) surrogate. -/
def esBajo (c : Nat) : Bool := 56320 ≤ c ∧ c ≤ 57343

/-- Whether the text starts with a low surrogate. -/
def sigueBajo : JSString → Bool
  | d :: _ => esBajo d
  | [] => false

/-- Body of a quoted JSON string: quotes, backslashes, control characters and lone
surrogates are escaped. `emparejado` says that the previous code unit was a high
surrogate written unescaped, which the low surrogate in front completes. -/
def comillasAux (emparejado : Bool) : JSString → JSString
  | [] => []
  | c :: r =>
      if c = 34 then 92 :: 34 :: comillasAux false r
      else if c = 92 then 92 :: 92 :: comillasAux false r
      else if c = 8 then 92 :: 98 :: comillasAux false r
      else if c = 9 then 92 :: 116 :: comillasAux false r
      else if c = 10 then 92 :: 110 :: comillasAux false r
      else if c = 12 then 92 :: 102 :: comillasAux false r
      else if c = 13 then 92 :: 114 :: comillasAux false r
      else if c < 32 then escapeU c ++ comillasAux false r
      else if esAlto c then
        if sigueBajo r then c :: comillasAux true r else escapeU c ++ comillasAux false r
      else if esBajo c then
        if emparejado then c :: comillasAux false r else escapeU c ++ comillasAux false r
      else c :: comillasAux false r

/-- A string as `JSON.stringify` quotes it. -/
def comillas (s : JSString) : JSString := 34 :: comillasAux false s ++ [34]

mutual
/-- The platform function `JSON.stringify` on a value in element position. -/
def stringify : JSVal → JSString
  | .undefined => [110, 117, 108, 108]
  | .null => [110, 117, 108, 108]
  | .bool true => [116, 114, 117, 101]
  | .bool false => [102, 97, 108, 115, 101]
  | .num n => decimalInt n
  | .numDec l => l
  | .str s => comillas s
  | .arr xs => 91 :: stringifyElems xs ++ [93]
  | .obj ps => 123 :: stringifyProps ps ++ [125]
/-- Elements of an array, separated by commas. -/
def stringifyElems : List JSVal → JSString
  | [] => []
  | v :: resto =>
      match resto with
      | [] => stringify v
      | _ :: _ => stringify v ++ 44 :: stringifyElems resto
/-- Properties of an object, separated by commas; a property whose value is `undefined`
is left out. -/
def stringifyProps : List (JSString × JSVal) → JSString
  | [] => []
  | (_, .undefined) :: resto => stringifyProps resto
  | (k, v) :: resto =>
      match stringifyProps resto with
      | [] => comillas k ++ 58 :: stringify v
      | c :: r => comillas k ++ 58 :: stringify v ++ 44 :: c :: r
end

/-- JSON whitespace. -/
def esBlanco (c : Nat) : Bool := c = 32 ∨ c = 9 ∨ c = 10 ∨ c = 13

/-- Drops the whitespace that starts a text. -/
def skipWs : List Nat → List Nat
  | [] => []
  | c :: r => if esBlanco c then skipWs r else c :: r

/-- Decimal digit character. -/
def esDigito (c : Nat) : Bool := 48 ≤ c ∧ c ≤ 57

/-- Splits off the digits that start a text. -/
def tomarDigitos : List Nat → List Nat × List Nat
  | [] => ([], [])
  | c :: r =>
      if esDigito c then ((c :: (tomarDigitos r).1), (tomarDigitos r).2)
      else ([], c :: r)

/-- Value of a sequence of decimal digit characters. -/
def valorDigitos (ds : List Nat) : Nat :=
  ds.foldl (fun acc d => acc * 10 + (d - 48)) 0

/-- Optional fraction of a numeric literal: its text and what follows. -/
def parseFraccion (input : List Nat) : Option (List Nat × List Nat) :=
  match input with
  | c :: r =>
      if c = 46 then
        if (tomarDigitos r).1 = [] then none
        else some (46 :: (tomarDigitos r).1, (tomarDigitos r).2)
      else some ([], input)
  | [] => some ([], input)

/-- Optional exponent of a numeric literal: its text and what follows. -/
def parseExponente (input : List Nat) : Option (List Nat × List Nat) :=
  match input with
  | c :: r =>
      if c = 101 ∨ c = 69 then
        match r with
        | s :: r2 =>
            if s = 43 ∨ s = 45 then
              if (tomarDigitos r2).1 = [] then none
              else some (c :: s :: (tomarDigitos r2).1, (tomarDigitos r2).2)
            else if (tomarDigitos r).1 = [] then none
            else some (c :: (tomarDigitos r).1, (tomarDigitos r).2)
        | [] => none
      else some ([], input)
  | [] => some ([], input)

/-- Integer part, fraction and exponent of an unsigned numeric literal. -/
def parseSinSigno (neg : Bool) (input : List Nat) : Option (JSVal × List Nat) :=
  match input with
  | [] => none
  | c :: r =>
      if esDigito c then
        let ent := if c = 48 then ([48], r) else tomarDigitos (c :: r)
        match parseFraccion ent.2 with
        | none => none
        | some (fr, r3) =>
            match parseExponente r3 with
            | none => none
            | some (ex, r4) =>
                if fr = [] ∧ ex = [] then
                  some (.num (if neg then -(valorDigitos ent.1 : Int) else valorDigitos ent.1), r4)
                else some (.numDec ((if neg then [45] else []) ++ ent.1 ++ fr ++ ex), r4)
      else none

/-- A JSON numeric literal at the start of a text. -/
def parseNumber (input : List Nat) : Option (JSVal × List Nat) :=
  match input with
  | c :: r => if c = 45 then parseSinSigno true r else parseSinSigno false input
  | [] => none

/-- Value of a hexadecimal digit character. -/
def valorHex (c : Nat) : Option Nat :=
  if 48 ≤ c ∧ c ≤ 57 then some (c - 48)
  else if 97 ≤ c ∧ c ≤ 102 then some (c - 87)
  else if 65 ≤ c ∧ c ≤ 70 then some (c - 55)
  else none

/-- The character a one-letter escape stands for. -/
def escapeSimple (e : Nat) : Option Nat :=
  if e = 34 then some 34
  else if e = 92 then some 92
  else if e = 47 then some 47
  else if e = 98 then some 8
  else if e = 102 then some 12
  else if e = 110 then some 10
  else if e = 114 then some 13
  else if e = 116 then some 9
  else none

/-- Body of a JSON string up to its closing quote, the opening quote already read. -/
def parseString : Nat → List Nat → Option (JSString × List Nat)
  | 0, _ => none
  | _ + 1, [] => none
  | f + 1, c :: r =>
      if c = 34 then some ([], r)
      else if c = 92 then
        match r with
        | [] => none
        | e :: r2 =>
            if e = 117 then
              match r2 with
              | a :: b :: c3 :: d :: r3 =>
                  match valorHex a, valorHex b, valorHex c3, valorHex d, parseString f r3 with
                  | some va, some vb, some vc, some vd, some (s, r4) =>
                      some ((va * 4096 + vb * 256 + vc * 16 + vd) :: s, r4)
                  | _, _, _, _, _ => none
              | _ => none
            else
              match escapeSimple e, parseString f r2 with
              | some x, some (s, r4) => some (x :: s, r4)
              | _, _ => none
      else if c < 32 then none
      else
        match parseString f r with
        | some (s, r4) => some (c :: s, r4)
        | none => none

/-- Defines property `k` in front of the properties read after it: a later definition
of the same name gives the value, the first one gives the place. -/
def definirProp (k : JSString) (v : JSVal) (ps : List (JSString × JSVal)) :
    List (JSString × JSVal) :=
  match ps.lookup k with
  | some v2 => (k, v2) :: ps.filter (fun p => p.1 != k)
  | none => (k, v) :: ps

mutual
/-- A JSON value at the start of a text, and the text that follows it. -/
def parseValue : Nat → List Nat → Option (JSVal × List Nat)
  | 0, _ => none
  | f + 1, input =>
      match skipWs input with
      | [] => none
      | c :: r =>
          if c = 34 then
            match parseString (r.length + 1) r with
            | some (s, r2) => some (.str s, r2)
            | none => none
          else if c = 91 then
            match skipWs r with
            | [] => none
            | d :: r2 =>
                if d = 93 then some (.arr [], r2)
                else
                  match parseElements f r with
                  | some (xs, r3) => some (.arr xs, r3)
                  | none => none
          else if c = 123 then
            match skipWs r with
            | [] => none
            | d :: r2 =>
                if d = 125 then some (.obj [], r2)
                else
                  match parseMembers f r with
                  | some (ps, r3) => some (.obj ps, r3)
                  | none => none
          else if c = 110 then
            if r.take 3 = [117, 108, 108] then some (.null, r.drop 3) else none
          else if c = 116 then
            if r.take 3 = [114, 117, 101] then some (.bool true, r.drop 3) else none
          else if c = 102 then
            if r.take 4 = [97, 108, 115, 101] then some (.bool false, r.drop 4) else none
          else parseNumber (c :: r)
/-- The elements of an array up to its closing bracket. -/
def parseElements : Nat → List Nat → Option (List JSVal × List Nat)
  | 0, _ => none
  | f + 1, input =>
      match parseValue f input with
      | none => none
      | some (v, r) =>
          match skipWs r with
          | [] => none
          | c :: r2 =>
              if c = 44 then
                match parseElements f r2 with
                | some (vs, r3) => some (v :: vs, r3)
                | none => none
              else if c = 93 then some ([v], r2)
              else none
/-- The members of an object up to its closing brace. -/
def parseMembers : Nat → List Nat → Option (List (JSString × JSVal) × List Nat)
  | 0, _ => none
  | f + 1, input =>
      match skipWs input with
      | [] => none
      | q :: r =>
          if q = 34 then
            match parseString (r.length + 1) r with
            | none => none
            | some (k, r1) =>
                match skipWs r1 with
                | [] => none
                | c :: r2 =>
                    if c = 58 then
                      match parseValue f r2 with
                      | none => none
                      | some (v, r3) =>
                          match skipWs r3 with
                          | [] => none
                          | d :: r4 =>
                              if d = 44 then
                                match parseMembers f r4 with
                                | some (ps, r5) => some (definirProp k v ps, r5)
                                | none => none
                              else if d = 125 then some ([(k, v)], r4)
                              else none
                    else none
          else none
end

/-- The platform function `JSON.parse`; `none` when it raises `SyntaxError`. Every
recursive call of the parser reads at least one character for two units of fuel. -/
@[irreducible] def JSON_parse (s : JSString) : Option JSVal :=
  match parseValue (2 * s.length + 2) s with
  | some (v, r) => if skipWs r = [] then some v else none
  | none => none

/-- Reading a property by name: `none` is the `TypeError` raised on `null` and
`undefined`. On an object the own property, else `undefined`; the names this program
reads (`tablero`, `id`, `type`, `r`, `turno`, ...) are not properties of arrays, strings,
numbers or booleans. -/
def JSVal.prop (v : JSVal) (k : JSString) : Option JSVal :=
  match v with
  | .undefined => none
  | .null => none
  | .obj ps => some ((ps.lookup k).getD .undefined)
  | _ => some .undefined

/-- Truthiness of a value (`!x` is its negation). -/
def JSVal.truthy : JSVal → Bool
  | .undefined => false
  | .null => false
  | .bool b => b
  | .num n => n != 0
  | .numDec l => (l.takeWhile (fun c => c != 101 && c != 69)).any (fun c => 49 ≤ c && c ≤ 57)
  | .str s => s != []
  | .arr _ => true
  | .obj _ => true

/-- The comparison `SameValueZero` that `Map` and `Set` use on keys. An array or an
object is equal only to itself, and every array or object met here is a fresh one, so
two of them are never the same key. A number written with a fraction or an exponent is
compared as it is written; the results on the keys of the used-word record are stated
for records without such numbers (`registroCanonico`). -/
def sameValueZero : JSVal → JSVal → Bool
  | .undefined, .undefined => true
  | .null, .null => true
  | .bool a, .bool b => a == b
  | .num a, .num b => a == b
  | .numDec a, .numDec b => a == b
  | .str a, .str b => a == b
  | _, _ => false

/-- The method `Map.prototype.set` on a map kept as its entries in insertion order. -/
def mapSet (k v : JSVal) : List (JSVal × JSVal) → List (JSVal × JSVal)
  | [] => [(k, v)]
  | (k2, v2) :: resto =>
      if sameValueZero k2 k then (k2, v) :: resto else (k2, v2) :: mapSet k v resto

/-! ## config.js -/

/-- The five card types of `TIPOS_CARTA`. -/
inductive TIPOS_CARTA where
  | ROJO
  | AZUL
  | VERDE
  | NEUTRAL
  | ASESINO
  deriving DecidableEq, Repr

/-- The string each constant of `TIPOS_CARTA` stands for. -/
def TIPOS_CARTA.texto : TIPOS_CARTA → JSString
  | .ROJO => lit "red"
  | .AZUL => lit "blue"
  | .VERDE => lit "green"
  | .NEUTRAL => lit "neutral"
  | .ASESINO => lit "assassin"

/-- The card type a string names, if any. -/
def TIPOS_CARTA.deTexto (s : JSString) : Option TIPOS_CARTA :=
  if s = lit "red" then some .ROJO
  else if s = lit "blue" then some .AZUL
  else if s = lit "green" then some .VERDE
  else if s = lit "neutral" then some .NEUTRAL
  else if s = lit "assassin" then some .ASESINO
  else none

/-- The table `TIPOS_CARTA.MAPEO_EMOJI`. -/
def MAPEO_EMOJI : TIPOS_CARTA → String
  | .ROJO => "🔴"
  | .AZUL => "🔵"
  | .VERDE => "🟢"
  | .NEUTRAL => "🟡"
  | .ASESINO => "⚫"

/-- The table `TIPOS_CARTA.MAPEO_CODIGO`. -/
def MAPEO_CODIGO : TIPOS_CARTA → JSString
  | .ROJO => lit "R"
  | .AZUL => lit "B"
  | .VERDE => lit "V"
  | .NEUTRAL => lit "N"
  | .ASESINO => lit "A"

/-- The table `TIPOS_CARTA.MAPEO_INVERSO`; `none` is `undefined`. -/
def MAPEO_INVERSO (codigo : JSString) : Option TIPOS_CARTA :=
  if codigo = lit "R" then some .ROJO
  else if codigo = lit "B" then some .AZUL
  else if codigo = lit "V" then some .VERDE
  else if codigo = lit "N" then some .NEUTRAL
  else if codigo = lit "A" then some .ASESINO
  else none

/-! ## The state of the program -/

/-- An entry of the dictionary `PALABRAS_SECRETAS`. -/
structure Palabra where
  id : Int
  palabra : JSString
  deriving DecidableEq, Repr

/-- A card of `tableroLogico`; `word` is `none` when the dictionary has no such id. -/
structure Carta where
  id : Int
  word : Option JSString
  type : TIPOS_CARTA
  revealed : Bool
  deriving DecidableEq, Repr

/-- What the turn indicator of the page was last given by `UI.actualizarIndicadorTurno`:
a turn, or the end of the game with its message (`none` when no message was passed). -/
inductive Indicador where
  | inicial
  | turno (equipo : TIPOS_CARTA)
  | fin (mensaje : Option String)
  deriving DecidableEq, Repr

/-- The module variables of game.js, the dictionary array it imports, the two
`localStorage` entries of the engine, and what the page was told. -/
structure Mundo where
  tableroLogico : List Carta
  juegoTerminado : Bool
  agentesRojosRestantes : Nat
  agentesAzulesRestantes : Nat
  agentesVerdesRestantes : Nat
  turnoActual : TIPOS_CARTA
  numeroDeEquipos : Nat
  paseTurnoAlFallar : Bool
  /-- The array `PALABRAS_SECRETAS`, which `shuffleArray` can reorder in place. -/
  PALABRAS_SECRETAS : List Palabra
  /-- The entries `[id, palabra]` that `PALABRAS_MAPA` was built from when the module
  was loaded. -/
  PALABRAS_MAPA : List (Int × JSString)
  /-- The entry `GAME_STATE_STORAGE_KEY` of `localStorage`. -/
  estadoActual : Option JSString
  /-- The entry `USADAS_STORAGE_KEY` of `localStorage`. -/
  palabrasUsadas : Option JSString
  indicadorTurno : Indicador
  /-- The messages shown with `alert`, oldest first. -/
  alertas : List String
  deriving DecidableEq, Repr

/-- Outcome of a call: it returns a value, or an exception escapes it; both leave a
state. `noTipado` is the case in which the source goes on with a value that the typed
state cannot hold (an id that is not an integer, a type code outside the five, ...). -/
inductive Resultado (α : Type) where
  | retorna (valor : α) (mundo : Mundo)
  | lanza (mundo : Mundo)
  | noTipado
  deriving DecidableEq, Repr

/-- The state once game.js is loaded with dictionary `dicc` and storage as given. -/
def Mundo.inicial (dicc : List Palabra) (estadoActual palabrasUsadas : Option JSString) :
    Mundo where
  tableroLogico := []
  juegoTerminado := false
  agentesRojosRestantes := 0
  agentesAzulesRestantes := 0
  agentesVerdesRestantes := 0
  turnoActual := .AZUL
  numeroDeEquipos := 2
  paseTurnoAlFallar := true
  PALABRAS_SECRETAS := dicc
  PALABRAS_MAPA := dicc.map (fun p => (p.id, p.palabra))
  estadoActual := estadoActual
  palabrasUsadas := palabrasUsadas
  indicadorTurno := .inicial
  alertas := []

/-- The lookup `PALABRAS_MAPA.get(id)`: the last entry given for the id. -/
def PALABRAS_MAPA_get (w : Mundo) (id : Int) : Option JSString :=
  w.PALABRAS_MAPA.reverse.lookup id

/-! ## storage.js: the stores -/

/-- The function `limpiarEstadoPartida` of storage.js. It takes no parameter. -/
def limpiarEstadoPartida (w : Mundo) : Mundo :=
  { w with estadoActual := none }

/-- The function `guardarEstadoPartida` of storage.js. -/
def guardarEstadoPartida (estadoPartida : JSVal) (w : Mundo) : Resultado Unit :=
  let cadenaJSON := stringify estadoPartida
  match cifrarXOR cadenaJSON with
  | none => .lanza w
  | some estadoCifrado =>
      if estadoCifrado ≠ [] then .retorna () { w with estadoActual := some estadoCifrado }
      else .retorna () w

/-- The test `Array.isArray(v) && v.length === n`, negated in the source. -/
def esArrayDe (n : Nat) : JSVal → Bool
  | .arr xs => xs.length == n
  | _ => false

/-- The function `cargarEstadoPartida` of storage.js: the state read, or `none` for
`null`, and the storage it leaves. No exception escapes it. -/
def cargarEstadoPartida (w : Mundo) : Option JSVal × Mundo :=
  match w.estadoActual with
  | none => (none, w)
  | some estadoCifrado =>
      if estadoCifrado = [] then (none, w)
      else
        match descifrarXOR estadoCifrado with
        | none => (none, w)
        | some cadenaJSON =>
            if cadenaJSON = [] then (none, w)
            else
              match JSON_parse cadenaJSON with
              | none => (none, limpiarEstadoPartida w)
              | some estadoPartida =>
                  match estadoPartida.prop (lit "tablero") with
                  | none => (none, limpiarEstadoPartida w)
                  | some tablero =>
                      if esArrayDe 25 tablero then (some estadoPartida, w)
                      else (none, limpiarEstadoPartida w)

/-- The ids of a parsed list, `lista.map(item => item.id)`; `none` when it raises. -/
def idsDeLista : List JSVal → Option (List JSVal)
  | [] => some []
  | item :: resto =>
      match item.prop (lit "id"), idsDeLista resto with
      | some id, some ids => some (id :: ids)
      | _, _ => none

/-- The function `cargarIdsUsados` of storage.js: the members of the set it returns,
or `none` when an exception escapes it. -/
def cargarIdsUsados (w : Mundo) : Option (List JSVal) :=
  match w.palabrasUsadas with
  | none => some []
  | some data =>
      if data = [] then some []
      else
        match JSON_parse data with
        | some (.arr lista) => idsDeLista lista
        | _ => none

/-- The method `Set.prototype.has` on the members of a set. -/
def setHas (ids : List JSVal) (id : Int) : Bool :=
  ids.any (fun x => sameValueZero x (.num id))

/-- The loop `lista.forEach(item => mapaIds.set(item.id, item))`; `none` when it
raises. -/
def registrarItems : List JSVal → List (JSVal × JSVal) → Option (List (JSVal × JSVal))
  | [], mapaIds => some mapaIds
  | item :: resto, mapaIds =>
      match item.prop (lit "id") with
      | some id => registrarItems resto (mapSet id item mapaIds)
      | none => none

/-- The function `guardarNuevosIds` of storage.js; `fechaActual` is the text
`new Date().toISOString().slice(0, 10)` at the time of the call. -/
def guardarNuevosIds (fechaActual : JSString) (nuevosIds : List Int) (w : Mundo) :
    Resultado Unit :=
  let listaCompleta : Option JSVal :=
    match w.palabrasUsadas with
    | none => some (.arr [])
    | some idsAnteriores => if idsAnteriores = [] then some (.arr []) else JSON_parse idsAnteriores
  let nuevosItems : List JSVal :=
    nuevosIds.map (fun id => .obj [(lit "id", .num id), (lit "fecha", .str fechaActual)])
  match listaCompleta with
  | some (.arr lista) =>
      match registrarItems lista [] with
      | none => .lanza w
      | some mapaIds =>
          match registrarItems nuevosItems mapaIds with
          | none => .lanza w
          | some mapaIds2 =>
              .retorna ()
                { w with palabrasUsadas := some (stringify (.arr (mapaIds2.map Prod.snd))) }
  | _ => .lanza w

/-! ## game.js

The functions of ui.js draw the page and are outside the engine; of them only
`actualizarIndicadorTurno` leaves a trace here, in `indicadorTurno`. -/

/-- The function `UI.actualizarIndicadorTurno(turnoActual, juegoTerminado, mensajeFin)`. -/
def actualizarIndicadorTurno (turnoActual : TIPOS_CARTA) (juegoTerminado : Bool)
    (mensajeFin : Option String) (w : Mundo) : Mundo :=
  if juegoTerminado then { w with indicadorTurno := .fin mensajeFin }
  else { w with indicadorTurno := .turno turnoActual }

/-- The exchange `[array[i], array[j]] = [array[j], array[i]]`. -/
def intercambiar {α : Type} (array : List α) (i j : Nat) : List α :=
  match array.get? i, array.get? j with
  | some x, some y => (array.set i y).set j x
  | _, _ => array

/-- The loop of `shuffleArray` from index `i` down to 1; `azar i` is the draw made at
step `i`, which gives `j = azar i % (i + 1)`, a value of `0..i`. -/
def shuffleArray.bucle {α : Type} (azar : Nat → Nat) : Nat → List α → List α
  | 0, array => array
  | i + 1, array =>
      shuffleArray.bucle azar i (intercambiar array (i + 1) (azar (i + 1) % (i + 2)))

/-- The function `shuffleArray` of game.js (Fisher-Yates). -/
def shuffleArray {α : Type} (azar : Nat → Nat) (array : List α) : List α :=
  shuffleArray.bucle azar (array.length - 1) array

/-- The function `obtenerEstadoParaGuardar` of game.js. -/
def obtenerEstadoParaGuardar (w : Mundo) : JSVal :=
  .obj
    [ (lit "tablero", .arr (w.tableroLogico.map (fun card =>
        .obj [ (lit "id", .num card.id),
               (lit "type", .str (MAPEO_CODIGO card.type)),
               (lit "r", .bool card.revealed) ]))),
      (lit "turno", .str w.turnoActual.texto),
      (lit "terminado", .bool w.juegoTerminado),
      (lit "numTeams", .num w.numeroDeEquipos),
      (lit "turnPassRule", .bool w.paseTurnoAlFallar) ]

/-- The text naming the winners after the Assassin, in `verificarFinJuego`. -/
def equipoGanadorTexto (numeroDeEquipos : Nat) (equipoPerdedor : TIPOS_CARTA) : String :=
  if numeroDeEquipos = 2 then
    (if equipoPerdedor = .AZUL then "Rojo 🔴" else "Azul 🔵")
  else
    "Los equipos restantes: " ++
      " y ".intercalate
        (([TIPOS_CARTA.AZUL, TIPOS_CARTA.ROJO, TIPOS_CARTA.VERDE].filter
          (fun e => e ≠ equipoPerdedor)).map MAPEO_EMOJI)

/-- The function `verificarFinJuego` of game.js. -/
def verificarFinJuego (w : Mundo) : Mundo :=
  let mensaje : String :=
    if w.agentesAzulesRestantes = 0 then
      "¡<span class=\"text-blue-400 font-bold\">VICTORIA AZUL</span>! 🏆"
    else if w.agentesRojosRestantes = 0 then
      "¡<span class=\"text-red-400 font-bold\">VICTORIA ROJA</span>! 🏆"
    else if w.numeroDeEquipos = 3 ∧ w.agentesVerdesRestantes = 0 then
      "¡<span class=\"text-green-400 font-bold\">VICTORIA VERDE</span>! 🏆"
    else ""
  let asesinoRevelado :=
    w.tableroLogico.any (fun card => card.type = .ASESINO && card.revealed)
  let r : Mundo × String :=
    if asesinoRevelado then
      ({ w with juegoTerminado := true },
        "¡JUEGO TERMINADO! <span class=\"text-red-500 font-bold\">ASASINADO</span>. Ganan: "
          ++ equipoGanadorTexto w.numeroDeEquipos w.turnoActual)
    else if mensaje ≠ "" then ({ w with juegoTerminado := true }, mensaje)
    else (w, mensaje)
  if r.1.juegoTerminado then
    limpiarEstadoPartida
      (actualizarIndicadorTurno r.1.turnoActual r.1.juegoTerminado (some r.2) r.1)
  else r.1

/-- The function `recalcularEstado` of game.js. -/
def recalcularEstado (tablero : List Carta) (w : Mundo) : Resultado Unit :=
  let w1 : Mundo :=
    { w with
      agentesRojosRestantes :=
        (tablero.filter (fun c => c.type = .ROJO && !c.revealed)).length
      agentesAzulesRestantes :=
        (tablero.filter (fun c => c.type = .AZUL && !c.revealed)).length
      agentesVerdesRestantes :=
        (tablero.filter (fun c => c.type = .VERDE && !c.revealed)).length
      juegoTerminado := false }
  let w2 : Mundo :=
    if (tablero.find? (fun c => c.type = .ASESINO && c.revealed)).isSome then
      { w1 with juegoTerminado := true }
    else if w1.agentesAzulesRestantes = 0 ∨ w1.agentesRojosRestantes = 0 ∨
        (w1.numeroDeEquipos = 3 ∧ w1.agentesVerdesRestantes = 0) then
      { w1 with juegoTerminado := true }
    else w1
  let w3 := verificarFinJuego w2
  guardarEstadoPartida (obtenerEstadoParaGuardar w3) w3

/-- The method `indexOf` of an array: -1 when the element is absent. -/
def indexOf {α : Type} [DecidableEq α] (xs : List α) (x : α) : Int :=
  match xs with
  | [] => -1
  | y :: resto => if y = x then 0 else (if indexOf resto x = -1 then -1 else indexOf resto x + 1)

/-- The function `passTurn` of game.js. -/
def passTurn (w : Mundo) : Resultado Unit :=
  if w.juegoTerminado then .retorna () w
  else
    let nextTurn : TIPOS_CARTA :=
      if w.numeroDeEquipos = 2 then
        (if w.turnoActual = .AZUL then .ROJO else .AZUL)
      else if w.numeroDeEquipos = 3 then
        let teams := [TIPOS_CARTA.AZUL, TIPOS_CARTA.ROJO, TIPOS_CARTA.VERDE]
        let currentIndex := indexOf teams w.turnoActual
        let nextIndex := (currentIndex + 1) % (teams.length : Int)
        teams.getD nextIndex.toNat w.turnoActual
      else w.turnoActual
    let w1 : Mundo := { w with turnoActual := nextTurn }
    let w2 := actualizarIndicadorTurno w1.turnoActual w1.juegoTerminado none w1
    guardarEstadoPartida (obtenerEstadoParaGuardar w2) w2

/-- The function `handleCardClick` of game.js, on the card whose `data-index` is
`index`. Reading `revealed` of a card that does not exist raises. -/
def handleCardClick (index : Nat) (w : Mundo) : Resultado Unit :=
  if w.juegoTerminado then .retorna () w
  else
    match w.tableroLogico.get? index with
    | none => .lanza w
    | some cardData =>
        if cardData.revealed then .retorna () w
        else
          let w1 : Mundo :=
            { w with tableroLogico := w.tableroLogico.set index { cardData with revealed := true } }
          let equipoActual := w1.turnoActual
          let p : Mundo × Bool :=
            if cardData.type = .ASESINO then ({ w1 with juegoTerminado := true }, false)
            else if cardData.type ≠ equipoActual then
              (if w1.paseTurnoAlFallar then (w1, true) else (w1, false))
            else (w1, false)
          match recalcularEstado p.1.tableroLogico p.1 with
          | .retorna _ w2 =>
              if !w2.juegoTerminado && p.2 then passTurn w2 else .retorna () w2
          | .lanza w2 => .lanza w2
          | .noTipado => .noTipado

/-- The distribution of types `tipos` that `startNewGame` builds. -/
def tiposIniciales (startingTeam : TIPOS_CARTA) (numTeams : Nat) : List TIPOS_CARTA :=
  let equipos : List TIPOS_CARTA :=
    [.AZUL, .ROJO] ++ (if numTeams = 3 then [.VERDE] else [])
  if numTeams = 2 then
    let firstTeam := startingTeam
    let secondTeam := (equipos.find? (fun e => e ≠ firstTeam)).getD firstTeam
    List.replicate 9 firstTeam ++ List.replicate 8 secondTeam
      ++ List.replicate 7 .NEUTRAL ++ [.ASESINO]
  else
    List.replicate 8 .AZUL ++ List.replicate 8 .ROJO ++ List.replicate 8 .VERDE ++ [.ASESINO]

/-- The function `startNewGame` of game.js. `azarPalabras` and `azarTipos` are the
draws of its two shuffles and `fechaActual` the date of the call. -/
def startNewGame (azarPalabras azarTipos : Nat → Nat) (fechaActual : JSString)
    (startingTeam : TIPOS_CARTA) (numTeams : Nat) (rulePassOnMiss : Bool) (w : Mundo) :
    Resultado Unit :=
  let w1 : Mundo :=
    { w with
      juegoTerminado := false
      turnoActual := startingTeam
      numeroDeEquipos := numTeams
      paseTurnoAlFallar := rulePassOnMiss }
  let tipos := tiposIniciales startingTeam numTeams
  match cargarIdsUsados w1 with
  | none => .lanza w1
  | some idsUsados =>
      let palabrasCandidatas := w1.PALABRAS_SECRETAS.filter (fun item => !setHas idsUsados item.id)
      -- with too few candidates the pool is the dictionary array itself, shuffled in place
      let p : Mundo × List Palabra :=
        if palabrasCandidatas.length < 25 then
          let w2 := limpiarEstadoPartida w1
          let mezcla := shuffleArray azarPalabras w2.PALABRAS_SECRETAS
          ({ w2 with PALABRAS_SECRETAS := mezcla }, mezcla)
        else (w1, shuffleArray azarPalabras palabrasCandidatas)
      let palabrasMezcladas := p.2.take 25
      let idsPartidaActual := palabrasMezcladas.map (fun item => item.id)
      match guardarNuevosIds fechaActual idsPartidaActual p.1 with
      | .lanza w3 => .lanza w3
      | .noTipado => .noTipado
      | .retorna _ w3 =>
          let tiposMezclados := shuffleArray azarTipos tipos
          let w4 : Mundo :=
            { w3 with
              tableroLogico :=
                List.zipWith
                  (fun item tipo =>
                    { id := item.id, word := some item.palabra, type := tipo, revealed := false })
                  palabrasMezcladas tiposMezclados }
          let w5 := limpiarEstadoPartida w4
          match recalcularEstado w5.tableroLogico w5 with
          | .lanza w6 => .lanza w6
          | .noTipado => .noTipado
          | .retorna _ w6 =>
              .retorna () (actualizarIndicadorTurno w6.turnoActual w6.juegoTerminado none w6)

/-- Failure of reading a stored value into the typed state. -/
inductive Fallo where
  | excepcion
  | noTipado
  deriving DecidableEq, Repr

/-- The card `initGame` and `mostrarClaveSecretaURL` build from a stored entry:
`id: item.id`, `word: PALABRAS_MAPA.get(item.id)`, `type: MAPEO_INVERSO[item.type]`,
and `revealed` as `revelar` computes it from `item.r`. Reading a property of `null`
raises. -/
def reconstruirCarta (w : Mundo) (revelar : JSVal → Option Bool) (item : JSVal) :
    Except Fallo Carta :=
  match item.prop (lit "id"), item.prop (lit "type"), item.prop (lit "r") with
  | some id, some tipo, some r =>
      match id, tipo, revelar r with
      | .num n, .str codigo, some revealed =>
          match MAPEO_INVERSO codigo with
          | some type =>
              .ok { id := n, word := PALABRAS_MAPA_get w n, type := type, revealed := revealed }
          | none => .error .noTipado
      | _, _, _ => .error .noTipado
  | _, _, _ => .error .excepcion

/-- The method `map` with `reconstruirCarta` over the stored board: an exception
raised at any entry escapes; otherwise an entry outside the typed state makes the
result untyped. -/
def reconstruirTablero (w : Mundo) (revelar : JSVal → Option Bool) :
    List JSVal → Except Fallo (List Carta)
  | [] => .ok []
  | item :: resto =>
      match reconstruirCarta w revelar item, reconstruirTablero w revelar resto with
      | .error .excepcion, _ => .error .excepcion
      | _, .error .excepcion => .error .excepcion
      | .error .noTipado, _ => .error .noTipado
      | _, .error .noTipado => .error .noTipado
      | .ok c, .ok cs => .ok (c :: cs)

/-- The expression `item.r || false` as a boolean, when it is one. -/
def revelarGuardado (r : JSVal) : Option Bool :=
  if r.truthy then (match r with | .bool b => some b | _ => none) else some false

/-- The expression `estadoGuardado.turno || TIPOS_CARTA.AZUL` as a card type. -/
def leerTurno (turno : JSVal) : Option TIPOS_CARTA :=
  if turno.truthy then (match turno with | .str s => TIPOS_CARTA.deTexto s | _ => none)
  else some .AZUL

/-- The expression `estadoGuardado.numTeams || 2` as a natural number. -/
def leerNumTeams (numTeams : JSVal) : Option Nat :=
  if numTeams.truthy then
    (match numTeams with | .num n => (if 0 ≤ n then some n.toNat else none) | _ => none)
  else some 2

/-- The expression `x.turnPassRule !== undefined ? x.turnPassRule : true` as a boolean. -/
def leerTurnPassRule (turnPassRule : JSVal) : Option Bool :=
  match turnPassRule with
  | .undefined => some true
  | .bool b => some b
  | _ => none

/-- The elements of an array value. -/
def JSVal.elementos : JSVal → List JSVal
  | .arr xs => xs
  | _ => []

/-- The function `initGame` of game.js: whether a saved game was loaded. -/
def initGame (w : Mundo) : Resultado Bool :=
  match cargarEstadoPartida w with
  | (none, w1) => .retorna false w1
  | (some estadoGuardado, w1) =>
      match estadoGuardado.prop (lit "tablero"), estadoGuardado.prop (lit "turno"),
        estadoGuardado.prop (lit "terminado"), estadoGuardado.prop (lit "numTeams"),
        estadoGuardado.prop (lit "turnPassRule") with
      | some tablero, some turno, some terminado, some numTeams, some turnPassRule =>
          match reconstruirTablero w1 revelarGuardado tablero.elementos with
          | .error .excepcion => .lanza w1
          | .error .noTipado => .noTipado
          | .ok cartas =>
              match leerTurno turno, leerNumTeams numTeams, leerTurnPassRule turnPassRule with
              | some t, some n, some regla =>
                  let w2 : Mundo :=
                    { w1 with
                      tableroLogico := cartas
                      turnoActual := t
                      juegoTerminado := terminado.truthy
                      numeroDeEquipos := n
                      paseTurnoAlFallar := regla }
                  match recalcularEstado w2.tableroLogico w2 with
                  | .lanza w3 => .lanza w3
                  | .noTipado => .noTipado
                  | .retorna _ w3 =>
                      .retorna true
                        (actualizarIndicadorTurno w3.turnoActual w3.juegoTerminado none w3)
              | _, _, _ => .noTipado
      | _, _, _, _, _ => .lanza w1

/-- The function `alert`. -/
def alert (mensaje : String) (w : Mundo) : Mundo :=
  { w with alertas := w.alertas ++ [mensaje] }

/-- The function `mostrarClaveSecretaURL` of game.js. Its `catch` keeps every exception
of the `try` block inside. -/
def mostrarClaveSecretaURL (cadenaCifrada : JSString) (w : Mundo) : Resultado Unit :=
  let rechazo : Resultado Unit :=
    .retorna () (alert "Error interno al decodificar la clave." w)
  match descifrarXOR cadenaCifrada with
  | none => .retorna () (alert "Error al cargar la clave. El formato cifrado no es válido." w)
  | some cadenaJSON =>
      if cadenaJSON = [] then
        .retorna () (alert "Error al cargar la clave. El formato cifrado no es válido." w)
      else
        match JSON_parse cadenaJSON with
        | none => rechazo
        | some estadoPartida =>
            match estadoPartida.prop (lit "tablero") with
            | none => rechazo
            | some estadoDecodificado =>
                if !esArrayDe 25 estadoDecodificado then rechazo
                else
                  match reconstruirTablero w (fun _ => some true) estadoDecodificado.elementos with
                  | .error .excepcion => rechazo
                  | .error .noTipado => .noTipado
                  | .ok cartas =>
                      match estadoPartida.prop (lit "turnPassRule") with
                      | none => rechazo
                      | some turnPassRule =>
                          match leerTurnPassRule turnPassRule with
                          | none => .noTipado
                          | some regla =>
                              .retorna ()
                                { w with
                                  tableroLogico := cartas
                                  numeroDeEquipos :=
                                    if cartas.any (fun card => card.type = .VERDE) then 3 else 2
                                  paseTurnoAlFallar := regla }

/-! ## Values that `JSON.stringify` writes and `JSON.parse` reads back unchanged -/

/-- A code unit that `JSON.stringify` writes as it is and that `btoa` accepts. -/
def esSimple (c : Nat) : Bool := 32 ≤ c && c != 34 && c != 92 && c ≤ 255

mutual
/-- A value without `undefined` or fractional numbers, whose strings are made of simple
code units and whose objects do not repeat a property name. -/
def canonico : JSVal → Bool
  | .undefined => false
  | .null => true
  | .bool _ => true
  | .num _ => true
  | .numDec _ => false
  | .str s => s.all esSimple
  | .arr xs => canonicoElems xs
  | .obj ps => canonicoProps ps
/-- Every element is `canonico`. -/
def canonicoElems : List JSVal → Bool
  | [] => true
  | v :: resto => canonico v && canonicoElems resto
/-- Every property has a simple name, met once, and a `canonico` value. -/
def canonicoProps : List (JSString × JSVal) → Bool
  | [] => true
  | (k, v) :: resto =>
      k.all esSimple && canonico v && (resto.lookup k).isNone && canonicoProps resto
end

/-- The text that follows a number does not go on as a number. -/
def finNumero (rest : List Nat) : Prop :=
  ∀ c r, rest = c :: r → esDigito c = false ∧ c ≠ 46 ∧ c ≠ 101 ∧ c ≠ 69

/-! ## What `recalcularEstado` computes, in closed form -/

/-- Number of unrevealed cards of a type. -/
def restantes (t : TIPOS_CARTA) (tablero : List Carta) : Nat :=
  (tablero.filter (fun c => c.type = t && !c.revealed)).length

/-- Whether an Assassin card is revealed. -/
def asesinoRevelado (tablero : List Carta) : Bool :=
  tablero.any (fun c => c.type = .ASESINO && c.revealed)

/-- The terminal condition on a board: a revealed Assassin, or no unrevealed card left
for Blue, for Red or (with three teams) for Green. -/
def finDerivado (numeroDeEquipos : Nat) (tablero : List Carta) : Bool :=
  asesinoRevelado tablero || restantes .AZUL tablero = 0 || restantes .ROJO tablero = 0
    || (numeroDeEquipos = 3 && restantes .VERDE tablero = 0)

/-- The end message `verificarFinJuego` composes on a board. -/
def mensajeFin (numeroDeEquipos : Nat) (turnoActual : TIPOS_CARTA) (tablero : List Carta) :
    String :=
  if asesinoRevelado tablero then
    "¡JUEGO TERMINADO! <span class=\"text-red-500 font-bold\">ASASINADO</span>. Ganan: "
      ++ equipoGanadorTexto numeroDeEquipos turnoActual
  else if restantes .AZUL tablero = 0 then
    "¡<span class=\"text-blue-400 font-bold\">VICTORIA AZUL</span>! 🏆"
  else if restantes .ROJO tablero = 0 then
    "¡<span class=\"text-red-400 font-bold\">VICTORIA ROJA</span>! 🏆"
  else if numeroDeEquipos = 3 ∧ restantes .VERDE tablero = 0 then
    "¡<span class=\"text-green-400 font-bold\">VICTORIA VERDE</span>! 🏆"
  else ""

/-- The state `recalcularEstado(tableroLogico)` reaches before it saves. -/
def recalculado (w : Mundo) : Mundo :=
  { w with
    agentesRojosRestantes := restantes .ROJO w.tableroLogico
    agentesAzulesRestantes := restantes .AZUL w.tableroLogico
    agentesVerdesRestantes := restantes .VERDE w.tableroLogico
    juegoTerminado := finDerivado w.numeroDeEquipos w.tableroLogico
    indicadorTurno :=
      if finDerivado w.numeroDeEquipos w.tableroLogico then
        .fin (some (mensajeFin w.numeroDeEquipos w.turnoActual w.tableroLogico))
      else w.indicadorTurno
    estadoActual :=
      if finDerivado w.numeroDeEquipos w.tableroLogico then none else w.estadoActual }

/-- The turn `passTurn` moves to, in closed form. -/
def siguienteTurno (numeroDeEquipos : Nat) (turnoActual : TIPOS_CARTA) : TIPOS_CARTA :=
  if numeroDeEquipos = 2 then (if turnoActual = .AZUL then .ROJO else .AZUL)
  else if numeroDeEquipos = 3 then
    (match turnoActual with
      | .AZUL => .ROJO
      | .ROJO => .VERDE
      | _ => .AZUL)
  else turnoActual

/-- The board once the card at `index` is revealed. -/
def revelar (tablero : List Carta) (index : Nat) (cardData : Carta) : List Carta :=
  tablero.set index { cardData with revealed := true }

/-- The end message after the Assassin, naming `ganadores` as the winners. -/
def mensajeAsesinado (ganadores : String) : String :=
  "¡JUEGO TERMINADO! <span class=\"text-red-500 font-bold\">ASASINADO</span>. Ganan: "
    ++ ganadores

/-! ## Sample states -/

/-- A board of 25 unrevealed cards: 9 Blue, 8 Red, 7 Neutral and the Assassin last. -/
def tableroEjemplo : List Carta :=
  (List.range 25).map (fun i =>
    { id := i, word := none,
      type := if i < 9 then .AZUL else if i < 17 then .ROJO else if i < 24 then .NEUTRAL
        else .ASESINO,
      revealed := false })

/-- A game in progress on `tableroEjemplo`. -/
def mundoEjemplo (numeroDeEquipos : Nat) (turnoActual : TIPOS_CARTA) (paseTurnoAlFallar : Bool) :
    Mundo where
  tableroLogico := tableroEjemplo
  juegoTerminado := false
  agentesRojosRestantes := 8
  agentesAzulesRestantes := 9
  agentesVerdesRestantes := 0
  turnoActual := turnoActual
  numeroDeEquipos := numeroDeEquipos
  paseTurnoAlFallar := paseTurnoAlFallar
  PALABRAS_SECRETAS := []
  PALABRAS_MAPA := []
  estadoActual := none
  palabrasUsadas := none
  indicadorTurno := .turno turnoActual
  alertas := []

/-! ## The used-word record and the words of a new game, in closed form -/

/-- Whether the stored used-word record can be read: the entry is absent or empty, or it
is the JSON text of an array none of whose entries is `null`. -/
def registroLegible (palabrasUsadas : Option JSString) : Bool :=
  match palabrasUsadas with
  | none => true
  | some data =>
      data = [] ||
        (match JSON_parse data with
          | some (.arr lista) => lista.all (fun item => (item.prop (lit "id")).isSome)
          | _ => false)

/-- The entries of a readable used-word record. -/
def listaUsadas (palabrasUsadas : Option JSString) : List JSVal :=
  match palabrasUsadas with
  | none => []
  | some data =>
      if data = [] then []
      else
        match JSON_parse data with
        | some (.arr lista) => lista
        | _ => []

/-- The map `mapaIds` after the entries of `items` are set on it, when none is `null`. -/
def registrados (items : List JSVal) (mapaIds : List (JSVal × JSVal)) : List (JSVal × JSVal) :=
  items.foldl (fun m item => mapSet ((item.prop (lit "id")).getD .undefined) item m) mapaIds

/-- The entries `{ id, fecha }` that `guardarNuevosIds` makes for new ids. -/
def nuevosItems (fechaActual : JSString) (nuevosIds : List Int) : List JSVal :=
  nuevosIds.map (fun id => .obj [(lit "id", .num id), (lit "fecha", .str fechaActual)])

/-- The entries `guardarNuevosIds` writes on a readable record. -/
def usadasTras (fechaActual : JSString) (nuevosIds : List Int)
    (palabrasUsadas : Option JSString) : List JSVal :=
  (registrados (nuevosItems fechaActual nuevosIds)
    (registrados (listaUsadas palabrasUsadas) [])).map Prod.snd

/-- The ids of the entries of a readable used-word record. -/
def idsLeidos (palabrasUsadas : Option JSString) : List JSVal :=
  (listaUsadas palabrasUsadas).map (fun item => (item.prop (lit "id")).getD .undefined)

/-- The dictionary entries whose id is not in the used-word record. -/
def palabrasCandidatas (w : Mundo) : List Palabra :=
  w.PALABRAS_SECRETAS.filter (fun item => !setHas (idsLeidos w.palabrasUsadas) item.id)

/-- The words `startNewGame` takes for the board: the first 25 of the shuffled
candidates, or of the shuffled dictionary when fewer than 25 candidates are left. -/
def palabrasElegidas (azarPalabras : Nat → Nat) (w : Mundo) : List Palabra :=
  if (palabrasCandidatas w).length < 25 then
    (shuffleArray azarPalabras w.PALABRAS_SECRETAS).take 25
  else (shuffleArray azarPalabras (palabrasCandidatas w)).take 25

/-- The board `startNewGame` builds. -/
def tableroNuevo (azarPalabras azarTipos : Nat → Nat) (startingTeam : TIPOS_CARTA)
    (numTeams : Nat) (w : Mundo) : List Carta :=
  List.zipWith
    (fun (item : Palabra) (tipo : TIPOS_CARTA) =>
      ({ id := item.id, word := some item.palabra, type := tipo, revealed := false } : Carta))
    (palabrasElegidas azarPalabras w)
    (shuffleArray azarTipos (tiposIniciales startingTeam numTeams))

/-- Number of cards of a type on a board. -/
def cuenta (t : TIPOS_CARTA) (tablero : List Carta) : Nat :=
  tablero.countP (fun c => c.type = t)

/-- The state `startNewGame` has built when it calls `recalcularEstado`, for a readable
used-word record. -/
def mundoNuevo (azarPalabras azarTipos : Nat → Nat) (fechaActual : JSString)
    (startingTeam : TIPOS_CARTA) (numTeams : Nat) (rulePassOnMiss : Bool) (w : Mundo) : Mundo :=
  { w with
    juegoTerminado := false
    turnoActual := startingTeam
    numeroDeEquipos := numTeams
    paseTurnoAlFallar := rulePassOnMiss
    PALABRAS_SECRETAS :=
      if (palabrasCandidatas w).length < 25 then shuffleArray azarPalabras w.PALABRAS_SECRETAS
      else w.PALABRAS_SECRETAS
    palabrasUsadas :=
      some (stringify (.arr (usadasTras fechaActual
        ((palabrasElegidas azarPalabras w).map (fun item => item.id)) w.palabrasUsadas)))
    tableroLogico := tableroNuevo azarPalabras azarTipos startingTeam numTeams w
    estadoActual := none }

/-- A dictionary of 30 entries, with ids 0 to 29. -/
def diccionarioEjemplo : List Palabra :=
  (List.range 30).map (fun (i : Nat) => { id := (i : Int), palabra := lit "palabra" ++ decimal i })

/-- A stored used-word record: the text `[{"id":20,"fecha":"2024-05-01"}, ...]` for the
ids 20 to 29, which leaves 20 entries of `diccionarioEjemplo` unused. -/
def usadasEjemplo : JSString :=
  stringify (.arr (nuevosItems (lit "2024-05-01")
    [20, 21, 22, 23, 24, 25, 26, 27, 28, 29]))

/-- A sequence of clicks, one `handleCardClick` after another. -/
def jugar : List Nat → Mundo → Resultado Unit
  | [], w => .retorna () w
  | index :: resto, w =>
      match handleCardClick index w with
      | .retorna _ w2 => jugar resto w2
      | .lanza w2 => .lanza w2
      | .noTipado => .noTipado

/-- The end message that announces the victory of Blue. -/
def VICTORIA_AZUL : String :=
  "¡<span class=\"text-blue-400 font-bold\">VICTORIA AZUL</span>! 🏆"

/-- The integer a value is, if it is one. -/
def JSVal.entero : JSVal → Option Int
  | .num n => some n
  | _ => none


/-! ## Notions used by the claims on clicks, passes and reachable states -/

/-- Whether a text is valid Base64 for `atob`: once ASCII whitespace is removed and, when
the length left is a multiple of 4, one or two final `=` are dropped, the length is not
1 modulo 4 and every code unit belongs to the Base64 alphabet. -/
def esBase64 (s : JSString) : Bool :=
  let datos := s.filter (fun c => !esEspacio64 c)
  let datos := if datos.length % 4 = 0 then quitarRelleno datos else datos
  datos.length % 4 != 1 && datos.all (fun c => (val64 c).isSome)

/-- The state a call leaves behind, whether it returns or raises; `previo` is the state
before the call. -/
def Resultado.estado {α : Type} (r : Resultado α) (previo : Mundo) : Mundo :=
  match r with
  | .retorna _ w => w
  | .lanza w => w
  | .noTipado => previo

/-- A move of a game: a click on the card at an index, or a pass of the turn. -/
inductive Accion where
  | click (index : Nat)
  | pase
  deriving DecidableEq, Repr

/-- The state after a sequence of moves, each applied to the state the one before leaves. -/
def ejecutar : List Accion → Mundo → Mundo
  | [], w => w
  | .click index :: resto, w => ejecutar resto ((handleCardClick index w).estado w)
  | .pase :: resto, w => ejecutar resto ((passTurn w).estado w)

/-- Whether a team plays in a game of `numeroDeEquipos` teams: Blue and Red with two
teams; Blue, Red and Green with three. -/
def equipoActivo (numeroDeEquipos : Nat) (t : TIPOS_CARTA) : Bool :=
  (numeroDeEquipos = 2 && (t = .AZUL || t = .ROJO))
    || (numeroDeEquipos = 3 && (t = .AZUL || t = .ROJO || t = .VERDE))

/-- The snapshot key holds the encoding of the projection of the state: a token that
`descifrarXOR` decodes to the JSON text of `obtenerEstadoParaGuardar`, which `JSON.parse`
reads back as that projection. -/
def instantaneaAlDia (w : Mundo) : Prop :=
  ∃ token, w.estadoActual = some token ∧ token ≠ [] ∧
    descifrarXOR token = some (stringify (obtenerEstadoParaGuardar w)) ∧
    JSON_parse (stringify (obtenerEstadoParaGuardar w)) = some (obtenerEstadoParaGuardar w)

/-! ## The keys of the used-word record -/

/-- The key under which `guardarNuevosIds` sets an entry on its map: `item.id`. -/
def claveDe (item : JSVal) : JSVal := (item.prop (lit "id")).getD .undefined

/-- The keys of a map once `k` is set on it: `k` comes last when no key equals it. -/
def agregarClave (k : JSVal) (ks : List JSVal) : List JSVal :=
  if ks.any (fun x => sameValueZero x k) then ks else ks ++ [k]

/-- The keys of a map once the entries of `items` are set on it, in order. -/
def claves (items : List JSVal) (ks : List JSVal) : List JSVal :=
  items.foldl (fun ks item => agregarClave (claveDe item) ks) ks

/-- A used-word record whose entries are plain JSON values: it can be read, and every
entry is made of integers, booleans, `null`, strings of simple code units, arrays and
objects without a repeated property name. The entries `{ id, fecha }` that
`guardarNuevosIds` writes are of this kind. -/
def registroCanonico (palabrasUsadas : Option JSString) : Bool :=
  registroLegible palabrasUsadas && canonicoElems (listaUsadas palabrasUsadas)

/-- A stored used-word record: the text `[{"id":0,"fecha":"2024-05-01"}, ...]` for the
ids 0, 1 and 2, which leaves 27 entries of `diccionarioEjemplo` unused. -/
def usadasPocas : JSString :=
  stringify (.arr (nuevosItems (lit "2024-05-01") [0, 1, 2]))

/-! ## Sample states with three teams -/

/-- A board of 25 unrevealed cards for three teams: 8 Blue, 8 Red, 8 Green and the
Assassin last. -/
def tableroTres : List Carta :=
  (List.range 25).map (fun i =>
    { id := i, word := none,
      type := if i < 8 then .AZUL else if i < 16 then .ROJO else if i < 24 then .VERDE
        else .ASESINO,
      revealed := false })

/-- A three-team game in progress on `tableroTres`, Blue to play, without the rule of
passing the turn on a miss. -/
def mundoTres : Mundo :=
  { mundoEjemplo 3 .AZUL false with
    tableroLogico := tableroTres
    agentesRojosRestantes := 8
    agentesAzulesRestantes := 8
    agentesVerdesRestantes := 8 }

/-- The end message that announces the victory of a team. -/
def mensajeVictoria : TIPOS_CARTA → String
  | .AZUL => "¡<span class=\"text-blue-400 font-bold\">VICTORIA AZUL</span>! 🏆"
  | .ROJO => "¡<span class=\"text-red-400 font-bold\">VICTORIA ROJA</span>! 🏆"
  | .VERDE => "¡<span class=\"text-green-400 font-bold\">VICTORIA VERDE</span>! 🏆"
  | _ => ""

/-- A two-team game in progress, Blue to play under the rule of passing on a miss, in
which a single Red card is still unrevealed, the one at index 16. -/
def mundoUltimaRoja : Mundo :=
  { mundoEjemplo 2 .AZUL true with
    tableroLogico :=
      tableroEjemplo.map (fun c =>
        if 9 ≤ c.id ∧ c.id < 16 then { c with revealed := true } else c)
    agentesRojosRestantes := 1 }

/-- A state whose finished flag is set although its board, 25 unrevealed cards, is not
in a terminal condition. -/
def mundoMarcado : Mundo :=
  { mundoEjemplo 2 .AZUL true with juegoTerminado := true }

/-! ## What the import of a leader token makes of the token -/

/-- The card the import builds from an entry of the token, `{ id: item.id, word:
PALABRAS_MAPA.get(item.id), type: TIPOS_CARTA.MAPEO_INVERSO[item.type], revealed: true }`,
as a relation between the entry and a card of the typed state: the entry has an integer
`id` and the code of a card type as `type`. -/
def cartaImportada (w : Mundo) (item : JSVal) (carta : Carta) : Prop :=
  ∃ n codigo, item.prop (lit "id") = some (.num n) ∧
    item.prop (lit "type") = some (.str codigo) ∧
    MAPEO_INVERSO codigo = some carta.type ∧
    carta.id = n ∧ carta.word = PALABRAS_MAPA_get w n ∧ carta.revealed = true

/-- The rule the import takes from a token: its `turnPassRule` when that is a boolean,
and `true` when the token has none. -/
def reglaImportada (estadoPartida : JSVal) (regla : Bool) : Prop :=
  (estadoPartida.prop (lit "turnPassRule") = some .undefined ∧ regla = true) ∨
    estadoPartida.prop (lit "turnPassRule") = some (.bool regla)
/-! ## Lemmas on the codec -/

theorem val64_car64 (n : Nat) (h : n < 64) : val64 (car64 n) = some n := by
  unfold car64 val64
  split_ifs <;> first | omega | (congr 1; omega)

theorem car64_ne_relleno (n : Nat) : car64 n ≠ 61 := by
  unfold car64
  split_ifs <;> omega

theorem car64_no_espacio (n : Nat) : esEspacio64 (car64 n) = false := by
  unfold car64 esEspacio64
  split_ifs <;> simp <;> omega

theorem quitarRelleno_cons (c : Nat) (r : List Nat) (h : c ≠ 61) :
    quitarRelleno (c :: r) = c :: quitarRelleno r := by
  cases r with
  | nil => simp [quitarRelleno, h]
  | cons d r => 
    cases r with
    | nil => simp [quitarRelleno, h]
    | cons e r => simp [quitarRelleno]

theorem codificar64_length (s : List Nat) : (codificar64 s).length % 4 = 0 := by
  induction s using codificar64.induct with
  | case1 a b c resto ih => simp [codificar64]; omega
  | case2 a b => simp [codificar64]
  | case3 a => simp [codificar64]
  | case4 => simp [codificar64]

theorem codificar64_filter (s : List Nat) :
    (codificar64 s).filter (fun c => !esEspacio64 c) = codificar64 s := by
  induction s using codificar64.induct with
  | case1 a b c resto ih => simp [codificar64, car64_no_espacio, ih]
  | case2 a b =>
    have h61 : esEspacio64 61 = false := by decide
    simp [codificar64, car64_no_espacio, h61]
  | case3 a =>
    have h61 : esEspacio64 61 = false := by decide
    simp [codificar64, car64_no_espacio, h61]
  | case4 => simp [codificar64]

theorem decodificar64_codificar64 (s : List Nat) (h : ∀ c ∈ s, c ≤ 255) :
    (quitarRelleno (codificar64 s)).length % 4 ≠ 1 ∧
      (sextetos (quitarRelleno (codificar64 s))).map decodificar64 = some s := by
  induction s using codificar64.induct with
  | case1 a b c resto ih =>
    have ha : a ≤ 255 := h a (by simp)
    have hb : b ≤ 255 := h b (by simp)
    have hc : c ≤ 255 := h c (by simp)
    have hr := ih (fun x hx => h x (by simp [hx]))
    obtain ⟨h1, h2⟩ := hr
    simp only [codificar64, quitarRelleno_cons _ _ (car64_ne_relleno _)]
    constructor
    · simp only [List.length_cons]; omega
    · cases hs : sextetos (quitarRelleno (codificar64 resto)) with
      | none => simp [hs] at h2
      | some ss =>
        rw [hs] at h2
        simp only [Option.map_some', Option.some.injEq] at h2
        simp only [sextetos, hs, val64_car64 (a / 4) (by omega),
          val64_car64 (a % 4 * 16 + b / 16) (by omega),
          val64_car64 (b % 16 * 4 + c / 64) (by omega), val64_car64 (c % 64) (by omega),
          Option.map_some', decodificar64, h2]
        congr 2
        · omega
        · congr 1
          · omega
          · congr 1; omega
  | case2 a b =>
    have ha : a ≤ 255 := h a (by simp)
    have hb : b ≤ 255 := h b (by simp)
    simp only [codificar64, quitarRelleno_cons _ _ (car64_ne_relleno _), quitarRelleno]
    constructor
    · simp
    · simp only [sextetos, val64_car64 (a / 4) (by omega),
          val64_car64 (a % 4 * 16 + b / 16) (by omega),
          val64_car64 (b % 16 * 4) (by omega), Option.map_some', decodificar64]
      congr 2
      · omega
      · congr 1; omega
  | case3 a =>
    have ha : a ≤ 255 := h a (by simp)
    simp only [codificar64, quitarRelleno_cons _ _ (car64_ne_relleno _), quitarRelleno]
    constructor
    · simp
    · simp only [sextetos, val64_car64 (a / 4) (by omega),
          val64_car64 (a % 4 * 16) (by omega), Option.map_some', decodificar64]
      congr 2
      omega
  | case4 => simp [codificar64, quitarRelleno, sextetos, decodificar64]

theorem atob_btoa (s : JSString) (h : ∀ c ∈ s, c ≤ 255) :
    ∃ t, btoa s = some t ∧ atob t = some s := by
  refine ⟨codificar64 s, ?_, ?_⟩
  · unfold btoa
    rw [if_pos]
    simpa using h
  · obtain ⟨h1, h2⟩ := decodificar64_codificar64 s h
    unfold atob
    simp only [codificar64_filter, codificar64_length, if_true]
    rw [if_neg h1]
    exact h2


theorem keyChar_lt (i : Nat) :
    charCodeAt ENCRYPTION_KEY (i % ENCRYPTION_KEY.length) < 2 ^ 8 := by
  have h : i % ENCRYPTION_KEY.length < 7 := Nat.mod_lt _ (by decide)
  generalize i % ENCRYPTION_KEY.length = j at h
  interval_cases j <;> decide

theorem bucleXOR_le (i : Nat) (s : JSString) (h : ∀ c ∈ s, c ≤ 255) :
    ∀ c ∈ bucleXOR i s, c ≤ 255 := by
  induction s generalizing i with
  | nil => simp [bucleXOR]
  | cons c resto ih =>
    intro x hx
    simp only [bucleXOR, List.mem_cons] at hx
    rcases hx with hx | hx
    · have hc : c < 2 ^ 8 := by have := h c (by simp); omega
      have := Nat.xor_lt_two_pow hc (keyChar_lt i)
      subst hx
      unfold fromCharCode
      omega
    · exact ih (i + 1) (fun y hy => h y (by simp [hy])) x hx

theorem bucleXOR_involutivo (i : Nat) (s : JSString) (h : ∀ c ∈ s, c ≤ 255) :
    bucleXOR i (bucleXOR i s) = s := by
  induction s generalizing i with
  | nil => simp [bucleXOR]
  | cons c resto ih =>
    have hc : c < 2 ^ 8 := by have := h c (by simp); omega
    have hx := Nat.xor_lt_two_pow hc (keyChar_lt i)
    have h1 : fromCharCode (c ^^^ charCodeAt ENCRYPTION_KEY (i % ENCRYPTION_KEY.length))
        = c ^^^ charCodeAt ENCRYPTION_KEY (i % ENCRYPTION_KEY.length) := by
      unfold fromCharCode; omega
    have h2 : fromCharCode c = c := by unfold fromCharCode; omega
    simp only [bucleXOR, h1, Nat.xor_assoc, Nat.xor_self, Nat.xor_zero, h2,
      ih (i + 1) (fun y hy => h y (by simp [hy]))]


theorem descifrar_tras_cifrar (s : JSString) (h : ∀ c ∈ s, c ≤ 255) :
    ∃ t, cifrarXOR s = some t ∧ descifrarXOR t = some s := by
  obtain ⟨t, h1, h2⟩ := atob_btoa (bucleXOR 0 s) (bucleXOR_le 0 s h)
  refine ⟨t, by unfold cifrarXOR; exact h1, ?_⟩
  simp only [descifrarXOR, h2, bucleXOR_involutivo 0 s h]

/-! ## Lemmas on `JSON.stringify` and `JSON.parse` -/

theorem comillasAux_simple (b : Bool) (s : JSString) (h : s.all esSimple = true) :
    comillasAux b s = s := by
  induction s generalizing b with
  | nil => simp [comillasAux]
  | cons c r ih =>
    simp only [List.all_cons, Bool.and_eq_true] at h
    obtain ⟨hc, hr⟩ := h
    simp only [esSimple, Bool.and_eq_true, decide_eq_true_eq, bne_iff_ne, ne_eq] at hc
    obtain ⟨⟨⟨h1, h2⟩, h3⟩, h4⟩ := hc
    have ha : esAlto c = false := by simp [esAlto]; omega
    have hb : esBajo c = false := by simp [esBajo]; omega
    unfold comillasAux
    rw [if_neg h2, if_neg h3, if_neg (by omega), if_neg (by omega), if_neg (by omega),
      if_neg (by omega), if_neg (by omega), if_neg (by omega)]
    simp [ha, hb, ih false hr]

theorem parseString_simple (s : JSString) (rest : List Nat) (f : Nat)
    (h : s.all esSimple = true) (hf : s.length + 1 ≤ f) :
    parseString f (s ++ 34 :: rest) = some (s, rest) := by
  induction s generalizing f with
  | nil =>
    obtain ⟨g, rfl⟩ : ∃ g, f = g + 1 := ⟨f - 1, by simp at hf; omega⟩
    simp [parseString]
  | cons c r ih =>
    simp only [List.all_cons, Bool.and_eq_true] at h
    obtain ⟨hc, hr⟩ := h
    simp only [esSimple, Bool.and_eq_true, decide_eq_true_eq, bne_iff_ne, ne_eq] at hc
    obtain ⟨⟨⟨h1, h2⟩, h3⟩, h4⟩ := hc
    obtain ⟨g, rfl⟩ : ∃ g, f = g + 1 := ⟨f - 1, by simp at hf; omega⟩
    simp only [List.length_cons] at hf
    simp only [List.cons_append, parseString]
    rw [if_neg h2, if_neg h3, if_neg (by omega)]
    simp only [List.append_eq, ih g hr (by omega)]

theorem digitosAux_digitos (f n : Nat) (acc : List Nat)
    (hacc : ∀ c ∈ acc, esDigito c = true) : ∀ c ∈ digitosAux f n acc, esDigito c = true := by
  induction f generalizing n acc with
  | zero => simpa [digitosAux] using hacc
  | succ f ih =>
    unfold digitosAux
    split_ifs with h
    · intro c hc
      simp only [List.mem_cons] at hc
      rcases hc with rfl | hc
      · simp [esDigito]; omega
      · exact hacc c hc
    · apply ih
      intro c hc
      simp only [List.mem_cons] at hc
      rcases hc with rfl | hc
      · simp [esDigito]; omega
      · exact hacc c hc

theorem digitosAux_valor (f n : Nat) (acc : List Nat) (hf : n < f) :
    List.foldl (fun acc d => acc * 10 + (d - 48)) 0 (digitosAux f n acc)
      = List.foldl (fun acc d => acc * 10 + (d - 48)) n acc := by
  induction f generalizing n acc with
  | zero => omega
  | succ f ih =>
    unfold digitosAux
    split_ifs with h
    · simp
    · rw [ih (n / 10) _ (by omega)]
      simp only [List.foldl_cons]
      congr 1
      omega

theorem valorDigitos_decimal (n : Nat) : valorDigitos (decimal n) = n := by
  unfold valorDigitos decimal
  rw [digitosAux_valor (n + 1) n [] (by omega)]
  rfl

theorem decimal_digitos (n : Nat) : ∀ c ∈ decimal n, esDigito c = true :=
  digitosAux_digitos (n + 1) n [] (by simp)

theorem digitosAux_cabeza (f n : Nat) (acc : List Nat) (hf : n < f) (hn : 0 < n) :
    ∃ c r, digitosAux f n acc = c :: r ∧ 49 ≤ c ∧ c ≤ 57 := by
  induction f generalizing n acc with
  | zero => omega
  | succ f ih =>
    unfold digitosAux
    split_ifs with h
    · exact ⟨48 + n, acc, rfl, by omega, by omega⟩
    · exact ih (n / 10) _ (by omega) (by omega)

theorem decimal_cabeza (n : Nat) (hn : 0 < n) :
    ∃ c r, decimal n = c :: r ∧ 49 ≤ c ∧ c ≤ 57 :=
  digitosAux_cabeza (n + 1) n [] (by omega) hn

theorem decimal_cero : decimal 0 = [48] := by decide

theorem tomarDigitos_append (ds rest : List Nat) (h : ∀ c ∈ ds, esDigito c = true)
    (hr : ∀ c r, rest = c :: r → esDigito c = false) :
    tomarDigitos (ds ++ rest) = (ds, rest) := by
  induction ds with
  | nil =>
    cases rest with
    | nil => simp [tomarDigitos]
    | cons c r => simp [tomarDigitos, hr c r rfl]
  | cons d ds ih =>
    have hd := h d (by simp)
    simp only [List.cons_append, tomarDigitos, hd, if_true, List.append_eq,
      ih (fun c hc => h c (by simp [hc]))]

theorem parseSinSigno_decimal (neg : Bool) (n : Nat) (rest : List Nat) (hr : finNumero rest) :
    parseSinSigno neg (decimal n ++ rest)
      = some (.num (if neg then -(n : Int) else n), rest) := by
  have hfrac : parseFraccion rest = some ([], rest) := by
    unfold parseFraccion
    cases rest with
    | nil => rfl
    | cons c r => simp [(hr c r rfl).2.1]
  have hexp : parseExponente rest = some ([], rest) := by
    unfold parseExponente
    cases rest with
    | nil => rfl
    | cons c r => simp [(hr c r rfl).2.2.1, (hr c r rfl).2.2.2]
  rcases Nat.eq_zero_or_pos n with rfl | hn
  · simp [decimal_cero, parseSinSigno, esDigito, hfrac, hexp, valorDigitos]
  · obtain ⟨c, r, hcr, h1, h2⟩ := decimal_cabeza n hn
    have hd : esDigito c = true := by simp [esDigito]; omega
    have htd : tomarDigitos (c :: (r ++ rest)) = (decimal n, rest) := by
      rw [← List.cons_append, ← hcr]
      exact tomarDigitos_append _ _ (decimal_digitos n) (fun c r h => (hr c r h).1)
    rw [hcr]
    simp only [List.cons_append, parseSinSigno, hd, if_true]
    rw [if_neg (by omega), htd]
    simp [hfrac, hexp, valorDigitos_decimal]

theorem parseNumber_decimalInt (n : Int) (rest : List Nat) (hr : finNumero rest) :
    parseNumber (decimalInt n ++ rest) = some (.num n, rest) := by
  unfold decimalInt
  split_ifs with h
  · simp only [List.cons_append, parseNumber, if_true]
    rw [parseSinSigno_decimal true _ rest hr]
    simp only [if_true]
    congr 3
    omega
  · rcases Nat.eq_zero_or_pos n.toNat with h0 | hn
    · have : n = 0 := by omega
      subst this
      simp only [Int.toNat_zero, decimal_cero, List.cons_append, List.nil_append, parseNumber]
      rw [if_neg (by decide)]
      have := parseSinSigno_decimal false 0 rest hr
      simpa [decimal_cero] using this
    · obtain ⟨c, r, hcr, h1, h2⟩ := decimal_cabeza _ hn
      have := parseSinSigno_decimal false n.toNat rest hr
      rw [hcr] at this ⊢
      simp only [List.cons_append, parseNumber]
      rw [if_neg (by omega)]
      simp only [List.cons_append] at this
      rw [this]
      simp only [Bool.false_eq_true, if_false]
      congr 3
      omega


theorem skipWs_cons (c : Nat) (r : List Nat) (h : esBlanco c = false) :
    skipWs (c :: r) = c :: r := by
  simp [skipWs, h]

theorem stringifyProps_cons (k : JSString) (v : JSVal) (resto : List (JSString × JSVal))
    (hv : canonico v = true) :
    stringifyProps ((k, v) :: resto) =
      match stringifyProps resto with
      | [] => comillas k ++ 58 :: stringify v
      | c :: r => comillas k ++ 58 :: stringify v ++ 44 :: c :: r := by
  cases v <;> first | (simp [canonico] at hv; done) | simp only [stringifyProps]

theorem stringifyProps_cabeza (k : JSString) (v : JSVal) (resto : List (JSString × JSVal))
    (hv : canonico v = true) :
    ∃ r, stringifyProps ((k, v) :: resto) = 34 :: r := by
  rw [stringifyProps_cons k v resto hv]
  split <;> simp [comillas]

/-- First character of the text of a canonical value. -/
theorem stringify_cabeza (v : JSVal) (hv : canonico v = true) :
    ∃ c r, stringify v = c :: r ∧ esBlanco c = false ∧ c ≠ 93 ∧ c ≠ 125 ∧ c ≠ 44 := by
  cases v with
  | undefined => simp [canonico] at hv
  | null => exact ⟨_, _, rfl, by decide, by decide, by decide, by decide⟩
  | bool b => cases b <;> exact ⟨_, _, rfl, by decide, by decide, by decide, by decide⟩
  | num n =>
    simp only [stringify, decimalInt]
    split_ifs with h
    · exact ⟨_, _, rfl, by decide, by decide, by decide, by decide⟩
    · rcases Nat.eq_zero_or_pos n.toNat with h0 | hn
      · rw [h0, decimal_cero]
        exact ⟨_, _, rfl, by decide, by decide, by decide, by decide⟩
      · obtain ⟨c, r, hcr, h1, h2⟩ := decimal_cabeza _ hn
        refine ⟨c, r, hcr, ?_, by omega, by omega, by omega⟩
        simp [esBlanco]; omega
  | numDec l => simp [canonico] at hv
  | str s => exact ⟨34, _, rfl, by decide, by decide, by decide, by decide⟩
  | arr xs =>
    exact ⟨91, stringifyElems xs ++ [93], by simp [stringify], by decide, by decide, by decide,
      by decide⟩
  | obj ps =>
    exact ⟨123, stringifyProps ps ++ [125], by simp [stringify], by decide, by decide,
      by decide, by decide⟩

theorem finNumero_cons (c : Nat) (r : List Nat) (h1 : esDigito c = false) (h2 : c ≠ 46)
    (h3 : c ≠ 101) (h4 : c ≠ 69) : finNumero (c :: r) := by
  intro d r2 h
  simp only [List.cons.injEq] at h
  obtain ⟨rfl, _⟩ := h
  exact ⟨h1, h2, h3, h4⟩

theorem finNumero_nil : finNumero [] := by
  intro d r2 h
  simp at h

theorem parseValue_numero (g : Nat) (c : Nat) (r : List Nat)
    (hc : c = 45 ∨ esDigito c = true) :
    parseValue (g + 1) (c :: r) = parseNumber (c :: r) := by
  have hb : esBlanco c = false := by
    rcases hc with rfl | h
    · decide
    · simp [esDigito] at h; simp [esBlanco]; omega
  have hne : c ≠ 34 ∧ c ≠ 91 ∧ c ≠ 123 ∧ c ≠ 110 ∧ c ≠ 116 ∧ c ≠ 102 := by
    rcases hc with rfl | h
    · decide
    · simp [esDigito] at h; omega
  rw [parseValue]
  simp only [skipWs_cons c r hb]
  rw [if_neg hne.1, if_neg hne.2.1, if_neg hne.2.2.1, if_neg hne.2.2.2.1,
    if_neg hne.2.2.2.2.1, if_neg hne.2.2.2.2.2]

theorem decimalInt_cabeza (n : Int) :
    ∃ c r, decimalInt n = c :: r ∧ (c = 45 ∨ esDigito c = true) := by
  unfold decimalInt
  split_ifs with h
  · exact ⟨_, _, rfl, Or.inl rfl⟩
  · rcases Nat.eq_zero_or_pos n.toNat with h0 | hn
    · rw [h0, decimal_cero]
      exact ⟨_, _, rfl, Or.inr (by decide)⟩
    · obtain ⟨c, r, hcr, h1, h2⟩ := decimal_cabeza _ hn
      exact ⟨c, r, hcr, Or.inr (by simp [esDigito]; omega)⟩

mutual
theorem parseValue_stringify : (v : JSVal) → (rest : List Nat) → (f : Nat) →
    canonico v = true → finNumero rest → 2 * (stringify v).length ≤ f →
    parseValue f (stringify v ++ rest) = some (v, rest)
  | .undefined, _, _, hc, _, _ => by simp [canonico] at hc
  | .numDec _, _, _, hc, _, _ => by simp [canonico] at hc
  | .null, rest, f, _, _, hf => by
    obtain ⟨g, rfl⟩ : ∃ g, f = g + 1 := ⟨f - 1, by simp [stringify] at hf; omega⟩
    simp [stringify, parseValue, skipWs, esBlanco]
  | .bool true, rest, f, _, _, hf => by
    obtain ⟨g, rfl⟩ : ∃ g, f = g + 1 := ⟨f - 1, by simp [stringify] at hf; omega⟩
    simp [stringify, parseValue, skipWs, esBlanco]
  | .bool false, rest, f, _, _, hf => by
    obtain ⟨g, rfl⟩ : ∃ g, f = g + 1 := ⟨f - 1, by simp [stringify] at hf; omega⟩
    simp [stringify, parseValue, skipWs, esBlanco]
  | .num n, rest, f, _, hr, hf => by
    obtain ⟨c, r, hcr, hc⟩ := decimalInt_cabeza n
    obtain ⟨g, rfl⟩ : ∃ g, f = g + 1 := ⟨f - 1, by simp [stringify, hcr] at hf; omega⟩
    have := parseNumber_decimalInt n rest hr
    simp only [stringify]
    rw [hcr] at this ⊢
    rw [List.cons_append, parseValue_numero g c _ hc]
    exact this
  | .str s, rest, f, hc, _, hf => by
    obtain ⟨g, rfl⟩ : ∃ g, f = g + 1 := ⟨f - 1, by simp [stringify, comillas] at hf; omega⟩
    simp only [canonico] at hc
    simp only [stringify, comillas, comillasAux_simple false s hc, List.cons_append,
      List.append_assoc, List.singleton_append, List.nil_append]
    rw [parseValue]
    simp only [skipWs_cons 34 _ (by decide), if_true]
    rw [parseString_simple s rest _ hc (by simp)]
  | .arr [], rest, f, _, _, hf => by
    obtain ⟨g, rfl⟩ : ∃ g, f = g + 1 := ⟨f - 1, by simp [stringify] at hf; omega⟩
    simp [stringify, stringifyElems, parseValue, skipWs, esBlanco]
  | .arr (v :: xs), rest, f, hc, _, hf => by
    obtain ⟨g, rfl⟩ : ∃ g, f = g + 1 := ⟨f - 1, by simp [stringify] at hf; omega⟩
    simp only [canonico] at hc
    have hv : canonico v = true := by
      simp only [canonicoElems, Bool.and_eq_true] at hc; exact hc.1
    have ih := parseElements_stringify (v :: xs) rest g (by simp) hc
      (by simp only [stringify, List.length_cons, List.length_append, List.length_nil] at hf
          omega)
    obtain ⟨c, r, hcr, hb, h93, _, _⟩ := stringify_cabeza v hv
    have hcab : ∃ r2, stringifyElems (v :: xs) = c :: r2 := by
      cases xs with
      | nil => exact ⟨r, by simp [stringifyElems, hcr]⟩
      | cons w xs => exact ⟨r ++ 44 :: stringifyElems (w :: xs), by simp [stringifyElems, hcr]⟩
    obtain ⟨r2, hr2⟩ := hcab
    simp only [stringify, List.cons_append, List.append_assoc, List.singleton_append,
      List.nil_append]
    rw [parseValue]
    simp only [skipWs_cons 91 _ (by decide), if_true]
    rw [ih, hr2, List.cons_append, skipWs_cons c _ hb]
    simp [h93]
  | .obj [], rest, f, _, _, hf => by
    obtain ⟨g, rfl⟩ : ∃ g, f = g + 1 := ⟨f - 1, by simp [stringify] at hf; omega⟩
    simp [stringify, stringifyProps, parseValue, skipWs, esBlanco]
  | .obj ((k, v) :: ps), rest, f, hc, _, hf => by
    obtain ⟨g, rfl⟩ : ∃ g, f = g + 1 := ⟨f - 1, by simp [stringify] at hf; omega⟩
    simp only [canonico] at hc
    have hv : canonico v = true := by
      simp only [canonicoProps, Bool.and_eq_true] at hc; exact hc.1.1.2
    have ih := parseMembers_stringify ((k, v) :: ps) rest g (by simp) hc
      (by simp only [stringify, List.length_cons, List.length_append, List.length_nil] at hf
          omega)
    obtain ⟨r2, hr2⟩ := stringifyProps_cabeza k v ps hv
    simp only [stringify, List.cons_append, List.append_assoc, List.singleton_append,
      List.nil_append]
    rw [parseValue]
    simp only [skipWs_cons 123 _ (by decide), if_true]
    rw [ih, hr2, List.cons_append, skipWs_cons 34 _ (by decide)]
    simp
theorem parseElements_stringify : (xs : List JSVal) → (rest : List Nat) → (f : Nat) →
    xs ≠ [] → canonicoElems xs = true → 2 * (stringifyElems xs).length + 1 ≤ f →
    parseElements f (stringifyElems xs ++ 93 :: rest) = some (xs, rest)
  | [], _, _, h, _, _ => absurd rfl h
  | [v], rest, f, _, hc, hf => by
    obtain ⟨g, rfl⟩ : ∃ g, f = g + 1 := ⟨f - 1, by omega⟩
    simp only [canonicoElems, Bool.and_eq_true] at hc
    simp only [stringifyElems] at hf ⊢
    rw [parseElements]
    rw [parseValue_stringify v (93 :: rest) g hc.1
      (finNumero_cons 93 rest (by decide) (by decide) (by decide) (by decide)) (by omega)]
    simp [skipWs_cons 93 _ (by decide)]
  | v :: w :: xs, rest, f, _, hc, hf => by
    obtain ⟨g, rfl⟩ : ∃ g, f = g + 1 := ⟨f - 1, by omega⟩
    have hc2 : canonico v = true ∧ canonicoElems (w :: xs) = true := by
      simpa only [canonicoElems, Bool.and_eq_true] using hc
    have hlen : (stringifyElems (v :: w :: xs)).length
        = (stringify v).length + 1 + (stringifyElems (w :: xs)).length := by
      simp [stringifyElems]; omega
    rw [hlen] at hf
    have e : stringifyElems (v :: w :: xs) ++ 93 :: rest
        = stringify v ++ 44 :: (stringifyElems (w :: xs) ++ 93 :: rest) := by
      simp [stringifyElems]
    rw [e, parseElements]
    rw [parseValue_stringify v _ g hc2.1
      (finNumero_cons 44 _ (by decide) (by decide) (by decide) (by decide)) (by omega)]
    simp only [skipWs_cons 44 _ (by decide), if_true]
    rw [parseElements_stringify (w :: xs) rest g (by simp) hc2.2 (by omega)]
theorem parseMembers_stringify : (ps : List (JSString × JSVal)) → (rest : List Nat) →
    (f : Nat) → ps ≠ [] → canonicoProps ps = true →
    2 * (stringifyProps ps).length + 1 ≤ f →
    parseMembers f (stringifyProps ps ++ 125 :: rest) = some (ps, rest)
  | [], _, _, h, _, _ => absurd rfl h
  | [(k, v)], rest, f, _, hc, hf => by
    obtain ⟨g, rfl⟩ : ∃ g, f = g + 1 := ⟨f - 1, by omega⟩
    have hc2 : (k.all esSimple = true ∧ canonico v = true) := by
      simp only [canonicoProps, Bool.and_eq_true] at hc; exact hc.1.1
    have e : stringifyProps [(k, v)] = 34 :: (k ++ 34 :: 58 :: stringify v) := by
      rw [stringifyProps_cons k v [] hc2.2]
      simp [stringifyProps, comillas, comillasAux_simple false k hc2.1]
    rw [e] at hf ⊢
    simp only [List.length_cons, List.length_append] at hf
    rw [parseMembers]
    simp only [List.cons_append, List.append_assoc, skipWs_cons 34 _ (by decide), if_true]
    rw [parseString_simple k _ _ hc2.1 (by simp)]
    simp only [skipWs_cons 58 _ (by decide), if_true]
    rw [parseValue_stringify v (125 :: rest) g hc2.2
      (finNumero_cons 125 rest (by decide) (by decide) (by decide) (by decide)) (by omega)]
    simp [skipWs_cons 125 _ (by decide)]
  | (k, v) :: (k2, v2) :: ps, rest, f, _, hc, hf => by
    obtain ⟨g, rfl⟩ : ∃ g, f = g + 1 := ⟨f - 1, by omega⟩
    have hc2 : ((k.all esSimple = true ∧ canonico v = true) ∧
        (List.lookup k ((k2, v2) :: ps)).isNone = true) ∧
        canonicoProps ((k2, v2) :: ps) = true := by
      rw [canonicoProps] at hc
      simpa only [Bool.and_eq_true] using hc
    have hv2 : canonico v2 = true := by
      have := hc2.2
      simp only [canonicoProps, Bool.and_eq_true] at this; exact this.1.1.2
    obtain ⟨r2, hr2⟩ := stringifyProps_cabeza k2 v2 ps hv2
    have e : stringifyProps ((k, v) :: (k2, v2) :: ps)
        = 34 :: (k ++ 34 :: 58 :: (stringify v ++ 44 :: stringifyProps ((k2, v2) :: ps))) := by
      rw [stringifyProps_cons k v _ hc2.1.1.2, hr2]
      simp [comillas, comillasAux_simple false k hc2.1.1.1]
    rw [e] at hf ⊢
    simp only [List.length_cons, List.length_append] at hf
    rw [parseMembers]
    simp only [List.cons_append, List.append_assoc, skipWs_cons 34 _ (by decide), if_true]
    rw [parseString_simple k _ _ hc2.1.1.1 (by simp)]
    simp only [skipWs_cons 58 _ (by decide), if_true]
    rw [parseValue_stringify v _ g hc2.1.1.2
      (finNumero_cons 44 _ (by decide) (by decide) (by decide) (by decide)) (by omega)]
    simp only [skipWs_cons 44 _ (by decide), if_true]
    rw [parseMembers_stringify ((k2, v2) :: ps) rest g (by simp) hc2.2 (by omega)]
    have hl : List.lookup k ((k2, v2) :: ps) = none := by
      simpa using hc2.1.2
    simp [definirProp, hl]
end


theorem JSON_parse_stringify (v : JSVal) (h : canonico v = true) :
    JSON_parse (stringify v) = some v := by
  have := parseValue_stringify v [] (2 * (stringify v).length + 2) h finNumero_nil (by omega)
  simp only [List.append_nil] at this
  simp [JSON_parse, this, skipWs]

theorem decimalInt_le (n : Int) : ∀ c ∈ decimalInt n, c ≤ 255 := by
  intro c hc
  unfold decimalInt at hc
  have key : ∀ m, ∀ c ∈ decimal m, c ≤ 255 := by
    intro m c hc
    have := decimal_digitos m c hc
    simp [esDigito] at this
    omega
  split_ifs at hc
  · simp only [List.mem_cons] at hc
    rcases hc with rfl | hc
    · decide
    · exact key _ c hc
  · exact key _ c hc

theorem simple_le (s : JSString) (h : s.all esSimple = true) : ∀ c ∈ s, c ≤ 255 := by
  intro c hc
  have := List.all_eq_true.mp h c hc
  simp [esSimple] at this
  omega

mutual
theorem stringify_le : (v : JSVal) → canonico v = true → ∀ c ∈ stringify v, c ≤ 255
  | .undefined, hc => by simp [canonico] at hc
  | .numDec _, hc => by simp [canonico] at hc
  | .null, _ => by decide
  | .bool true, _ => by decide
  | .bool false, _ => by decide
  | .num n, _ => by simpa [stringify] using decimalInt_le n
  | .str s, hc => by
    simp only [canonico] at hc
    intro c h
    simp only [stringify, comillas, comillasAux_simple false s hc, List.mem_cons,
      List.mem_append, List.mem_singleton] at h
    casesm* _ ∨ _
    all_goals first | (subst c; decide) | exact absurd ‹c ∈ []› (List.not_mem_nil c) | exact simple_le s hc c ‹_›
  | .arr xs, hc => by
    simp only [canonico] at hc
    intro c h
    simp only [stringify, List.mem_cons, List.mem_append, List.mem_singleton] at h
    have ih := stringifyElems_le xs hc
    casesm* _ ∨ _
    all_goals first | (subst c; decide) | exact absurd ‹c ∈ []› (List.not_mem_nil c) | exact ih c ‹_›
  | .obj ps, hc => by
    simp only [canonico] at hc
    intro c h
    simp only [stringify, List.mem_cons, List.mem_append, List.mem_singleton] at h
    have ih := stringifyProps_le ps hc
    casesm* _ ∨ _
    all_goals first | (subst c; decide) | exact absurd ‹c ∈ []› (List.not_mem_nil c) | exact ih c ‹_›
theorem stringifyElems_le : (xs : List JSVal) → canonicoElems xs = true →
    ∀ c ∈ stringifyElems xs, c ≤ 255
  | [], _ => by simp [stringifyElems]
  | [v], hc => by
    simp only [canonicoElems, Bool.and_eq_true] at hc
    simpa [stringifyElems] using stringify_le v hc.1
  | v :: w :: xs, hc => by
    have hc2 : canonico v = true ∧ canonicoElems (w :: xs) = true := by
      simpa only [canonicoElems, Bool.and_eq_true] using hc
    intro c h
    simp only [stringifyElems, List.mem_append, List.mem_cons] at h
    rcases h with h | rfl | h
    · exact stringify_le v hc2.1 c h
    · decide
    · exact stringifyElems_le (w :: xs) hc2.2 c (by simpa [stringifyElems] using h)
theorem stringifyProps_le : (ps : List (JSString × JSVal)) → canonicoProps ps = true →
    ∀ c ∈ stringifyProps ps, c ≤ 255
  | [], _ => by simp [stringifyProps]
  | (k, v) :: ps, hc => by
    have hc2 : ((k.all esSimple = true ∧ canonico v = true) ∧
        (List.lookup k ps).isNone = true) ∧ canonicoProps ps = true := by
      rw [canonicoProps] at hc
      simpa only [Bool.and_eq_true] using hc
    have ih := stringifyProps_le ps hc2.2
    have hv := stringify_le v hc2.1.1.2
    have hk := simple_le k hc2.1.1.1
    intro c h
    rw [stringifyProps_cons k v ps hc2.1.1.2] at h
    have hq : ∀ c ∈ comillas k, c ≤ 255 := by
      intro c h
      simp only [comillas, comillasAux_simple false k hc2.1.1.1, List.mem_cons,
        List.mem_append, List.mem_singleton] at h
      casesm* _ ∨ _
      all_goals first | (subst c; decide) | exact absurd ‹c ∈ []› (List.not_mem_nil c) | exact hk c ‹_›
    split at h
    · simp only [List.mem_append, List.mem_cons] at h
      casesm* _ ∨ _
      all_goals first | (subst c; decide) | exact absurd ‹c ∈ []› (List.not_mem_nil c) | exact hq c ‹_› | exact hv c ‹_›
    · rename_i d r heq
      rw [← heq] at h
      simp only [List.mem_append, List.mem_cons] at h
      casesm* _ ∨ _
      all_goals first | (subst c; decide) | exact absurd ‹c ∈ []› (List.not_mem_nil c) | exact hq c ‹_› | exact hv c ‹_› | exact ih c ‹_›
end

theorem stringify_ne_nil (v : JSVal) (h : canonico v = true) : stringify v ≠ [] := by
  obtain ⟨c, r, hcr, _⟩ := stringify_cabeza v h
  simp [hcr]

theorem descifrarXOR_nil : descifrarXOR [] = some [] := by
  unfold descifrarXOR
  decide

/-- Saving a canonical value succeeds, stores a non-empty token, and the token decodes and
parses back to the value. -/
theorem guardarEstadoPartida_canonico (v : JSVal) (w : Mundo) (h : canonico v = true) :
    ∃ token, token ≠ [] ∧
      guardarEstadoPartida v w = .retorna () { w with estadoActual := some token } ∧
      descifrarXOR token = some (stringify v) := by
  obtain ⟨token, h1, h2⟩ := descifrar_tras_cifrar (stringify v) (stringify_le v h)
  have hne : token ≠ [] := by
    rintro rfl
    rw [descifrarXOR_nil] at h2
    exact stringify_ne_nil v h (Option.some.inj h2).symm
  refine ⟨token, hne, ?_, h2⟩
  simp [guardarEstadoPartida, h1, hne]

/-! ## Code units of the literals -/

theorem lit_tablero : lit "tablero" = [116, 97, 98, 108, 101, 114, 111] := by decide

theorem lit_turno : lit "turno" = [116, 117, 114, 110, 111] := by decide

theorem lit_terminado : lit "terminado" = [116, 101, 114, 109, 105, 110, 97, 100, 111] := by decide

theorem lit_numTeams : lit "numTeams" = [110, 117, 109, 84, 101, 97, 109, 115] := by decide

theorem lit_turnPassRule : lit "turnPassRule" = [116, 117, 114, 110, 80, 97, 115, 115, 82, 117, 108, 101] := by decide

theorem lit_id : lit "id" = [105, 100] := by decide

theorem lit_type : lit "type" = [116, 121, 112, 101] := by decide

theorem lit_r : lit "r" = [114] := by decide

theorem lit_fecha : lit "fecha" = [102, 101, 99, 104, 97] := by decide

theorem lit_R : lit "R" = [82] := by decide

theorem lit_B : lit "B" = [66] := by decide

theorem lit_V : lit "V" = [86] := by decide

theorem lit_N : lit "N" = [78] := by decide

theorem lit_A : lit "A" = [65] := by decide

theorem lit_red : lit "red" = [114, 101, 100] := by decide

theorem lit_blue : lit "blue" = [98, 108, 117, 101] := by decide

theorem lit_green : lit "green" = [103, 114, 101, 101, 110] := by decide

theorem lit_neutral : lit "neutral" = [110, 101, 117, 116, 114, 97, 108] := by decide

theorem lit_assassin : lit "assassin" = [97, 115, 115, 97, 115, 115, 105, 110] := by decide


/-! ## Lemmas on the engine -/

theorem canonico_carta (card : Carta) :
    canonico (.obj [ (lit "id", .num card.id), (lit "type", .str (MAPEO_CODIGO card.type)),
      (lit "r", .bool card.revealed) ]) = true := by
  cases h : card.type <;>
    simp [canonico, canonicoProps, MAPEO_CODIGO, lit_id, lit_type, lit_r, lit_R, lit_B, lit_V,
      lit_N, lit_A, List.lookup, esSimple]

theorem canonico_tablero (cartas : List Carta) :
    canonicoElems (cartas.map (fun card =>
      JSVal.obj [ (lit "id", .num card.id), (lit "type", .str (MAPEO_CODIGO card.type)),
        (lit "r", .bool card.revealed) ])) = true := by
  induction cartas with
  | nil => simp [canonicoElems]
  | cons c cs ih =>
    simp only [List.map_cons, canonicoElems, ih, Bool.and_true]
    exact canonico_carta c

theorem canonico_obtenerEstadoParaGuardar (w : Mundo) :
    canonico (obtenerEstadoParaGuardar w) = true := by
  have hturno : (w.turnoActual.texto).all esSimple = true := by
    cases w.turnoActual <;> decide
  simp [obtenerEstadoParaGuardar, canonico, canonicoProps, canonico_tablero, hturno,
    lit_tablero, lit_turno, lit_terminado, lit_numTeams, lit_turnPassRule, List.lookup, esSimple]

theorem find_isSome_eq_any {α : Type} (p : α → Bool) (l : List α) :
    (l.find? p).isSome = l.any p := by
  induction l with
  | nil => rfl
  | cons x xs ih =>
    by_cases h : p x = true
    · simp [List.find?, h]
    · simp only [Bool.not_eq_true] at h
      simp [List.find?, h, ih]

theorem verificarFinJuego_eq (w : Mundo) :
    verificarFinJuego
      (if (w.tableroLogico.find? (fun c => c.type = .ASESINO && c.revealed)).isSome then
        { w with
          agentesRojosRestantes := restantes .ROJO w.tableroLogico
          agentesAzulesRestantes := restantes .AZUL w.tableroLogico
          agentesVerdesRestantes := restantes .VERDE w.tableroLogico
          juegoTerminado := true }
      else if restantes .AZUL w.tableroLogico = 0 ∨ restantes .ROJO w.tableroLogico = 0 ∨
          (w.numeroDeEquipos = 3 ∧ restantes .VERDE w.tableroLogico = 0) then
        { w with
          agentesRojosRestantes := restantes .ROJO w.tableroLogico
          agentesAzulesRestantes := restantes .AZUL w.tableroLogico
          agentesVerdesRestantes := restantes .VERDE w.tableroLogico
          juegoTerminado := true }
      else
        { w with
          agentesRojosRestantes := restantes .ROJO w.tableroLogico
          agentesAzulesRestantes := restantes .AZUL w.tableroLogico
          agentesVerdesRestantes := restantes .VERDE w.tableroLogico
          juegoTerminado := false }) = recalculado w := by
  have s1 : "¡<span class=\"text-blue-400 font-bold\">VICTORIA AZUL</span>! 🏆" ≠ "" := by decide
  have s2 : "¡<span class=\"text-red-400 font-bold\">VICTORIA ROJA</span>! 🏆" ≠ "" := by decide
  have s3 : "¡<span class=\"text-green-400 font-bold\">VICTORIA VERDE</span>! 🏆" ≠ "" := by decide
  rw [find_isSome_eq_any]
  change verificarFinJuego (if asesinoRevelado w.tableroLogico = true then _ else _) = _
  by_cases ha : asesinoRevelado w.tableroLogico = true
  · have ha2 := ha
    unfold asesinoRevelado at ha2
    simp [verificarFinJuego, recalculado, finDerivado, mensajeFin, ha, ha2,
      actualizarIndicadorTurno, limpiarEstadoPartida]
  · simp only [Bool.not_eq_true] at ha
    have ha2 := ha
    unfold asesinoRevelado at ha2
    by_cases hb : restantes .AZUL w.tableroLogico = 0
    · simp [verificarFinJuego, recalculado, finDerivado, mensajeFin, ha, ha2, hb, s1,
        actualizarIndicadorTurno, limpiarEstadoPartida]
    · by_cases hr : restantes .ROJO w.tableroLogico = 0
      · simp [verificarFinJuego, recalculado, finDerivado, mensajeFin, ha, ha2, hb, hr, s2,
          actualizarIndicadorTurno, limpiarEstadoPartida]
      · by_cases hn : w.numeroDeEquipos = 3
        · by_cases hv : restantes .VERDE w.tableroLogico = 0
          · simp [verificarFinJuego, recalculado, finDerivado, mensajeFin, ha, ha2, hb, hr, hv,
              hn, s3, actualizarIndicadorTurno, limpiarEstadoPartida]
          · simp [verificarFinJuego, recalculado, finDerivado, mensajeFin, ha, ha2, hb, hr, hv,
              hn, actualizarIndicadorTurno, limpiarEstadoPartida]
        · simp [verificarFinJuego, recalculado, finDerivado, mensajeFin, ha, ha2, hb, hr, hn,
            actualizarIndicadorTurno, limpiarEstadoPartida]

/-- The call `recalcularEstado(tableroLogico)` returns: it leaves the state `recalculado`
with a snapshot stored, which decodes to the text of that state. -/
theorem recalcularEstado_eq (w : Mundo) :
    ∃ token, token ≠ [] ∧
      recalcularEstado w.tableroLogico w
        = .retorna () { recalculado w with estadoActual := some token } ∧
      descifrarXOR token = some (stringify (obtenerEstadoParaGuardar (recalculado w))) := by
  have h := verificarFinJuego_eq w
  obtain ⟨token, h1, h2, h3⟩ := guardarEstadoPartida_canonico
    (obtenerEstadoParaGuardar (recalculado w)) (recalculado w)
    (canonico_obtenerEstadoParaGuardar _)
  refine ⟨token, h1, ?_, h3⟩
  rw [← h2, ← h]
  rfl

theorem passTurn_eq (w : Mundo) (h : w.juegoTerminado = false) :
    ∃ token, token ≠ [] ∧
      passTurn w = .retorna ()
        { w with
          turnoActual := siguienteTurno w.numeroDeEquipos w.turnoActual
          indicadorTurno := .turno (siguienteTurno w.numeroDeEquipos w.turnoActual)
          estadoActual := some token } ∧
      descifrarXOR token = some (stringify (obtenerEstadoParaGuardar
        { w with
          turnoActual := siguienteTurno w.numeroDeEquipos w.turnoActual
          indicadorTurno := .turno (siguienteTurno w.numeroDeEquipos w.turnoActual) })) := by
  have hs : (if w.numeroDeEquipos = 2 then (if w.turnoActual = .AZUL then TIPOS_CARTA.ROJO else .AZUL)
      else if w.numeroDeEquipos = 3 then
        [TIPOS_CARTA.AZUL, TIPOS_CARTA.ROJO, TIPOS_CARTA.VERDE].getD
          ((indexOf [TIPOS_CARTA.AZUL, TIPOS_CARTA.ROJO, TIPOS_CARTA.VERDE] w.turnoActual + 1)
            % (([TIPOS_CARTA.AZUL, TIPOS_CARTA.ROJO, TIPOS_CARTA.VERDE].length : Nat) : Int)).toNat
          w.turnoActual
      else w.turnoActual) = siguienteTurno w.numeroDeEquipos w.turnoActual := by
    unfold siguienteTurno
    cases w.turnoActual <;> split_ifs <;> rfl
  obtain ⟨token, h1, h2, h3⟩ := guardarEstadoPartida_canonico
    (obtenerEstadoParaGuardar { w with
          turnoActual := siguienteTurno w.numeroDeEquipos w.turnoActual
          indicadorTurno := .turno (siguienteTurno w.numeroDeEquipos w.turnoActual) })
    { w with
          turnoActual := siguienteTurno w.numeroDeEquipos w.turnoActual
          indicadorTurno := .turno (siguienteTurno w.numeroDeEquipos w.turnoActual) }
    (canonico_obtenerEstadoParaGuardar _)
  refine ⟨token, h1, ?_, h3⟩
  rw [← h2]
  unfold passTurn
  simp only [h, Bool.false_eq_true, if_false, actualizarIndicadorTurno]
  rw [hs]

theorem recalcularEstado_juegoTerminado (tablero : List Carta) (w : Mundo) (b : Bool) :
    recalcularEstado tablero { w with juegoTerminado := b } = recalcularEstado tablero w := by
  unfold recalcularEstado
  rfl

/-- A click on an unrevealed card of a game that is not finished: the card is revealed,
the state recalculated and saved, and the turn passed when the game goes on after a miss
under the pass-on-miss rule. -/
theorem handleCardClick_eq (index : Nat) (w : Mundo) (cardData : Carta)
    (h0 : w.juegoTerminado = false) (h1 : w.tableroLogico.get? index = some cardData)
    (h2 : cardData.revealed = false) :
    ∃ token, token ≠ [] ∧
      handleCardClick index w =
        if finDerivado w.numeroDeEquipos (revelar w.tableroLogico index cardData) = false ∧
            cardData.type ≠ .ASESINO ∧ cardData.type ≠ w.turnoActual ∧
            w.paseTurnoAlFallar = true then
          passTurn { recalculado { w with tableroLogico := revelar w.tableroLogico index cardData }
            with estadoActual := some token }
        else
          .retorna () { recalculado { w with tableroLogico := revelar w.tableroLogico index cardData }
            with estadoActual := some token } := by
  obtain ⟨token, ht, hr, _⟩ :=
    recalcularEstado_eq { w with tableroLogico := revelar w.tableroLogico index cardData }
  have hr2 : ∀ b, recalcularEstado (revelar w.tableroLogico index cardData)
      { w with tableroLogico := revelar w.tableroLogico index cardData, juegoTerminado := b }
      = .retorna () { recalculado { w with tableroLogico := revelar w.tableroLogico index cardData }
          with estadoActual := some token } := by
    intro b
    rw [← hr]; rfl
  refine ⟨token, ht, ?_⟩
  unfold handleCardClick
  rw [if_neg (by simp [h0])]
  simp only [h1]
  rw [if_neg (by simp [h2])]
  by_cases ha : cardData.type = .ASESINO
  · rw [if_pos ha, if_neg (by simp [ha])]
    dsimp only
    have := hr2 true
    simp only [revelar] at this ⊢
    rw [this]
    simp
  · rw [if_neg ha]
    by_cases hm : cardData.type = w.turnoActual
    · rw [if_neg (by simp [hm]), if_neg (by simp [hm])]
      dsimp only
      have := hr2 w.juegoTerminado
      simp only [revelar] at this ⊢
      rw [this]
      simp
    · rw [if_pos (by simpa using hm)]
      by_cases hp : w.paseTurnoAlFallar = true
      · rw [if_pos hp]
        dsimp only
        have := hr2 w.juegoTerminado
        simp only [revelar] at this ⊢
        rw [this]
        simp [ha, hm, hp, recalculado]
      · rw [if_neg hp, if_neg (by simp [hp])]
        dsimp only
        have := hr2 w.juegoTerminado
        simp only [revelar] at this ⊢
        rw [this]
        simp

theorem get?_lt {α : Type} (l : List α) (i : Nat) (x : α) (h : l.get? i = some x) :
    i < l.length := by
  rw [List.get?_eq_some] at h
  exact h.1

theorem asesinoRevelado_revelar (tablero : List Carta) (index : Nat) (cardData : Carta)
    (h : tablero.get? index = some cardData) (ha : cardData.type = .ASESINO) :
    asesinoRevelado (revelar tablero index cardData) = true := by
  have hlt := get?_lt _ _ _ h
  unfold asesinoRevelado revelar
  rw [List.any_eq_true]
  refine ⟨{ cardData with revealed := true }, ?_, by simp [ha]⟩
  rw [List.mem_iff_getElem]
  exact ⟨index, by simpa using hlt, by simp⟩

theorem click_asesino (index : Nat) (w : Mundo) (cardData : Carta)
    (hcurso : w.juegoTerminado = false)
    (hcarta : w.tableroLogico.get? index = some cardData)
    (hoculta : cardData.revealed = false) (hasesino : cardData.type = .ASESINO) :
    ∃ w2, handleCardClick index w = .retorna () w2 ∧
      w2.juegoTerminado = true ∧ w2.turnoActual = w.turnoActual ∧
      w2.indicadorTurno
        = .fin (some (mensajeAsesinado (equipoGanadorTexto w.numeroDeEquipos w.turnoActual))) := by
  obtain ⟨token, _, h⟩ := handleCardClick_eq index w cardData hcurso hcarta hoculta
  rw [if_neg (by simp [hasesino])] at h
  have ha := asesinoRevelado_revelar _ _ _ hcarta hasesino
  refine ⟨_, h, ?_, ?_, ?_⟩
  · simp [recalculado, finDerivado, ha]
  · simp [recalculado]
  · simp [recalculado, finDerivado, ha, mensajeFin, mensajeAsesinado]

theorem any_set_of_not {α : Type} (p : α → Bool) (l : List α) (i : Nat) (x : α)
    (hx : p x = false) (hl : l.any p = false) : (l.set i x).any p = false := by
  induction l generalizing i with
  | nil => simp
  | cons y ys ih =>
    simp only [List.any_cons, Bool.or_eq_false_iff] at hl
    cases i with
    | zero => simp [hx, hl.2]
    | succ i => simp [hl.1, ih i hl.2]

theorem asesinoRevelado_revelar_otro (tablero : List Carta) (index : Nat) (cardData : Carta)
    (ha : cardData.type ≠ .ASESINO) (h : asesinoRevelado tablero = false) :
    asesinoRevelado (revelar tablero index cardData) = false := by
  unfold asesinoRevelado revelar at *
  exact any_set_of_not _ _ _ _ (by simp [ha]) h

theorem click_fallo_con_pase (index : Nat) (w : Mundo) (cardData : Carta)
    (hcurso : w.juegoTerminado = false)
    (hcarta : w.tableroLogico.get? index = some cardData)
    (hoculta : cardData.revealed = false)
    (hregla : w.paseTurnoAlFallar = true)
    (hfallo : cardData.type ≠ w.turnoActual) (hno : cardData.type ≠ .ASESINO)
    (hsigue : finDerivado w.numeroDeEquipos (revelar w.tableroLogico index cardData) = false) :
    ∃ w2, handleCardClick index w = .retorna () w2 ∧ w2.juegoTerminado = false ∧
      w2.turnoActual = siguienteTurno w.numeroDeEquipos w.turnoActual ∧
      w2.tableroLogico = revelar w.tableroLogico index cardData ∧
      w2.numeroDeEquipos = w.numeroDeEquipos ∧ w2.paseTurnoAlFallar = w.paseTurnoAlFallar := by
  obtain ⟨token, _, h⟩ := handleCardClick_eq index w cardData hcurso hcarta hoculta
  rw [if_pos ⟨hsigue, hno, hfallo, hregla⟩] at h
  obtain ⟨token2, _, h2, _⟩ := passTurn_eq
    { recalculado { w with tableroLogico := revelar w.tableroLogico index cardData }
      with estadoActual := some token } (by simp [recalculado, hsigue])
  rw [h2] at h
  refine ⟨_, h, ?_, ?_, ?_, ?_, ?_⟩ <;> simp [recalculado, hsigue]

theorem click_sin_pase (index : Nat) (w : Mundo) (cardData : Carta)
    (hcurso : w.juegoTerminado = false)
    (hcarta : w.tableroLogico.get? index = some cardData)
    (hoculta : cardData.revealed = false)
    (hsin : cardData.type = w.turnoActual ∨ w.paseTurnoAlFallar = false) :
    ∃ w2, handleCardClick index w = .retorna () w2 ∧
      w2.juegoTerminado = finDerivado w.numeroDeEquipos (revelar w.tableroLogico index cardData) ∧
      w2.turnoActual = w.turnoActual ∧
      w2.tableroLogico = revelar w.tableroLogico index cardData ∧
      w2.numeroDeEquipos = w.numeroDeEquipos ∧ w2.paseTurnoAlFallar = w.paseTurnoAlFallar ∧
      w2.indicadorTurno = (if finDerivado w.numeroDeEquipos (revelar w.tableroLogico index cardData)
        then .fin (some (mensajeFin w.numeroDeEquipos w.turnoActual
          (revelar w.tableroLogico index cardData)))
        else w.indicadorTurno) := by
  obtain ⟨token, _, h⟩ := handleCardClick_eq index w cardData hcurso hcarta hoculta
  rw [if_neg (by
    rintro ⟨_, _, h3, h4⟩
    rcases hsin with h5 | h5
    · exact h3 h5
    · rw [h5] at h4; exact Bool.false_ne_true h4)] at h
  refine ⟨_, h, ?_, ?_, ?_, ?_, ?_, ?_⟩ <;> simp [recalculado]

/-! ## The shuffle -/

theorem intercambiar_perm {α : Type} (l : List α) (i j : Nat) :
    List.Perm (intercambiar l i j) l := by
  classical
  unfold intercambiar
  cases hi : l.get? i with
  | none => simp
  | some x =>
    cases hj : l.get? j with
    | none => simp
    | some y =>
      simp only
      rw [List.get?_eq_some] at hi hj
      obtain ⟨hil, hix⟩ := hi
      obtain ⟨hjl, hjy⟩ := hj
      simp only [List.get_eq_getElem] at hix hjy
      rw [List.perm_iff_count]
      intro b
      rw [List.count_set _ _ _ _ (by simpa using hjl), List.count_set _ _ _ _ hil]
      have hb : (if l[i] == b then 1 else 0) ≤ l.count b := by
        have := List.boole_getElem_le_countP (fun a => a == b) l i hil
        simpa [List.count_eq_countP] using this
      by_cases hij : i = j
      · subst hij
        have hxy : x = y := by rw [← hix, ← hjy]
        subst hxy
        simp only [List.getElem_set_self, hix] at hb ⊢
        split_ifs at hb ⊢ <;> omega
      · rw [List.getElem_set_ne hij]
        simp only [hix, hjy] at hb ⊢
        split_ifs at hb ⊢ <;> omega

theorem shuffleArray_bucle_perm {α : Type} (azar : Nat → Nat) (i : Nat) (l : List α) :
    List.Perm (shuffleArray.bucle azar i l) l := by
  induction i generalizing l with
  | zero => simp [shuffleArray.bucle]
  | succ i ih =>
    simp only [shuffleArray.bucle]
    exact (ih _).trans (intercambiar_perm l _ _)

theorem shuffleArray_perm {α : Type} (azar : Nat → Nat) (l : List α) :
    List.Perm (shuffleArray azar l) l :=
  shuffleArray_bucle_perm azar _ l

/-! ## The used-word store and `startNewGame` -/

theorem idsDeLista_eq (lista : List JSVal)
    (h : lista.all (fun item => (item.prop (lit "id")).isSome) = true) :
    idsDeLista lista
      = some (lista.map (fun item => (item.prop (lit "id")).getD .undefined)) := by
  induction lista with
  | nil => rfl
  | cons item resto ih =>
    simp only [List.all_cons, Bool.and_eq_true] at h
    obtain ⟨v, hv⟩ := Option.isSome_iff_exists.mp h.1
    simp [idsDeLista, hv, ih h.2]

theorem registrarItems_eq (lista : List JSVal) (m : List (JSVal × JSVal))
    (h : lista.all (fun item => (item.prop (lit "id")).isSome) = true) :
    registrarItems lista m = some (registrados lista m) := by
  induction lista generalizing m with
  | nil => rfl
  | cons item resto ih =>
    simp only [List.all_cons, Bool.and_eq_true] at h
    obtain ⟨v, hv⟩ := Option.isSome_iff_exists.mp h.1
    simp [registrarItems, registrados, hv, ih _ h.2]

theorem nuevosItems_legibles (fechaActual : JSString) (nuevosIds : List Int) :
    (nuevosItems fechaActual nuevosIds).all (fun item => (item.prop (lit "id")).isSome)
      = true := by
  simp [nuevosItems, JSVal.prop]

theorem listaUsadas_legible (u : Option JSString) (h : registroLegible u = true) :
    (listaUsadas u).all (fun item => (item.prop (lit "id")).isSome) = true := by
  unfold registroLegible at h
  unfold listaUsadas
  cases u with
  | none => rfl
  | some data =>
    simp only at h ⊢
    by_cases hd : data = []
    · simp [hd]
    · simp only [hd, decide_False, Bool.false_or, if_false] at h ⊢
      split at h <;> simp_all

theorem cargarIdsUsados_eq (w : Mundo) (h : registroLegible w.palabrasUsadas = true) :
    cargarIdsUsados w = some (idsLeidos w.palabrasUsadas) := by
  have hl := listaUsadas_legible _ h
  unfold registroLegible at h
  unfold cargarIdsUsados idsLeidos
  unfold listaUsadas at hl ⊢
  cases hu : w.palabrasUsadas with
  | none => rfl
  | some data =>
    rw [hu] at h hl
    simp only at h hl ⊢
    by_cases hd : data = []
    · simp [hd]
    · simp only [hd, decide_False, Bool.false_or, if_false] at h hl ⊢
      split at h
      · rename_i lista hp
        exact idsDeLista_eq lista h
      · simp at h

theorem guardarNuevosIds_eq (fechaActual : JSString) (nuevosIds : List Int) (w : Mundo)
    (h : registroLegible w.palabrasUsadas = true) :
    guardarNuevosIds fechaActual nuevosIds w
      = .retorna ()
          { w with
            palabrasUsadas :=
              some (stringify (.arr (usadasTras fechaActual nuevosIds w.palabrasUsadas))) } := by
  have hl := listaUsadas_legible _ h
  have hn := nuevosItems_legibles fechaActual nuevosIds
  unfold registroLegible at h
  unfold guardarNuevosIds usadasTras
  unfold listaUsadas at hl ⊢
  cases hu : w.palabrasUsadas with
  | none =>
    simp only [registrarItems, registrados, List.foldl_nil]
    have := registrarItems_eq (nuevosItems fechaActual nuevosIds) [] hn
    unfold nuevosItems at this
    rw [this]
    rfl
  | some data =>
    rw [hu] at h hl
    simp only at h hl ⊢
    by_cases hd : data = []
    · simp only [hd, if_true, registrarItems, registrados, List.foldl_nil]
      have := registrarItems_eq (nuevosItems fechaActual nuevosIds) [] hn
      unfold nuevosItems at this
      rw [this]
      rfl
    · simp only [hd, decide_False, Bool.false_or, if_false] at h hl ⊢
      split at h
      · rename_i lista hp
        rw [registrarItems_eq lista [] h]
        simp only
        have := registrarItems_eq (nuevosItems fechaActual nuevosIds) (registrados lista []) hn
        unfold nuevosItems at this
        rw [this]
        rfl
      · simp at h

theorem startNewGame_eq (azarPalabras azarTipos : Nat → Nat) (fechaActual : JSString)
    (startingTeam : TIPOS_CARTA) (numTeams : Nat) (rulePassOnMiss : Bool) (w : Mundo)
    (hreg : registroLegible w.palabrasUsadas = true) :
    ∃ token, token ≠ [] ∧
      startNewGame azarPalabras azarTipos fechaActual startingTeam numTeams rulePassOnMiss w
        = .retorna ()
            (actualizarIndicadorTurno startingTeam
              (finDerivado numTeams (tableroNuevo azarPalabras azarTipos startingTeam numTeams w))
              none
              { recalculado (mundoNuevo azarPalabras azarTipos fechaActual startingTeam numTeams
                  rulePassOnMiss w) with estadoActual := some token }) ∧
      descifrarXOR token = some (stringify (obtenerEstadoParaGuardar
        (recalculado (mundoNuevo azarPalabras azarTipos fechaActual startingTeam numTeams
          rulePassOnMiss w)))) := by
  obtain ⟨token, ht, hr, hd⟩ := recalcularEstado_eq
    (mundoNuevo azarPalabras azarTipos fechaActual startingTeam numTeams rulePassOnMiss w)
  refine ⟨token, ht, ?_, hd⟩
  have hc := cargarIdsUsados_eq
    { w with
      juegoTerminado := false
      turnoActual := startingTeam
      numeroDeEquipos := numTeams
      paseTurnoAlFallar := rulePassOnMiss } hreg
  unfold startNewGame
  simp only [hc]
  by_cases hlow : (palabrasCandidatas w).length < 25
  · have hlow2 : (List.filter (fun item => !setHas (idsLeidos w.palabrasUsadas) item.id)
        w.PALABRAS_SECRETAS).length < 25 := hlow
    rw [if_pos hlow2]
    dsimp only [limpiarEstadoPartida]
    rw [guardarNuevosIds_eq]
    swap
    · exact hreg
    dsimp only
    have hr2 := hr
    simp only [mundoNuevo, tableroNuevo, palabrasElegidas, if_pos hlow] at hr2
    rw [hr2]
    simp [actualizarIndicadorTurno, recalculado, mundoNuevo, tableroNuevo, palabrasElegidas,
      if_pos hlow]
  · have hlow2 : ¬ (List.filter (fun item => !setHas (idsLeidos w.palabrasUsadas) item.id)
        w.PALABRAS_SECRETAS).length < 25 := hlow
    rw [if_neg hlow2]
    dsimp only [limpiarEstadoPartida]
    rw [guardarNuevosIds_eq]
    swap
    · exact hreg
    dsimp only
    have hr2 := hr
    simp only [mundoNuevo, tableroNuevo, palabrasElegidas, palabrasCandidatas, if_neg hlow2]
      at hr2
    rw [hr2]
    simp [actualizarIndicadorTurno, recalculado, mundoNuevo, tableroNuevo, palabrasElegidas,
      palabrasCandidatas, if_neg hlow2]

theorem zipWith_map_snd {α β γ : Type} (f : α → β → γ) (g : γ → β)
    (hg : ∀ a b, g (f a b) = b) (l1 : List α) (l2 : List β) (h : l1.length = l2.length) :
    (List.zipWith f l1 l2).map g = l2 := by
  induction l1 generalizing l2 with
  | nil =>
    cases l2 with
    | nil => rfl
    | cons b l2 => simp at h
  | cons a l1 ih =>
    cases l2 with
    | nil => simp at h
    | cons b l2 =>
      simp only [List.length_cons, add_left_inj] at h
      simp [hg, ih l2 h]

theorem zipWith_forall {α β γ : Type} (f : α → β → γ) (P : γ → Prop)
    (hP : ∀ a b, P (f a b)) (l1 : List α) (l2 : List β) :
    ∀ c ∈ List.zipWith f l1 l2, P c := by
  induction l1 generalizing l2 with
  | nil => simp
  | cons a l1 ih =>
    cases l2 with
    | nil => simp
    | cons b l2 =>
      intro c hc
      simp only [List.zipWith_cons_cons, List.mem_cons] at hc
      rcases hc with rfl | hc
      · exact hP a b
      · exact ih l2 c hc

theorem tiposIniciales_length (startingTeam : TIPOS_CARTA) (numTeams : Nat) :
    (tiposIniciales startingTeam numTeams).length = 25 := by
  unfold tiposIniciales
  split_ifs <;> simp

theorem palabrasElegidas_length (azarPalabras : Nat → Nat) (w : Mundo)
    (hdicc : 25 ≤ w.PALABRAS_SECRETAS.length) :
    (palabrasElegidas azarPalabras w).length = 25 := by
  unfold palabrasElegidas
  split_ifs with h
  · rw [List.length_take, (shuffleArray_perm _ _).length_eq]
    omega
  · rw [List.length_take, (shuffleArray_perm _ _).length_eq]
    omega

theorem tableroNuevo_tipos (azarPalabras azarTipos : Nat → Nat) (startingTeam : TIPOS_CARTA)
    (numTeams : Nat) (w : Mundo) (hdicc : 25 ≤ w.PALABRAS_SECRETAS.length) :
    (tableroNuevo azarPalabras azarTipos startingTeam numTeams w).map (fun c => c.type)
      = shuffleArray azarTipos (tiposIniciales startingTeam numTeams) := by
  unfold tableroNuevo
  apply zipWith_map_snd
  · intro a b; rfl
  · rw [palabrasElegidas_length _ _ hdicc, (shuffleArray_perm _ _).length_eq,
      tiposIniciales_length]

theorem tableroNuevo_length (azarPalabras azarTipos : Nat → Nat) (startingTeam : TIPOS_CARTA)
    (numTeams : Nat) (w : Mundo) (hdicc : 25 ≤ w.PALABRAS_SECRETAS.length) :
    (tableroNuevo azarPalabras azarTipos startingTeam numTeams w).length = 25 := by
  have := congrArg List.length (tableroNuevo_tipos azarPalabras azarTipos startingTeam numTeams
    w hdicc)
  rw [List.length_map, (shuffleArray_perm _ _).length_eq, tiposIniciales_length] at this
  exact this

theorem tableroNuevo_ocultas (azarPalabras azarTipos : Nat → Nat) (startingTeam : TIPOS_CARTA)
    (numTeams : Nat) (w : Mundo) :
    ∀ c ∈ tableroNuevo azarPalabras azarTipos startingTeam numTeams w, c.revealed = false := by
  unfold tableroNuevo
  apply zipWith_forall
  intro a b; rfl

theorem cuenta_tableroNuevo (t : TIPOS_CARTA) (azarPalabras azarTipos : Nat → Nat)
    (startingTeam : TIPOS_CARTA) (numTeams : Nat) (w : Mundo)
    (hdicc : 25 ≤ w.PALABRAS_SECRETAS.length) :
    cuenta t (tableroNuevo azarPalabras azarTipos startingTeam numTeams w)
      = (tiposIniciales startingTeam numTeams).count t := by
  have h := tableroNuevo_tipos azarPalabras azarTipos startingTeam numTeams w hdicc
  have hp := (shuffleArray_perm azarTipos (tiposIniciales startingTeam numTeams)).count_eq t
  rw [← hp, ← h, List.count_eq_countP, List.countP_map]
  unfold cuenta
  congr 1

theorem restantes_eq_cuenta (t : TIPOS_CARTA) (tablero : List Carta)
    (h : ∀ c ∈ tablero, c.revealed = false) : restantes t tablero = cuenta t tablero := by
  unfold restantes cuenta
  rw [List.countP_eq_length_filter]
  congr 1
  apply List.filter_congr
  intro c hc
  simp [h c hc]

theorem asesinoRevelado_ocultas (tablero : List Carta)
    (h : ∀ c ∈ tablero, c.revealed = false) : asesinoRevelado tablero = false := by
  unfold asesinoRevelado
  rw [List.any_eq_false]
  intro c hc
  simp [h c hc]

/-- What `startNewGame` leaves, for a readable used-word record. -/
theorem startNewGame_aux (azarPalabras azarTipos : Nat → Nat) (fechaActual : JSString)
    (startingTeam : TIPOS_CARTA) (numTeams : Nat) (rulePassOnMiss : Bool) (w : Mundo)
    (hreg : registroLegible w.palabrasUsadas = true) :
    ∃ w2,
      startNewGame azarPalabras azarTipos fechaActual startingTeam numTeams rulePassOnMiss w
        = .retorna () w2 ∧
      w2.tableroLogico = tableroNuevo azarPalabras azarTipos startingTeam numTeams w ∧
      w2.turnoActual = startingTeam ∧ w2.numeroDeEquipos = numTeams ∧
      w2.paseTurnoAlFallar = rulePassOnMiss ∧
      w2.juegoTerminado
        = finDerivado numTeams (tableroNuevo azarPalabras azarTipos startingTeam numTeams w) ∧
      w2.palabrasUsadas = some (stringify (.arr (usadasTras fechaActual
        ((palabrasElegidas azarPalabras w).map (fun item => item.id)) w.palabrasUsadas))) ∧
      w2.PALABRAS_SECRETAS =
        (if (palabrasCandidatas w).length < 25 then shuffleArray azarPalabras w.PALABRAS_SECRETAS
          else w.PALABRAS_SECRETAS) := by
  obtain ⟨token, _, h, _⟩ := startNewGame_eq azarPalabras azarTipos fechaActual startingTeam
    numTeams rulePassOnMiss w hreg
  refine ⟨_, h, ?_, ?_, ?_, ?_, ?_, ?_, ?_⟩ <;>
  · unfold actualizarIndicadorTurno
    split_ifs <;> simp [recalculado, mundoNuevo] <;> omega

theorem registroLegible_usadasEjemplo : registroLegible (some usadasEjemplo) = true := by
  have hc : canonico (.arr (nuevosItems (lit "2024-05-01")
      [20, 21, 22, 23, 24, 25, 26, 27, 28, 29])) = true := by decide
  unfold registroLegible usadasEjemplo
  simp only [JSON_parse_stringify _ hc]
  decide

/-! ## Sequences of reveals -/

theorem jugar_append (l : List Nat) (i : Nat) (w w2 : Mundo)
    (h : jugar l w = .retorna () w2) : jugar (l ++ [i]) w = handleCardClick i w2 := by
  induction l generalizing w with
  | nil =>
    simp only [jugar, Resultado.retorna.injEq, true_and] at h
    subst h
    simp only [List.nil_append, jugar]
    cases handleCardClick i w <;> rfl
  | cons j l ih =>
    simp only [List.cons_append, jugar] at h ⊢
    cases hj : handleCardClick j w with
    | retorna v w3 =>
      rw [hj] at h
      exact ih w3 h
    | lanza w3 => rw [hj] at h; simp at h
    | noTipado => rw [hj] at h; simp at h

theorem restantes_revelar (t : TIPOS_CARTA) (tablero : List Carta) (index : Nat)
    (cardData : Carta) (h : tablero.get? index = some cardData)
    (hoculta : cardData.revealed = false) :
    restantes t (revelar tablero index cardData) + (if cardData.type = t then 1 else 0)
      = restantes t tablero := by
  rw [List.get?_eq_some] at h
  obtain ⟨hlt, hget⟩ := h
  simp only [List.get_eq_getElem] at hget
  unfold restantes revelar
  rw [← List.countP_eq_length_filter, ← List.countP_eq_length_filter,
    List.countP_set _ _ _ _ hlt]
  have hb := List.boole_getElem_le_countP (fun c => decide (c.type = t) && !c.revealed)
    tablero index hlt
  simp only [hget, hoculta, Bool.not_false, Bool.and_true, decide_eq_true_eq, Bool.not_true,
    Bool.and_false, Bool.false_eq_true, if_false, Nat.add_zero] at hb ⊢
  split_ifs at hb ⊢ <;> omega

theorem get?_revelar_ne (tablero : List Carta) (index j : Nat) (cardData : Carta)
    (h : j ≠ index) : (revelar tablero index cardData).get? j = tablero.get? j := by
  unfold revelar
  simp [List.getElem?_set_ne (Ne.symm h)]

/-- The reveals of distinct Blue cards on a board with 9 unrevealed Blue cards, Blue to
play in a 2-team game: after `k` of them the game is finished exactly when `k = 9`. -/
theorem jugar_azules (w1 : Mundo) (orden : List Nat) (hnodup : orden.Nodup)
    (h2 : w1.numeroDeEquipos = 2) (hturno : w1.turnoActual = .AZUL)
    (hcurso : w1.juegoTerminado = false)
    (hocultas : ∀ c ∈ w1.tableroLogico, c.revealed = false)
    (hazul : restantes .AZUL w1.tableroLogico = 9)
    (hrojo : restantes .ROJO w1.tableroLogico ≠ 0)
    (hazules : ∀ i ∈ orden, (w1.tableroLogico.get? i).map (fun c => c.type) = some .AZUL)
    (k : Nat) (hk : k ≤ 9) (hkl : k ≤ orden.length) :
    ∃ wk, jugar (orden.take k) w1 = .retorna () wk ∧
      (∀ j, j ∉ orden.take k → wk.tableroLogico.get? j = w1.tableroLogico.get? j) ∧
      restantes .AZUL wk.tableroLogico + k = 9 ∧
      restantes .ROJO wk.tableroLogico = restantes .ROJO w1.tableroLogico ∧
      asesinoRevelado wk.tableroLogico = false ∧
      wk.turnoActual = .AZUL ∧ wk.numeroDeEquipos = 2 ∧
      (k < 9 → wk.juegoTerminado = false) ∧
      (k = 9 → wk.juegoTerminado = true ∧ wk.indicadorTurno = .fin (some VICTORIA_AZUL)) := by
  induction k with
  | zero =>
    refine ⟨w1, by simp [jugar], fun _ _ => rfl, by omega, rfl,
      asesinoRevelado_ocultas _ hocultas, hturno, h2, fun _ => hcurso, by omega⟩
  | succ k ih =>
    have hk9 : k ≤ 9 := by omega
    have hklt : k < orden.length := by omega
    obtain ⟨wk, hj, hfuera, hra, hrr, hsa, ht, hn, hc, _⟩ := ih hk9 (Nat.le_of_lt hklt)
    clear ih
    have htake : orden.take (k + 1) = orden.take k ++ [orden[k]] := by
      rw [List.take_succ, List.getElem?_eq_getElem hklt]
      rfl
    have hmem : orden[k] ∈ orden := List.getElem_mem hklt
    have hnot : orden[k] ∉ orden.take k := by
      intro hin
      rw [List.mem_take_iff_getElem] at hin
      obtain ⟨i, hi, heq⟩ := hin
      have hio : i < orden.length := by omega
      have := (@List.Nodup.getElem_inj_iff _ orden hnodup i hio k hklt).mp heq
      omega
    obtain ⟨card, hcard, htipo⟩ : ∃ card, w1.tableroLogico.get? orden[k] = some card ∧
        card.type = .AZUL := by
      have := hazules _ hmem
      cases hg : w1.tableroLogico.get? orden[k] with
      | none => rw [hg] at this; simp at this
      | some card => rw [hg] at this; exact ⟨card, rfl, by simpa using this⟩
    have hoc : card.revealed = false := by
      apply hocultas
      rw [List.get?_eq_some] at hcard
      obtain ⟨hlt, hget⟩ := hcard
      rw [← hget]
      exact List.get_mem _ _ _
    have hcardk : wk.tableroLogico.get? orden[k] = some card := by
      rw [hfuera _ hnot, hcard]
    have hkc : wk.juegoTerminado = false := hc (by omega)
    obtain ⟨w2, hclick, hfin, hturn2, htab, hn2, _, hind⟩ :=
      click_sin_pase orden[k] wk card hkc hcardk hoc
        (Or.inl (by rw [htipo, ht]))
    have hA := restantes_revelar .AZUL _ _ _ hcardk hoc
    have hR := restantes_revelar .ROJO _ _ _ hcardk hoc
    simp only [htipo, if_true, (by decide : TIPOS_CARTA.AZUL ≠ TIPOS_CARTA.ROJO), if_false,
      Nat.add_zero] at hA hR
    have hS := asesinoRevelado_revelar_otro wk.tableroLogico orden[k] card
      (by rw [htipo]; decide) hsa
    rw [← htab] at hA hR hS
    have hA2 : restantes .AZUL w2.tableroLogico + (k + 1) = 9 := by omega
    have hR2 : restantes .ROJO w2.tableroLogico = restantes .ROJO w1.tableroLogico := by omega
    refine ⟨w2, ?_, ?_, hA2, hR2, hS, by rw [hturn2, ht], by rw [hn2, hn], ?_, ?_⟩
    · rw [htake, jugar_append _ _ _ _ hj, hclick]
    · intro j hjn
      rw [htake, List.mem_append, not_or, List.mem_singleton] at hjn
      rw [htab, get?_revelar_ne _ _ _ _ hjn.2, hfuera j hjn.1]
    · intro hlt
      have hne : restantes .AZUL w2.tableroLogico ≠ 0 := by omega
      have hne2 : restantes .ROJO w2.tableroLogico ≠ 0 := by omega
      rw [hfin, ← htab, hn]
      simp [finDerivado, hS, hne, hne2]
    · intro h9
      have hz : restantes .AZUL w2.tableroLogico = 0 := by omega
      rw [hfin, hind, ← htab, hn]
      simp [finDerivado, hS, hz, mensajeFin, VICTORIA_AZUL]

/-! ## Reading a saved snapshot back -/

theorem MAPEO_INVERSO_MAPEO_CODIGO (t : TIPOS_CARTA) : MAPEO_INVERSO (MAPEO_CODIGO t) = some t := by
  cases t <;> decide

theorem deTexto_texto (t : TIPOS_CARTA) : TIPOS_CARTA.deTexto t.texto = some t := by
  cases t <;> decide

theorem leerTurno_texto (t : TIPOS_CARTA) : leerTurno (.str t.texto) = some t := by
  have h : (JSVal.str t.texto).truthy = true := by cases t <;> decide
  simp [leerTurno, h, deTexto_texto]

theorem reconstruirCarta_guardada (w0 : Mundo) (revelarF : JSVal → Option Bool) (card : Carta)
    (b : Bool) (hrev : revelarF (.bool card.revealed) = some b) :
    reconstruirCarta w0 revelarF
        (.obj [ (lit "id", .num card.id), (lit "type", .str (MAPEO_CODIGO card.type)),
          (lit "r", .bool card.revealed) ])
      = .ok { id := card.id, word := PALABRAS_MAPA_get w0 card.id, type := card.type,
              revealed := b } := by
  simp [reconstruirCarta, JSVal.prop, List.lookup, lit_id, lit_type, lit_r, hrev,
    MAPEO_INVERSO_MAPEO_CODIGO]

theorem reconstruirTablero_guardado (w0 : Mundo) (revelarF : JSVal → Option Bool)
    (g : Bool → Bool) (hrev : ∀ b, revelarF (.bool b) = some (g b)) (cartas : List Carta) :
    reconstruirTablero w0 revelarF
        (cartas.map (fun card =>
          JSVal.obj [ (lit "id", .num card.id), (lit "type", .str (MAPEO_CODIGO card.type)),
            (lit "r", .bool card.revealed) ]))
      = .ok (cartas.map (fun card =>
          { id := card.id, word := PALABRAS_MAPA_get w0 card.id, type := card.type,
            revealed := g card.revealed })) := by
  induction cartas with
  | nil => rfl
  | cons c cs ih =>
    simp only [List.map_cons, reconstruirTablero, ih,
      reconstruirCarta_guardada w0 revelarF c (g c.revealed) (hrev c.revealed)]

theorem revelarGuardado_bool (b : Bool) : revelarGuardado (.bool b) = some b := by
  cases b <;> rfl

/-- Loading what `guardarEstadoPartida` stored for a state with a 25-card board gives the
saved value back and leaves the storage as it is. -/
theorem cargarEstadoPartida_guardado (w w0 : Mundo) (token : JSString)
    (h25 : w.tableroLogico.length = 25) (hne : token ≠ [])
    (hd : descifrarXOR token = some (stringify (obtenerEstadoParaGuardar w)))
    (h0 : w0.estadoActual = some token) :
    cargarEstadoPartida w0 = (some (obtenerEstadoParaGuardar w), w0) := by
  have hc := canonico_obtenerEstadoParaGuardar w
  have hp := JSON_parse_stringify _ hc
  have hn := stringify_ne_nil _ hc
  unfold cargarEstadoPartida
  simp only [h0, hne, if_false, hd, hn, hp]
  simp [obtenerEstadoParaGuardar, JSVal.prop, List.lookup, lit_tablero, esArrayDe, h25]

theorem leerNumTeams_num (n : Nat) (h : n ≠ 0) : leerNumTeams (.num n) = some n := by
  have ht : (JSVal.num (n : Int)).truthy = true := by
    simp [JSVal.truthy, h]
  simp [leerNumTeams, ht]

theorem prop_tablero (w : Mundo) :
    (obtenerEstadoParaGuardar w).prop (lit "tablero")
      = some (.arr (w.tableroLogico.map (fun card =>
          JSVal.obj [ (lit "id", .num card.id), (lit "type", .str (MAPEO_CODIGO card.type)),
            (lit "r", .bool card.revealed) ]))) := by
  simp [obtenerEstadoParaGuardar, JSVal.prop, List.lookup, lit_tablero]

theorem prop_turno (w : Mundo) :
    (obtenerEstadoParaGuardar w).prop (lit "turno") = some (.str w.turnoActual.texto) := by
  simp [obtenerEstadoParaGuardar, JSVal.prop, List.lookup, lit_tablero, lit_turno]

theorem prop_terminado (w : Mundo) :
    (obtenerEstadoParaGuardar w).prop (lit "terminado") = some (.bool w.juegoTerminado) := by
  simp [obtenerEstadoParaGuardar, JSVal.prop, List.lookup, lit_tablero, lit_turno, lit_terminado]

theorem prop_numTeams (w : Mundo) :
    (obtenerEstadoParaGuardar w).prop (lit "numTeams") = some (.num w.numeroDeEquipos) := by
  simp [obtenerEstadoParaGuardar, JSVal.prop, List.lookup, lit_tablero, lit_turno, lit_terminado,
    lit_numTeams]

theorem prop_turnPassRule (w : Mundo) :
    (obtenerEstadoParaGuardar w).prop (lit "turnPassRule")
      = some (.bool w.paseTurnoAlFallar) := by
  simp [obtenerEstadoParaGuardar, JSVal.prop, List.lookup, lit_tablero, lit_turno, lit_terminado,
    lit_numTeams, lit_turnPassRule]

theorem initGame_guardado (w w0 : Mundo) (token : JSString)
    (h25 : w.tableroLogico.length = 25) (hnum : w.numeroDeEquipos ≠ 0) (hne : token ≠ [])
    (hd : descifrarXOR token = some (stringify (obtenerEstadoParaGuardar w)))
    (h0 : w0.estadoActual = some token) :
    ∃ w3, initGame w0 = .retorna true w3 ∧
      w3.tableroLogico = w.tableroLogico.map (fun card =>
          { id := card.id, word := PALABRAS_MAPA_get w0 card.id, type := card.type,
            revealed := card.revealed }) ∧
      w3.turnoActual = w.turnoActual ∧ w3.numeroDeEquipos = w.numeroDeEquipos ∧
      w3.paseTurnoAlFallar = w.paseTurnoAlFallar := by
  obtain ⟨token2, _, hr, _⟩ := recalcularEstado_eq
    { w0 with
      tableroLogico := w.tableroLogico.map (fun card =>
          { id := card.id, word := PALABRAS_MAPA_get w0 card.id, type := card.type,
            revealed := card.revealed })
      turnoActual := w.turnoActual
      juegoTerminado := (JSVal.bool w.juegoTerminado).truthy
      numeroDeEquipos := w.numeroDeEquipos
      paseTurnoAlFallar := w.paseTurnoAlFallar }
  have ht := reconstruirTablero_guardado w0 revelarGuardado id revelarGuardado_bool w.tableroLogico
  simp only [id] at ht
  unfold initGame
  rw [cargarEstadoPartida_guardado w w0 token h25 hne hd h0]
  simp only [prop_tablero, prop_turno, prop_terminado, prop_numTeams, prop_turnPassRule,
    JSVal.elementos, ht, leerTurno_texto, leerNumTeams_num _ hnum, leerTurnPassRule]
  dsimp only at hr
  rw [hr]
  refine ⟨_, rfl, ?_, ?_, ?_, ?_⟩ <;>
  · unfold actualizarIndicadorTurno
    split_ifs <;> simp [recalculado]

theorem mostrarClaveSecretaURL_guardado (w w0 : Mundo) (token : JSString)
    (h25 : w.tableroLogico.length = 25)
    (hd : descifrarXOR token = some (stringify (obtenerEstadoParaGuardar w))) :
    ∃ w3, mostrarClaveSecretaURL token w0 = .retorna () w3 ∧
      w3.tableroLogico = w.tableroLogico.map (fun card =>
          { id := card.id, word := PALABRAS_MAPA_get w0 card.id, type := card.type,
            revealed := true }) := by
  have hc := canonico_obtenerEstadoParaGuardar w
  have hp := JSON_parse_stringify _ hc
  have hn := stringify_ne_nil _ hc
  have ht := reconstruirTablero_guardado w0 (fun _ => some true) (fun _ => true)
    (fun _ => rfl) w.tableroLogico
  unfold mostrarClaveSecretaURL
  simp only [hd, hn, if_false, hp, prop_tablero, prop_turnPassRule, esArrayDe, List.length_map,
    h25, beq_self_eq_true, Bool.not_true, Bool.false_eq_true, JSVal.elementos, ht,
    leerTurnPassRule]
  exact ⟨_, rfl, rfl⟩

/-! ## The failing inputs -/

theorem listaUsadas_usadasEjemplo :
    listaUsadas (some usadasEjemplo)
      = nuevosItems (lit "2024-05-01") [20, 21, 22, 23, 24, 25, 26, 27, 28, 29] := by
  have hc : canonico (.arr (nuevosItems (lit "2024-05-01")
      [20, 21, 22, 23, 24, 25, 26, 27, 28, 29])) = true := by decide
  unfold listaUsadas usadasEjemplo
  simp only [JSON_parse_stringify _ hc, stringify_ne_nil _ hc, if_false]

theorem palabrasElegidas_ejemplo :
    palabrasElegidas (fun i => i) (Mundo.inicial diccionarioEjemplo none (some usadasEjemplo))
      = diccionarioEjemplo.take 25 := by
  unfold palabrasElegidas palabrasCandidatas idsLeidos
  simp only [Mundo.inicial, listaUsadas_usadasEjemplo]
  decide


/-! ## Clicks and passes in every case -/

theorem handleCardClick_eq_token (index : Nat) (w : Mundo) (cardData : Carta)
    (h0 : w.juegoTerminado = false) (h1 : w.tableroLogico.get? index = some cardData)
    (h2 : cardData.revealed = false) :
    ∃ token, token ≠ [] ∧
      handleCardClick index w =
        (if finDerivado w.numeroDeEquipos (revelar w.tableroLogico index cardData) = false ∧
            cardData.type ≠ .ASESINO ∧ cardData.type ≠ w.turnoActual ∧
            w.paseTurnoAlFallar = true then
          passTurn { recalculado { w with tableroLogico := revelar w.tableroLogico index cardData }
            with estadoActual := some token }
        else
          .retorna () { recalculado { w with tableroLogico := revelar w.tableroLogico index cardData }
            with estadoActual := some token }) ∧
      descifrarXOR token = some (stringify (obtenerEstadoParaGuardar
        (recalculado { w with tableroLogico := revelar w.tableroLogico index cardData }))) := by
  obtain ⟨token, ht, hr, hd⟩ :=
    recalcularEstado_eq { w with tableroLogico := revelar w.tableroLogico index cardData }
  have hr2 : ∀ b, recalcularEstado (revelar w.tableroLogico index cardData)
      { w with tableroLogico := revelar w.tableroLogico index cardData, juegoTerminado := b }
      = .retorna () { recalculado { w with tableroLogico := revelar w.tableroLogico index cardData }
          with estadoActual := some token } := by
    intro b
    rw [← hr]; rfl
  refine ⟨token, ht, ?_, hd⟩
  unfold handleCardClick
  rw [if_neg (by simp [h0])]
  simp only [h1]
  rw [if_neg (by simp [h2])]
  by_cases ha : cardData.type = .ASESINO
  · rw [if_pos ha, if_neg (by simp [ha])]
    dsimp only
    have := hr2 true
    simp only [revelar] at this ⊢
    rw [this]
    simp
  · rw [if_neg ha]
    by_cases hm : cardData.type = w.turnoActual
    · rw [if_neg (by simp [hm]), if_neg (by simp [hm])]
      dsimp only
      have := hr2 w.juegoTerminado
      simp only [revelar] at this ⊢
      rw [this]
      simp
    · rw [if_pos (by simpa using hm)]
      by_cases hp : w.paseTurnoAlFallar = true
      · rw [if_pos hp]
        dsimp only
        have := hr2 w.juegoTerminado
        simp only [revelar] at this ⊢
        rw [this]
        simp [ha, hm, hp, recalculado]
      · rw [if_neg hp, if_neg (by simp [hp])]
        dsimp only
        have := hr2 w.juegoTerminado
        simp only [revelar] at this ⊢
        rw [this]
        simp

theorem instantaneaAlDia_de (w : Mundo) (token : JSString) (h : w.estadoActual = some token)
    (ht : token ≠ [])
    (hd : descifrarXOR token = some (stringify (obtenerEstadoParaGuardar w))) :
    instantaneaAlDia w :=
  ⟨token, h, ht, hd, JSON_parse_stringify _ (canonico_obtenerEstadoParaGuardar w)⟩

/-- A click that reveals a card: the state it leaves. -/
theorem handleCardClick_revela (index : Nat) (w : Mundo) (cardData : Carta)
    (h0 : w.juegoTerminado = false) (h1 : w.tableroLogico.get? index = some cardData)
    (h2 : cardData.revealed = false) :
    ∃ w2, handleCardClick index w = .retorna () w2 ∧
      w2.tableroLogico = revelar w.tableroLogico index cardData ∧
      w2.numeroDeEquipos = w.numeroDeEquipos ∧ w2.paseTurnoAlFallar = w.paseTurnoAlFallar ∧
      (w2.turnoActual = w.turnoActual ∨
        w2.turnoActual = siguienteTurno w.numeroDeEquipos w.turnoActual) ∧
      w2.juegoTerminado = finDerivado w.numeroDeEquipos (revelar w.tableroLogico index cardData) ∧
      instantaneaAlDia w2 := by
  obtain ⟨token, ht, h, hd⟩ := handleCardClick_eq_token index w cardData h0 h1 h2
  by_cases hc : finDerivado w.numeroDeEquipos (revelar w.tableroLogico index cardData) = false ∧
      cardData.type ≠ .ASESINO ∧ cardData.type ≠ w.turnoActual ∧ w.paseTurnoAlFallar = true
  · rw [if_pos hc] at h
    obtain ⟨token2, ht2, h2, hd2⟩ := passTurn_eq
      { recalculado { w with tableroLogico := revelar w.tableroLogico index cardData }
        with estadoActual := some token } (by simp [recalculado, hc.1])
    rw [h2] at h
    refine ⟨_, h, rfl, rfl, rfl, Or.inr rfl, ?_, ?_⟩
    · simp [recalculado]
    · exact instantaneaAlDia_de _ token2 rfl ht2 hd2
  · rw [if_neg hc] at h
    refine ⟨_, h, rfl, rfl, rfl, Or.inl rfl, ?_, ?_⟩
    · simp [recalculado]
    · exact instantaneaAlDia_de _ token rfl ht hd

theorem handleCardClick_casos (index : Nat) (w : Mundo) :
    handleCardClick index w = .retorna () w ∨ handleCardClick index w = .lanza w ∨
      ∃ cardData, w.juegoTerminado = false ∧ w.tableroLogico.get? index = some cardData ∧
        cardData.revealed = false := by
  by_cases h0 : w.juegoTerminado = true
  · left
    unfold handleCardClick
    rw [if_pos h0]
  · cases h1 : w.tableroLogico.get? index with
    | none =>
        right; left
        unfold handleCardClick
        rw [if_neg h0]
        simp only [h1]
    | some cardData =>
        by_cases h2 : cardData.revealed = true
        · left
          unfold handleCardClick
          rw [if_neg h0]
          simp only [h1]
          rw [if_pos h2]
        · right; right
          exact ⟨cardData, by simpa using h0, rfl, by simpa using h2⟩

theorem passTurn_terminado (w : Mundo) (h : w.juegoTerminado = true) :
    passTurn w = .retorna () w := by
  unfold passTurn
  rw [if_pos h]

theorem passTurn_estado (w : Mundo) (h : w.juegoTerminado = false) :
    ∃ w2, passTurn w = .retorna () w2 ∧
      w2 = { w2 with turnoActual := siguienteTurno w.numeroDeEquipos w.turnoActual } ∧
      w2.tableroLogico = w.tableroLogico ∧ w2.juegoTerminado = false ∧
      w2.numeroDeEquipos = w.numeroDeEquipos ∧ w2.paseTurnoAlFallar = w.paseTurnoAlFallar ∧
      w2.agentesAzulesRestantes = w.agentesAzulesRestantes ∧
      w2.agentesRojosRestantes = w.agentesRojosRestantes ∧
      w2.agentesVerdesRestantes = w.agentesVerdesRestantes ∧
      w2.PALABRAS_SECRETAS = w.PALABRAS_SECRETAS ∧ w2.PALABRAS_MAPA = w.PALABRAS_MAPA ∧
      w2.palabrasUsadas = w.palabrasUsadas ∧
      w2.turnoActual = siguienteTurno w.numeroDeEquipos w.turnoActual ∧
      instantaneaAlDia w2 := by
  obtain ⟨token, ht, hp, hd⟩ := passTurn_eq w h
  exact ⟨_, hp, rfl, rfl, h, rfl, rfl, rfl, rfl, rfl, rfl, rfl, rfl, rfl,
    instantaneaAlDia_de _ token rfl ht hd⟩

theorem equipoActivo_siguienteTurno (n : Nat) (t : TIPOS_CARTA) (h : equipoActivo n t = true) :
    equipoActivo n (siguienteTurno n t) = true := by
  have hn : n = 2 ∨ n = 3 := by
    unfold equipoActivo at h
    simp at h
    omega
  rcases hn with rfl | rfl <;> cases t <;> rfl

theorem sextetos_isSome (l : List Nat) :
    (sextetos l).isSome = l.all (fun c => (val64 c).isSome) := by
  induction l with
  | nil => rfl
  | cons c resto ih =>
      unfold sextetos
      cases hv : val64 c <;> cases hs : sextetos resto <;> simp [hv, hs] at ih ⊢ <;> exact ih

theorem atob_none_iff (s : JSString) : atob s = none ↔ esBase64 s = false := by
  unfold atob esBase64
  dsimp only
  generalize (if (List.filter (fun c => !esEspacio64 c) s).length % 4 = 0 then
    quitarRelleno (List.filter (fun c => !esEspacio64 c) s)
    else List.filter (fun c => !esEspacio64 c) s) = datos
  by_cases h1 : datos.length % 4 = 1
  · simp [h1]
  · rw [if_neg h1]
    have := sextetos_isSome datos
    cases hs : sextetos datos with
    | none =>
        rw [hs] at this
        simp only [Option.isSome_none] at this
        simp [← this]
    | some v =>
        rw [hs] at this
        simp only [Option.isSome_some] at this
        simp [← this, h1]

theorem idsDeLista_none (lista : List JSVal)
    (h : lista.all (fun item => (item.prop (lit "id")).isSome) = false) :
    idsDeLista lista = none := by
  induction lista with
  | nil => simp at h
  | cons item resto ih =>
    unfold idsDeLista
    cases hp : item.prop (lit "id") with
    | none => rfl
    | some v =>
      have : resto.all (fun item => (item.prop (lit "id")).isSome) = false := by
        simpa [hp] using h
      rw [ih this]

theorem cargarIdsUsados_none (w : Mundo) (h : registroLegible w.palabrasUsadas = false) :
    cargarIdsUsados w = none := by
  unfold registroLegible at h
  unfold cargarIdsUsados
  cases hu : w.palabrasUsadas with
  | none => rw [hu] at h; simp at h
  | some data =>
    rw [hu] at h
    simp only at h ⊢
    by_cases hd : data = []
    · simp [hd] at h
    · simp only [hd, decide_False, Bool.false_or, if_false] at h ⊢
      split at h
      · rename_i lista hl
        exact idsDeLista_none lista h
      · rfl

/-- The state `startNewGame` leaves, whether it returns or raises, has the starting team
to play and the team count asked for. -/
theorem startNewGame_estado (azarPalabras azarTipos : Nat → Nat) (fechaActual : JSString)
    (startingTeam : TIPOS_CARTA) (numTeams : Nat) (rulePassOnMiss : Bool) (w : Mundo) :
    ((startNewGame azarPalabras azarTipos fechaActual startingTeam numTeams rulePassOnMiss
        w).estado w).turnoActual = startingTeam ∧
    ((startNewGame azarPalabras azarTipos fechaActual startingTeam numTeams rulePassOnMiss
        w).estado w).numeroDeEquipos = numTeams := by
  by_cases hreg : registroLegible w.palabrasUsadas = true
  · obtain ⟨w2, h, _, ht, hn, _⟩ := startNewGame_aux azarPalabras azarTipos fechaActual
      startingTeam numTeams rulePassOnMiss w hreg
    rw [h]
    exact ⟨ht, hn⟩
  · have hnone := cargarIdsUsados_none
      { w with
        juegoTerminado := false
        turnoActual := startingTeam
        numeroDeEquipos := numTeams
        paseTurnoAlFallar := rulePassOnMiss } (by simpa using hreg)
    have : startNewGame azarPalabras azarTipos fechaActual startingTeam numTeams rulePassOnMiss w
        = .lanza
          { w with
            juegoTerminado := false
            turnoActual := startingTeam
            numeroDeEquipos := numTeams
            paseTurnoAlFallar := rulePassOnMiss } := by
      unfold startNewGame
      simp only [hnone]
    rw [this]
    exact ⟨rfl, rfl⟩

theorem handleCardClick_conserva_activo (index : Nat) (w : Mundo) (n : Nat)
    (h : w.numeroDeEquipos = n ∧ equipoActivo n w.turnoActual = true) :
    ((handleCardClick index w).estado w).numeroDeEquipos = n ∧
      equipoActivo n ((handleCardClick index w).estado w).turnoActual = true := by
  rcases handleCardClick_casos index w with hc | hc | ⟨cardData, h0, h1, h2⟩
  · rw [hc]; exact h
  · rw [hc]; exact h
  · obtain ⟨w2, hw, _, hn, _, ht, _⟩ := handleCardClick_revela index w cardData h0 h1 h2
    rw [hw]
    refine ⟨hn.trans h.1, ?_⟩
    show equipoActivo n w2.turnoActual = true
    rcases ht with ht | ht
    · rw [ht]; exact h.2
    · rw [ht, h.1]; exact equipoActivo_siguienteTurno n _ h.2

theorem passTurn_conserva_activo (w : Mundo) (n : Nat)
    (h : w.numeroDeEquipos = n ∧ equipoActivo n w.turnoActual = true) :
    ((passTurn w).estado w).numeroDeEquipos = n ∧
      equipoActivo n ((passTurn w).estado w).turnoActual = true := by
  by_cases h0 : w.juegoTerminado = true
  · rw [passTurn_terminado w h0]; exact h
  · obtain ⟨w2, hw, _, _, _, hn, _, _, _, _, _, _, _, ht, _⟩ :=
      passTurn_estado w (by simpa using h0)
    rw [hw]
    refine ⟨hn.trans h.1, ?_⟩
    show equipoActivo n w2.turnoActual = true
    rw [ht, h.1]; exact equipoActivo_siguienteTurno n _ h.2

theorem ejecutar_conserva_activo (acciones : List Accion) (w : Mundo) (n : Nat)
    (h : w.numeroDeEquipos = n ∧ equipoActivo n w.turnoActual = true) :
    (ejecutar acciones w).numeroDeEquipos = n ∧
      equipoActivo n (ejecutar acciones w).turnoActual = true := by
  induction acciones generalizing w with
  | nil => exact h
  | cons a resto ih =>
    cases a with
    | click index => exact ih _ (handleCardClick_conserva_activo index w n h)
    | pase => exact ih _ (passTurn_conserva_activo w n h)

theorem revelar_get? (tablero : List Carta) (index : Nat) (cardData : Carta)
    (h1 : tablero.get? index = some cardData) (j : Nat) (a : Carta)
    (ha : tablero.get? j = some a) :
    ∃ d, (revelar tablero index cardData).get? j = some d ∧ d.id = a.id ∧ d.word = a.word ∧
      d.type = a.type ∧ (a.revealed = true → d.revealed = true) ∧
      (j ≠ index → d.revealed = a.revealed) := by
  unfold revelar
  by_cases hj : j = index
  · subst hj
    rw [h1] at ha
    cases ha
    have hlt := get?_lt _ _ _ h1
    refine ⟨{ cardData with revealed := true }, ?_, rfl, rfl, rfl, fun _ => rfl,
      fun h => absurd rfl h⟩
    simp [List.getElem?_set, hlt]
  · refine ⟨a, ?_, rfl, rfl, rfl, fun h => h, fun _ => rfl⟩
    rw [List.get?_eq_getElem?, List.getElem?_set_ne (Ne.symm hj), ← List.get?_eq_getElem?]
    exact ha

theorem startNewGame_instantanea (azarPalabras azarTipos : Nat → Nat) (fechaActual : JSString)
    (startingTeam : TIPOS_CARTA) (numTeams : Nat) (rulePassOnMiss : Bool) (w : Mundo)
    (hreg : registroLegible w.palabrasUsadas = true) :
    ∃ w2,
      startNewGame azarPalabras azarTipos fechaActual startingTeam numTeams rulePassOnMiss w
        = .retorna () w2 ∧ instantaneaAlDia w2 := by
  obtain ⟨token, ht, h, hd⟩ := startNewGame_eq azarPalabras azarTipos fechaActual startingTeam
    numTeams rulePassOnMiss w hreg
  refine ⟨_, h, ?_⟩
  apply instantaneaAlDia_de _ token
  · unfold actualizarIndicadorTurno
    split_ifs <;> rfl
  · exact ht
  · rw [hd]
    unfold actualizarIndicadorTurno
    split_ifs <;> rfl

/-! ## The map of `guardarNuevosIds` -/

theorem sameValueZero_eq (a b : JSVal) (h : sameValueZero a b = true) : a = b := by
  cases a <;> cases b <;> simp [sameValueZero] at h <;> simp [h]

theorem sameValueZero_comm (a b : JSVal) : sameValueZero a b = sameValueZero b a := by
  cases a <;> cases b <;> simp [sameValueZero, eq_comm]

theorem sameValueZero_num (n : Int) : sameValueZero (.num n) (.num n) = true := by
  simp [sameValueZero]

theorem claveDe_nuevo (fechaActual : JSString) (n : Int) :
    claveDe (.obj [(lit "id", .num n), (lit "fecha", .str fechaActual)]) = .num n := by
  simp [claveDe, JSVal.prop, List.lookup]

theorem agregarClave_cons (k k2 : JSVal) (ks : List JSVal) :
    agregarClave k (k2 :: ks)
      = if sameValueZero k2 k then k2 :: ks else k2 :: agregarClave k ks := by
  unfold agregarClave
  by_cases h : sameValueZero k2 k = true
  · simp [h]
  · by_cases h2 : ks.any (fun x => sameValueZero x k) = true <;> simp [h, h2]

theorem mapSet_fst (k v : JSVal) (m : List (JSVal × JSVal)) :
    (mapSet k v m).map Prod.fst = agregarClave k (m.map Prod.fst) := by
  induction m with
  | nil => rfl
  | cons p resto ih =>
    obtain ⟨k2, v2⟩ := p
    rw [List.map_cons, agregarClave_cons]
    unfold mapSet
    by_cases h : sameValueZero k2 k = true
    · simp [h]
    · simp [h, ih]

theorem registrados_cons (item : JSVal) (resto : List JSVal) (m : List (JSVal × JSVal)) :
    registrados (item :: resto) m = registrados resto (mapSet (claveDe item) item m) := rfl

theorem registrados_fst (items : List JSVal) (m : List (JSVal × JSVal)) :
    (registrados items m).map Prod.fst = claves items (m.map Prod.fst) := by
  induction items generalizing m with
  | nil => rfl
  | cons item resto ih =>
    rw [registrados_cons, ih, mapSet_fst]
    rfl

theorem mapSet_forall (P : JSVal × JSVal → Prop) (k v : JSVal) (m : List (JSVal × JSVal))
    (hv : ∀ k2, sameValueZero k2 k = true ∨ k2 = k → P (k2, v)) (hm : ∀ p ∈ m, P p) :
    ∀ p ∈ mapSet k v m, P p := by
  induction m with
  | nil =>
    intro p hp
    simp only [mapSet, List.mem_singleton] at hp
    rw [hp]
    exact hv k (Or.inr rfl)
  | cons q resto ih =>
    obtain ⟨k2, v2⟩ := q
    intro p hp
    unfold mapSet at hp
    by_cases h : sameValueZero k2 k = true
    · rw [if_pos h] at hp
      rcases List.mem_cons.mp hp with hp | hp
      · rw [hp]; exact hv k2 (Or.inl h)
      · exact hm p (List.mem_cons_of_mem _ hp)
    · rw [if_neg h] at hp
      rcases List.mem_cons.mp hp with hp | hp
      · rw [hp]; exact hm _ (List.mem_cons_self _ _)
      · exact ih (fun p hp => hm p (List.mem_cons_of_mem _ hp)) p hp

theorem registrados_forall (P : JSVal × JSVal → Prop) (items : List JSVal)
    (m : List (JSVal × JSVal))
    (hitems : ∀ item ∈ items, P (claveDe item, item)) (hm : ∀ p ∈ m, P p) :
    ∀ p ∈ registrados items m, P p := by
  induction items generalizing m with
  | nil => exact hm
  | cons item resto ih =>
    rw [registrados_cons]
    apply ih _ (fun i hi => hitems i (List.mem_cons_of_mem _ hi))
    apply mapSet_forall P _ _ _ _ hm
    intro k2 hk
    have : k2 = claveDe item := by
      rcases hk with hk | hk
      · exact sameValueZero_eq _ _ hk
      · exact hk
    rw [this]
    exact hitems item (List.mem_cons_self _ _)

/-- Every entry of the map is filed under its own id. -/
theorem registrados_fiel (items : List JSVal) :
    ∀ p ∈ registrados items [], claveDe p.2 = p.1 :=
  registrados_forall (fun p => claveDe p.2 = p.1) items [] (fun _ _ => rfl)
    (fun _ h => absurd h (List.not_mem_nil _))

theorem registrados_registrados_fiel (items items2 : List JSVal) :
    ∀ p ∈ registrados items2 (registrados items []), claveDe p.2 = p.1 :=
  registrados_forall (fun p => claveDe p.2 = p.1) items2 _ (fun _ _ => rfl)
    (registrados_fiel items)

theorem map_claveDe_snd (m : List (JSVal × JSVal)) (h : ∀ p ∈ m, claveDe p.2 = p.1) :
    (m.map Prod.snd).map claveDe = m.map Prod.fst := by
  rw [List.map_map]
  apply List.map_congr_left
  intro p hp
  exact h p hp

theorem any_agregarClave (k x : JSVal) (ks : List JSVal) :
    (agregarClave k ks).any (fun y => sameValueZero y x)
      = (ks.any (fun y => sameValueZero y x) || sameValueZero k x) := by
  unfold agregarClave
  by_cases h : ks.any (fun y => sameValueZero y k) = true
  · rw [if_pos h]
    by_cases hk : sameValueZero k x = true
    · have := sameValueZero_eq _ _ hk
      subst this
      rw [h, hk]; rfl
    · simp [hk]
  · rw [if_neg h]
    simp

theorem any_claves (items : List JSVal) (x : JSVal) (ks : List JSVal) :
    (claves items ks).any (fun y => sameValueZero y x)
      = (ks.any (fun y => sameValueZero y x)
          || items.any (fun item => sameValueZero (claveDe item) x)) := by
  induction items generalizing ks with
  | nil => simp [claves]
  | cons item resto ih =>
    have : claves (item :: resto) ks = claves resto (agregarClave (claveDe item) ks) := rfl
    rw [this, ih, any_agregarClave, List.any_cons, Bool.or_assoc]

theorem pairwise_agregarClave (k : JSVal) (ks : List JSVal)
    (h : ks.Pairwise (fun a b => sameValueZero a b = false)) :
    (agregarClave k ks).Pairwise (fun a b => sameValueZero a b = false) := by
  unfold agregarClave
  by_cases hk : ks.any (fun y => sameValueZero y k) = true
  · rw [if_pos hk]; exact h
  · rw [if_neg hk]
    rw [List.pairwise_append]
    refine ⟨h, List.pairwise_singleton _ _, ?_⟩
    intro a ha b hb
    rw [List.mem_singleton] at hb
    subst hb
    simp only [List.any_eq_true, not_exists, not_and, Bool.not_eq_true] at hk
    exact hk a ha

theorem pairwise_claves (items : List JSVal) (ks : List JSVal)
    (h : ks.Pairwise (fun a b => sameValueZero a b = false)) :
    (claves items ks).Pairwise (fun a b => sameValueZero a b = false) := by
  induction items generalizing ks with
  | nil => exact h
  | cons item resto ih => exact ih _ (pairwise_agregarClave _ _ h)

/-- Setting entries whose ids are pairwise different adds every one of them. -/
theorem claves_sin_repetir (items : List JSVal) (ks : List JSVal)
    (h : (ks ++ items.map claveDe).Pairwise (fun a b => sameValueZero a b = false)) :
    claves items ks = ks ++ items.map claveDe := by
  induction items generalizing ks with
  | nil => simp [claves]
  | cons item resto ih =>
    have hstep : claves (item :: resto) ks = claves resto (agregarClave (claveDe item) ks) := rfl
    have hnew : agregarClave (claveDe item) ks = ks ++ [claveDe item] := by
      unfold agregarClave
      rw [if_neg]
      rw [List.pairwise_append] at h
      simp only [List.any_eq_true, not_exists, not_and, Bool.not_eq_true]
      intro a ha
      exact h.2.2 a ha _ (List.mem_cons_self _ _)
    rw [hstep, hnew, ih]
    · simp
    · simpa using h

/-- Setting entries whose ids are all keys of the map leaves its keys as they are. -/
theorem claves_presentes (items : List JSVal) (ks : List JSVal)
    (h : ∀ item ∈ items, ks.any (fun y => sameValueZero y (claveDe item)) = true) :
    claves items ks = ks := by
  induction items with
  | nil => rfl
  | cons item resto ih =>
    have hstep : claves (item :: resto) ks = claves resto (agregarClave (claveDe item) ks) := rfl
    have hnew : agregarClave (claveDe item) ks = ks := by
      unfold agregarClave
      rw [if_pos (h item (List.mem_cons_self _ _))]
    rw [hstep, hnew]
    exact ih (fun i hi => h i (List.mem_cons_of_mem _ hi))

theorem mapSet_mem (k v : JSVal) (m : List (JSVal × JSVal))
    (hm : (m.map Prod.fst).Pairwise (fun a b => sameValueZero a b = false))
    (p : JSVal × JSVal) (hp : p ∈ mapSet k v m) :
    (p ∈ m ∧ sameValueZero p.1 k = false) ∨ p = (k, v) := by
  induction m with
  | nil =>
    right
    simpa [mapSet] using hp
  | cons q resto ih =>
    obtain ⟨k2, v2⟩ := q
    rw [List.map_cons, List.pairwise_cons] at hm
    unfold mapSet at hp
    by_cases h : sameValueZero k2 k = true
    · rw [if_pos h] at hp
      have hk := sameValueZero_eq _ _ h
      rcases List.mem_cons.mp hp with hp | hp
      · right; rw [hp, hk]
      · left
        refine ⟨List.mem_cons_of_mem _ hp, ?_⟩
        have := hm.1 p.1 (List.mem_map_of_mem _ hp)
        rw [hk, sameValueZero_comm] at this
        exact this
    · rw [if_neg h] at hp
      rcases List.mem_cons.mp hp with hp | hp
      · left
        rw [hp]
        exact ⟨List.mem_cons_self _ _, by simpa using h⟩
      · rcases ih hm.2 hp with ⟨h1, h2⟩ | h1
        · exact Or.inl ⟨List.mem_cons_of_mem _ h1, h2⟩
        · exact Or.inr h1

/-- After the new entries are set, the entry of each new id is the new one. -/
theorem registrados_nuevos_fecha (fechaActual : JSString) (ids hechos : List Int)
    (m : List (JSVal × JSVal))
    (hm : (m.map Prod.fst).Pairwise (fun a b => sameValueZero a b = false))
    (hh : ∀ p ∈ m, ∀ n ∈ hechos, p.1 = .num n →
      p.2 = .obj [(lit "id", .num n), (lit "fecha", .str fechaActual)]) :
    ∀ p ∈ registrados (nuevosItems fechaActual ids) m, ∀ n, n ∈ hechos ∨ n ∈ ids →
      p.1 = .num n → p.2 = .obj [(lit "id", .num n), (lit "fecha", .str fechaActual)] := by
  induction ids generalizing m hechos with
  | nil =>
    intro p hp n hn
    rcases hn with hn | hn
    · exact hh p hp n hn
    · exact absurd hn (List.not_mem_nil _)
  | cons id0 resto ih =>
    have hstep : registrados (nuevosItems fechaActual (id0 :: resto)) m
        = registrados (nuevosItems fechaActual resto)
            (mapSet (.num id0) (.obj [(lit "id", .num id0), (lit "fecha", .str fechaActual)])
              m) := by
      unfold nuevosItems
      rw [List.map_cons, registrados_cons, claveDe_nuevo]
    rw [hstep]
    intro p hp n hn
    refine ih (id0 :: hechos) _ ?_ ?_ p hp n ?_
    · rw [mapSet_fst]
      exact pairwise_agregarClave _ _ hm
    · intro q hq n2 hn2 hq1
      rcases mapSet_mem _ _ _ hm q hq with ⟨h1, h2⟩ | h1
      · rcases List.mem_cons.mp hn2 with h3 | h3
        · subst h3
          rw [hq1, sameValueZero_num] at h2
          exact absurd h2 (by decide)
        · exact hh q h1 n2 h3 hq1
      · rw [h1] at hq1 ⊢
        simp only [JSVal.num.injEq] at hq1
        subst hq1
        rfl
    · rcases hn with hn | hn
      · exact Or.inl (List.mem_cons_of_mem _ hn)
      · rcases List.mem_cons.mp hn with h3 | h3
        · exact Or.inl (h3 ▸ List.mem_cons_self _ _)
        · exact Or.inr h3

/-! ## The record `guardarNuevosIds` writes -/

theorem usadasTras_claves (fechaActual : JSString) (nuevosIds : List Int)
    (u : Option JSString) :
    (usadasTras fechaActual nuevosIds u).map claveDe
      = claves (nuevosItems fechaActual nuevosIds) (claves (listaUsadas u) []) := by
  unfold usadasTras
  rw [map_claveDe_snd _ (registrados_registrados_fiel _ _), registrados_fst, registrados_fst]
  rfl

theorem any_nuevosItems (fechaActual : JSString) (nuevosIds : List Int) (n : Int) :
    (nuevosItems fechaActual nuevosIds).any (fun item => sameValueZero (claveDe item) (.num n))
      = decide (n ∈ nuevosIds) := by
  induction nuevosIds with
  | nil => rfl
  | cons id0 resto ih =>
    have : nuevosItems fechaActual (id0 :: resto)
        = .obj [(lit "id", .num id0), (lit "fecha", .str fechaActual)]
          :: nuevosItems fechaActual resto := rfl
    rw [this, List.any_cons, ih, claveDe_nuevo]
    by_cases h : id0 = n
    · simp [sameValueZero, h]
    · simp [sameValueZero, h, Ne.symm h]

theorem setHas_usadasTras (fechaActual : JSString) (nuevosIds : List Int)
    (u : Option JSString) (n : Int) :
    setHas ((usadasTras fechaActual nuevosIds u).map claveDe) n
      = (setHas (idsLeidos u) n || decide (n ∈ nuevosIds)) := by
  unfold setHas
  rw [usadasTras_claves, any_claves, any_claves, any_nuevosItems]
  unfold idsLeidos
  rw [List.any_map]
  rfl

theorem usadasTras_sin_repetir (fechaActual : JSString) (nuevosIds : List Int)
    (u : Option JSString) :
    ((usadasTras fechaActual nuevosIds u).map claveDe).Pairwise
      (fun a b => sameValueZero a b = false) := by
  rw [usadasTras_claves]
  exact pairwise_claves _ _ (pairwise_claves _ _ List.Pairwise.nil)

theorem filter_clave_le_one (lista : List JSVal)
    (h : (lista.map claveDe).Pairwise (fun a b => sameValueZero a b = false)) (n : Int) :
    (lista.filter (fun item => sameValueZero (claveDe item) (.num n))).length ≤ 1 := by
  induction lista with
  | nil => simp
  | cons item resto ih =>
    rw [List.map_cons, List.pairwise_cons] at h
    by_cases hk : sameValueZero (claveDe item) (.num n) = true
    · have hkey := sameValueZero_eq _ _ hk
      have hnil : resto.filter (fun item => sameValueZero (claveDe item) (.num n)) = [] := by
        rw [List.filter_eq_nil_iff]
        intro r hr
        have := h.1 (claveDe r) (List.mem_map_of_mem _ hr)
        rw [hkey, sameValueZero_comm] at this
        simp [this]
      rw [List.filter_cons, if_pos hk, hnil]
      simp
    · rw [List.filter_cons, if_neg hk]
      exact ih h.2

theorem usadasTras_fecha (fechaActual : JSString) (nuevosIds : List Int)
    (u : Option JSString) :
    ∀ item ∈ usadasTras fechaActual nuevosIds u, ∀ n ∈ nuevosIds, claveDe item = .num n →
      item = .obj [(lit "id", .num n), (lit "fecha", .str fechaActual)] := by
  intro item hitem n hn hclave
  unfold usadasTras at hitem
  obtain ⟨p, hp, rfl⟩ := List.mem_map.mp hitem
  have hfiel := registrados_registrados_fiel (listaUsadas u) (nuevosItems fechaActual nuevosIds)
    p hp
  refine registrados_nuevos_fecha fechaActual nuevosIds [] _ ?_ ?_ p hp n (Or.inr hn) ?_
  · rw [registrados_fst]
    exact pairwise_claves _ _ List.Pairwise.nil
  · intro q _ n2 hn2
    exact absurd hn2 (List.not_mem_nil _)
  · rw [← hfiel, hclave]

theorem usadasTras_contiene (fechaActual : JSString) (nuevosIds : List Int)
    (u : Option JSString) (n : Int) (hn : n ∈ nuevosIds) :
    .obj [(lit "id", .num n), (lit "fecha", .str fechaActual)]
      ∈ usadasTras fechaActual nuevosIds u := by
  have h := setHas_usadasTras fechaActual nuevosIds u n
  rw [decide_eq_true hn, Bool.or_true] at h
  unfold setHas at h
  rw [List.any_map, List.any_eq_true] at h
  obtain ⟨item, hitem, hk⟩ := h
  have hclave : claveDe item = .num n := sameValueZero_eq _ _ hk
  rw [← usadasTras_fecha fechaActual nuevosIds u item hitem n hn hclave]
  exact hitem

theorem canonicoElems_iff (xs : List JSVal) :
    canonicoElems xs = true ↔ ∀ v ∈ xs, canonico v = true := by
  induction xs with
  | nil => simp [canonicoElems]
  | cons v resto ih => simp [canonicoElems, ih]

theorem canonico_nuevo (fechaActual : JSString) (n : Int)
    (hf : fechaActual.all esSimple = true) :
    canonico (.obj [(lit "id", .num n), (lit "fecha", .str fechaActual)]) = true := by
  simp [canonico, canonicoProps, hf, List.lookup, lit_id, lit_fecha]
  decide

theorem usadasTras_forall (P : JSVal → Prop) (fechaActual : JSString) (nuevosIds : List Int)
    (u : Option JSString) (hu : ∀ item ∈ listaUsadas u, P item)
    (hn : ∀ n ∈ nuevosIds, P (.obj [(lit "id", .num n), (lit "fecha", .str fechaActual)])) :
    ∀ item ∈ usadasTras fechaActual nuevosIds u, P item := by
  intro item hitem
  unfold usadasTras at hitem
  obtain ⟨p, hp, rfl⟩ := List.mem_map.mp hitem
  refine registrados_forall (fun p => P p.2) _ _ ?_ ?_ p hp
  · intro i hi
    unfold nuevosItems at hi
    obtain ⟨n, hn2, rfl⟩ := List.mem_map.mp hi
    exact hn n hn2
  · exact registrados_forall (fun p => P p.2) _ _ hu (fun _ h => absurd h (List.not_mem_nil _))

theorem listaUsadas_stringify (lista : List JSVal) (hc : canonicoElems lista = true) :
    listaUsadas (some (stringify (.arr lista))) = lista := by
  have hc2 : canonico (.arr lista) = true := by
    unfold canonico
    exact hc
  unfold listaUsadas
  simp only [JSON_parse_stringify _ hc2, stringify_ne_nil _ hc2, if_false]

theorem registroCanonico_iff (u : Option JSString) :
    registroCanonico u = true
      ↔ registroLegible u = true ∧ ∀ item ∈ listaUsadas u, canonico item = true := by
  unfold registroCanonico
  rw [Bool.and_eq_true, canonicoElems_iff]

theorem registroLegible_stringify (lista : List JSVal) (hc : canonicoElems lista = true)
    (hl : lista.all (fun item => (item.prop (lit "id")).isSome) = true) :
    registroLegible (some (stringify (.arr lista))) = true := by
  have hc2 : canonico (.arr lista) = true := by
    unfold canonico
    exact hc
  unfold registroLegible
  simp only [JSON_parse_stringify _ hc2, hl, Bool.or_true]

/-- On a record of plain JSON values `guardarNuevosIds` returns, and the record it writes
is read back as the entries of its map, plain JSON values again. -/
theorem guardarNuevosIds_canonico (fechaActual : JSString) (nuevosIds : List Int) (w : Mundo)
    (hreg : registroCanonico w.palabrasUsadas = true)
    (hf : fechaActual.all esSimple = true) :
    guardarNuevosIds fechaActual nuevosIds w
      = .retorna ()
          { w with
            palabrasUsadas :=
              some (stringify (.arr (usadasTras fechaActual nuevosIds w.palabrasUsadas))) } ∧
    listaUsadas (some (stringify (.arr (usadasTras fechaActual nuevosIds w.palabrasUsadas))))
      = usadasTras fechaActual nuevosIds w.palabrasUsadas ∧
    registroCanonico
      (some (stringify (.arr (usadasTras fechaActual nuevosIds w.palabrasUsadas)))) = true := by
  rw [registroCanonico_iff] at hreg
  have hc : canonicoElems (usadasTras fechaActual nuevosIds w.palabrasUsadas) = true := by
    rw [canonicoElems_iff]
    exact usadasTras_forall (fun item => canonico item = true) _ _ _ hreg.2
      (fun n _ => canonico_nuevo fechaActual n hf)
  have hl : (usadasTras fechaActual nuevosIds w.palabrasUsadas).all
      (fun item => (item.prop (lit "id")).isSome) = true := by
    rw [List.all_eq_true]
    refine usadasTras_forall (fun item => (item.prop (lit "id")).isSome = true) _ _ _ ?_ ?_
    · exact List.all_eq_true.mp (listaUsadas_legible _ hreg.1)
    · intro n _
      rfl
  refine ⟨guardarNuevosIds_eq fechaActual nuevosIds w hreg.1, listaUsadas_stringify _ hc, ?_⟩
  rw [registroCanonico_iff, listaUsadas_stringify _ hc]
  exact ⟨registroLegible_stringify _ hc hl, (canonicoElems_iff _).mp hc⟩

theorem idsLeidos_eq (u : Option JSString) : idsLeidos u = (listaUsadas u).map claveDe := rfl

/-- Setting the same ids once more, whatever the date, leaves the ids of the record. -/
theorem usadasTras_otra_vez (fecha1 fecha2 : JSString) (nuevosIds : List Int)
    (u : Option JSString)
    (hc : canonicoElems (usadasTras fecha1 nuevosIds u) = true) :
    (usadasTras fecha2 nuevosIds
        (some (stringify (.arr (usadasTras fecha1 nuevosIds u))))).map claveDe
      = (usadasTras fecha1 nuevosIds u).map claveDe := by
  rw [usadasTras_claves fecha2, listaUsadas_stringify _ hc]
  have h1 : claves (usadasTras fecha1 nuevosIds u) []
      = (usadasTras fecha1 nuevosIds u).map claveDe := by
    rw [claves_sin_repetir]
    · rfl
    · exact usadasTras_sin_repetir fecha1 nuevosIds u
  rw [h1]
  apply claves_presentes
  intro item hitem
  unfold nuevosItems at hitem
  obtain ⟨n, hn, rfl⟩ := List.mem_map.mp hitem
  rw [claveDe_nuevo]
  have := setHas_usadasTras fecha1 nuevosIds u n
  rw [decide_eq_true hn, Bool.or_true] at this
  exact this

theorem registroCanonico_usadasEjemplo : registroCanonico (some usadasEjemplo) = true := by
  rw [registroCanonico_iff, listaUsadas_usadasEjemplo]
  exact ⟨registroLegible_usadasEjemplo, by decide⟩

/-! ## The words of a new game are taken without replacement -/

theorem zipWith_map_fst {α β γ δ : Type} (f : α → β → γ) (g : γ → δ) (g2 : α → δ)
    (hg : ∀ a b, g (f a b) = g2 a) (l1 : List α) (l2 : List β) (h : l1.length = l2.length) :
    (List.zipWith f l1 l2).map g = l1.map g2 := by
  induction l1 generalizing l2 with
  | nil => rfl
  | cons a l1 ih =>
    cases l2 with
    | nil => simp at h
    | cons b l2 =>
      simp only [List.length_cons, Nat.add_right_cancel_iff] at h
      simp only [List.zipWith_cons_cons, List.map_cons, hg, ih l2 h]

theorem tableroNuevo_ids (azarPalabras azarTipos : Nat → Nat) (startingTeam : TIPOS_CARTA)
    (numTeams : Nat) (w : Mundo) (hdicc : 25 ≤ w.PALABRAS_SECRETAS.length) :
    (tableroNuevo azarPalabras azarTipos startingTeam numTeams w).map (fun c => c.id)
      = (palabrasElegidas azarPalabras w).map (fun item => item.id) := by
  unfold tableroNuevo
  apply zipWith_map_fst
  · intro a b; rfl
  · rw [palabrasElegidas_length _ _ hdicc, (shuffleArray_perm _ _).length_eq,
      tiposIniciales_length]

theorem nodup_take_shuffle (azar : Nat → Nat) (l : List Palabra)
    (h : (l.map (fun p => p.id)).Nodup) :
    (((shuffleArray azar l).take 25).map (fun p => p.id)).Nodup := by
  have h1 : ((shuffleArray azar l).map (fun p => p.id)).Nodup :=
    (((shuffleArray_perm azar l).map _).nodup_iff).mpr h
  exact h1.sublist ((List.take_sublist _ _).map _)

theorem palabrasElegidas_nodup (azarPalabras : Nat → Nat) (w : Mundo)
    (hdist : (w.PALABRAS_SECRETAS.map (fun p => p.id)).Nodup) :
    ((palabrasElegidas azarPalabras w).map (fun item => item.id)).Nodup := by
  unfold palabrasElegidas
  split_ifs
  · exact nodup_take_shuffle _ _ hdist
  · apply nodup_take_shuffle
    unfold palabrasCandidatas
    exact hdist.sublist ((List.filter_sublist _).map _)

theorem palabrasElegidas_sin_usar (azarPalabras : Nat → Nat) (w : Mundo)
    (hc : 25 ≤ (palabrasCandidatas w).length) :
    ∀ item ∈ palabrasElegidas azarPalabras w,
      setHas (idsLeidos w.palabrasUsadas) item.id = false := by
  intro item hitem
  unfold palabrasElegidas at hitem
  rw [if_neg (by omega)] at hitem
  have h1 := (shuffleArray_perm azarPalabras (palabrasCandidatas w)).mem_iff.mp
    (List.mem_of_mem_take hitem)
  unfold palabrasCandidatas at h1
  have := (List.mem_filter.mp h1).2
  simpa using this

theorem listaUsadas_usadasPocas :
    listaUsadas (some usadasPocas) = nuevosItems (lit "2024-05-01") [0, 1, 2] :=
  listaUsadas_stringify _ (by decide)

theorem registroCanonico_usadasPocas : registroCanonico (some usadasPocas) = true := by
  rw [registroCanonico_iff, listaUsadas_usadasPocas]
  exact ⟨registroLegible_stringify _ (by decide) (by decide), by decide⟩

theorem candidatas_usadasPocas :
    25 ≤ ((Mundo.inicial diccionarioEjemplo none (some usadasPocas)).PALABRAS_SECRETAS.filter
      (fun item => !setHas
        (idsLeidos (Mundo.inicial diccionarioEjemplo none (some usadasPocas)).palabrasUsadas)
        item.id)).length := by
  have : (Mundo.inicial diccionarioEjemplo none (some usadasPocas)).palabrasUsadas
      = some usadasPocas := rfl
  rw [this, idsLeidos_eq, listaUsadas_usadasPocas]
  decide

/-! ## The import of a leader token in every case -/

theorem reconstruirCarta_ok (w : Mundo) (revelar : JSVal → Option Bool) (item : JSVal)
    (c : Carta) (h : reconstruirCarta w revelar item = .ok c) :
    ∃ r, revelar r = some c.revealed := by
  unfold reconstruirCarta at h
  split at h
  · rename_i id tipo r _ _ _
    split at h
    · rename_i n codigo revealed _ _ hr
      split at h
      · simp only [Except.ok.injEq] at h
        subst h
        exact ⟨r, by assumption⟩
      · cases h
    · cases h
  · cases h

theorem reconstruirTablero_ok (w : Mundo) (revelar : JSVal → Option Bool) (items : List JSVal)
    (cartas : List Carta) (h : reconstruirTablero w revelar items = .ok cartas) :
    cartas.length = items.length ∧ ∀ c ∈ cartas, ∃ r, revelar r = some c.revealed := by
  induction items generalizing cartas with
  | nil =>
    simp only [reconstruirTablero, Except.ok.injEq] at h
    subst h
    simp
  | cons item resto ih =>
    unfold reconstruirTablero at h
    split at h <;> try cases h
    rename_i c cs hc hcs
    obtain ⟨h1, h2⟩ := ih cs hcs
    refine ⟨by simp [h1], ?_⟩
    intro d hd
    rcases List.mem_cons.mp hd with hd | hd
    · rw [hd]; exact reconstruirCarta_ok w revelar item c hc
    · exact h2 d hd

theorem esArrayDe_elementos (n : Nat) (v : JSVal) (h : esArrayDe n v = true) :
    v.elementos.length = n := by
  cases v <;> simp [esArrayDe] at h
  simpa [JSVal.elementos] using h

/-- The outcomes of `mostrarClaveSecretaURL`: the token is rejected with an alert and
the state is otherwise as it was; or it is accepted, and the board (25 revealed cards),
the team count and the rule are replaced; or an entry falls outside the typed state. No
exception escapes. -/
theorem mostrarClaveSecretaURL_casos (cadenaCifrada : JSString) (w : Mundo) :
    (∃ mensaje, mostrarClaveSecretaURL cadenaCifrada w = .retorna () (alert mensaje w)) ∨
    mostrarClaveSecretaURL cadenaCifrada w = .noTipado ∨
    ∃ cartas regla,
      mostrarClaveSecretaURL cadenaCifrada w
        = .retorna ()
            { w with
              tableroLogico := cartas
              numeroDeEquipos := if cartas.any (fun card => card.type = .VERDE) then 3 else 2
              paseTurnoAlFallar := regla } ∧
      cartas.length = 25 ∧ ∀ c ∈ cartas, c.revealed = true := by
  unfold mostrarClaveSecretaURL
  dsimp only
  split
  · exact Or.inl ⟨_, rfl⟩
  · split
    · exact Or.inl ⟨_, rfl⟩
    · split
      · exact Or.inl ⟨_, rfl⟩
      · split
        · exact Or.inl ⟨_, rfl⟩
        · rename_i estadoDecodificado _
          split
          · exact Or.inl ⟨_, rfl⟩
          · rename_i h25
            split
            · exact Or.inl ⟨_, rfl⟩
            · exact Or.inr (Or.inl rfl)
            · rename_i cartas hc
              split
              · exact Or.inl ⟨_, rfl⟩
              · split
                · exact Or.inr (Or.inl rfl)
                · rename_i regla _
                  obtain ⟨h1, h2⟩ := reconstruirTablero_ok _ _ _ _ hc
                  refine Or.inr (Or.inr ⟨cartas, regla, rfl, ?_, ?_⟩)
                  · rw [h1]
                    exact esArrayDe_elementos 25 _ (by simpa using h25)
                  · intro c hcm
                    obtain ⟨r, hr⟩ := h2 c hcm
                    simpa using hr.symm

theorem reconstruirTablero_null (w : Mundo) (revelar : JSVal → Option Bool)
    (items : List JSVal) (h : ∃ item ∈ items, item.prop (lit "id") = none) :
    reconstruirTablero w revelar items = .error .excepcion := by
  induction items with
  | nil =>
    obtain ⟨item, hi, _⟩ := h
    exact absurd hi (List.not_mem_nil _)
  | cons item resto ih =>
    obtain ⟨x, hx, hp⟩ := h
    unfold reconstruirTablero
    rcases List.mem_cons.mp hx with hx | hx
    · subst hx
      have : reconstruirCarta w revelar x = .error .excepcion := by
        unfold reconstruirCarta
        rw [hp]
      rw [this]
      rcases reconstruirTablero w revelar resto with (_ | _) | _ <;> rfl
    · rw [ih ⟨x, hx, hp⟩]
      split <;> first | rfl | simp_all

theorem descifrarXOR_eq_none (s : JSString) (h : esBase64 s = false) :
    descifrarXOR s = none := by
  unfold descifrarXOR
  rw [(atob_none_iff s).mpr h]

theorem mostrarClaveSecretaURL_guardado_estado (w w0 : Mundo) (token : JSString)
    (h25 : w.tableroLogico.length = 25)
    (hd : descifrarXOR token = some (stringify (obtenerEstadoParaGuardar w))) :
    mostrarClaveSecretaURL token w0
      = .retorna ()
          { w0 with
            tableroLogico := w.tableroLogico.map (fun card =>
              { id := card.id, word := PALABRAS_MAPA_get w0 card.id, type := card.type,
                revealed := true })
            numeroDeEquipos :=
              if w.tableroLogico.any (fun card => card.type = .VERDE) then 3 else 2
            paseTurnoAlFallar := w.paseTurnoAlFallar } := by
  have hc := canonico_obtenerEstadoParaGuardar w
  have hp := JSON_parse_stringify _ hc
  have hn := stringify_ne_nil _ hc
  have ht := reconstruirTablero_guardado w0 (fun _ => some true) (fun _ => true)
    (fun _ => rfl) w.tableroLogico
  unfold mostrarClaveSecretaURL
  simp only [hd, hn, if_false, hp, prop_tablero, prop_turnPassRule, esArrayDe, List.length_map,
    h25, beq_self_eq_true, Bool.not_true, Bool.false_eq_true, JSVal.elementos, ht,
    leerTurnPassRule, List.any_map]
  rfl

/-- A token the import rejects at one of its tests: not Base64, empty text, text that is
not JSON, no array of 25 entries under `tablero`, or a `null` entry in it. -/
theorem mostrarClaveSecretaURL_alerta (cadenaCifrada : JSString) (w : Mundo)
    (h : esBase64 cadenaCifrada = false ∨
      descifrarXOR cadenaCifrada = some [] ∨
      (∃ texto, descifrarXOR cadenaCifrada = some texto ∧ JSON_parse texto = none) ∨
      (∃ texto estadoPartida, descifrarXOR cadenaCifrada = some texto ∧
        JSON_parse texto = some estadoPartida ∧
        ∀ tablero, estadoPartida.prop (lit "tablero") = some tablero →
          esArrayDe 25 tablero = false ∨ ∃ item ∈ tablero.elementos, item = .null)) :
    ∃ mensaje, mostrarClaveSecretaURL cadenaCifrada w = .retorna () (alert mensaje w) := by
  unfold mostrarClaveSecretaURL
  dsimp only
  rcases h with h | h | ⟨texto, h1, h2⟩ | ⟨texto, estadoPartida, h1, h2, h3⟩
  · rw [descifrarXOR_eq_none _ h]
    exact ⟨_, rfl⟩
  · rw [h]
    exact ⟨_, rfl⟩
  · rw [h1]
    dsimp only
    split
    · exact ⟨_, rfl⟩
    · rw [h2]
      exact ⟨_, rfl⟩
  · rw [h1]
    dsimp only
    split
    · exact ⟨_, rfl⟩
    · rw [h2]
      dsimp only
      cases hp : estadoPartida.prop (lit "tablero") with
      | none => exact ⟨_, rfl⟩
      | some tablero =>
        dsimp only
        rcases h3 tablero hp with h4 | ⟨item, hi, hnull⟩
        · rw [h4]
          exact ⟨_, rfl⟩
        · split
          · exact ⟨_, rfl⟩
          · rw [reconstruirTablero_null w _ _ ⟨item, hi, by rw [hnull]; rfl⟩]
            exact ⟨_, rfl⟩

/-! ## The end of the game is read from the board -/

theorem startNewGame_lanza (azarPalabras azarTipos : Nat → Nat) (fechaActual : JSString)
    (startingTeam : TIPOS_CARTA) (numTeams : Nat) (rulePassOnMiss : Bool) (w : Mundo)
    (hreg : registroLegible w.palabrasUsadas = false) :
    startNewGame azarPalabras azarTipos fechaActual startingTeam numTeams rulePassOnMiss w
      = .lanza
        { w with
          juegoTerminado := false
          turnoActual := startingTeam
          numeroDeEquipos := numTeams
          paseTurnoAlFallar := rulePassOnMiss } := by
  have hnone := cargarIdsUsados_none
    { w with
      juegoTerminado := false
      turnoActual := startingTeam
      numeroDeEquipos := numTeams
      paseTurnoAlFallar := rulePassOnMiss } hreg
  unfold startNewGame
  simp only [hnone]

/-- A click whose reveal ends the game: the state it leaves. -/
theorem click_final (index : Nat) (w : Mundo) (cardData : Carta)
    (h0 : w.juegoTerminado = false) (h1 : w.tableroLogico.get? index = some cardData)
    (h2 : cardData.revealed = false)
    (hfin : finDerivado w.numeroDeEquipos (revelar w.tableroLogico index cardData) = true) :
    ∃ w2, handleCardClick index w = .retorna () w2 ∧ w2.juegoTerminado = true ∧
      w2.turnoActual = w.turnoActual ∧
      w2.indicadorTurno = .fin (some (mensajeFin w.numeroDeEquipos w.turnoActual
        (revelar w.tableroLogico index cardData))) := by
  obtain ⟨token, _, h, _⟩ := handleCardClick_eq_token index w cardData h0 h1 h2
  rw [if_neg (by simp [hfin])] at h
  refine ⟨_, h, ?_, rfl, ?_⟩
  · simp [recalculado, hfin]
  · simp [recalculado, hfin]

theorem finDerivado_false (n : Nat) (tablero : List Carta) (h : finDerivado n tablero = false) :
    asesinoRevelado tablero = false ∧ restantes .AZUL tablero ≠ 0 ∧
      restantes .ROJO tablero ≠ 0 ∧ (n = 3 → restantes .VERDE tablero ≠ 0) := by
  unfold finDerivado at h
  simp only [Bool.or_eq_false_iff, Bool.and_eq_false_iff, decide_eq_false_iff_not] at h
  refine ⟨h.1.1.1, h.1.1.2, h.1.2, ?_⟩
  intro hn
  rcases h.2 with h3 | h3
  · exact absurd hn h3
  · exact h3

theorem mensajeFin_asesino (n : Nat) (t : TIPOS_CARTA) (tablero : List Carta)
    (h : asesinoRevelado tablero = true) :
    mensajeFin n t tablero = mensajeAsesinado (equipoGanadorTexto n t) := by
  unfold mensajeFin mensajeAsesinado
  rw [if_pos h]

/-- The reveal of the last unrevealed card of an active team, on a board that was not in
a terminal condition, ends the game with the victory message of that team. -/
theorem click_ultima_carta (index : Nat) (w : Mundo) (cardData : Carta)
    (h0 : w.juegoTerminado = false)
    (hboard : finDerivado w.numeroDeEquipos w.tableroLogico = false)
    (h1 : w.tableroLogico.get? index = some cardData) (h2 : cardData.revealed = false)
    (hactivo : equipoActivo w.numeroDeEquipos cardData.type = true)
    (hultima : restantes cardData.type w.tableroLogico = 1) :
    ∃ w2, handleCardClick index w = .retorna () w2 ∧ w2.juegoTerminado = true ∧
      w2.turnoActual = w.turnoActual ∧
      w2.indicadorTurno = .fin (some (mensajeVictoria cardData.type)) := by
  obtain ⟨ha, hb, hr, hv⟩ := finDerivado_false _ _ hboard
  have hX : cardData.type ≠ .ASESINO := by
    intro hx
    rw [hx] at hactivo
    revert hactivo
    unfold equipoActivo
    simp
  have ha2 := asesinoRevelado_revelar_otro w.tableroLogico index cardData hX ha
  have hcero : restantes cardData.type (revelar w.tableroLogico index cardData) = 0 := by
    have := restantes_revelar cardData.type w.tableroLogico index cardData h1 h2
    rw [if_pos rfl, hultima] at this
    omega
  have hotros : ∀ t, t ≠ cardData.type →
      restantes t (revelar w.tableroLogico index cardData) = restantes t w.tableroLogico := by
    intro t ht
    have := restantes_revelar t w.tableroLogico index cardData h1 h2
    rw [if_neg (Ne.symm ht)] at this
    omega
  have hn : w.numeroDeEquipos = 2 ∨ w.numeroDeEquipos = 3 := by
    unfold equipoActivo at hactivo
    simp at hactivo
    omega
  have hfin : finDerivado w.numeroDeEquipos (revelar w.tableroLogico index cardData) = true := by
    unfold finDerivado
    cases ht : cardData.type
    · rw [ht] at hcero; simp [hcero]
    · rw [ht] at hcero; simp [hcero]
    · rw [ht] at hcero hactivo
      have h3 : w.numeroDeEquipos = 3 := by
        rcases hn with hn | hn
        · rw [hn] at hactivo
          exact absurd hactivo (by decide)
        · exact hn
      simp [hcero, h3]
    · rw [ht] at hactivo
      rcases hn with hn | hn <;> rw [hn] at hactivo <;> exact absurd hactivo (by decide)
    · exact absurd ht hX
  obtain ⟨w2, hw, hf, ht, hi⟩ := click_final index w cardData h0 h1 h2 hfin
  refine ⟨w2, hw, hf, ht, ?_⟩
  rw [hi]
  congr 2
  unfold mensajeFin
  rw [if_neg (by simp [ha2])]
  cases ht : cardData.type
  · rw [ht] at hcero hotros
    rw [if_neg (by rw [hotros .AZUL (by decide)]; exact hb), if_pos hcero]
    rfl
  · rw [ht] at hcero
    rw [if_pos hcero]
    rfl
  · rw [ht] at hcero hotros hactivo
    have h3 : w.numeroDeEquipos = 3 := by
      rcases hn with hn | hn
      · rw [hn] at hactivo
        exact absurd hactivo (by decide)
      · exact hn
    rw [if_neg (by rw [hotros .AZUL (by decide)]; exact hb),
      if_neg (by rw [hotros .ROJO (by decide)]; exact hr), if_pos ⟨h3, hcero⟩]
    rfl
  · rw [ht] at hactivo
    rcases hn with hn | hn <;> rw [hn] at hactivo <;> exact absurd hactivo (by decide)
  · exact absurd ht hX

theorem recalcularEstado_derivado (tablero : List Carta) (w w2 : Mundo)
    (h : recalcularEstado tablero w = .retorna () w2) (htab : tablero = w.tableroLogico) :
    w2.juegoTerminado = finDerivado w2.numeroDeEquipos w2.tableroLogico ∧
      w2.tableroLogico = w.tableroLogico ∧ w2.numeroDeEquipos = w.numeroDeEquipos ∧
      w2.turnoActual = w.turnoActual ∧
      (asesinoRevelado w.tableroLogico = true →
        w2.indicadorTurno
          = .fin (some (mensajeAsesinado (equipoGanadorTexto w.numeroDeEquipos w.turnoActual)))) := by
  obtain ⟨token, _, hr, _⟩ := recalcularEstado_eq w
  subst htab
  rw [hr] at h
  simp only [Resultado.retorna.injEq, true_and] at h
  subst h
  refine ⟨rfl, rfl, rfl, rfl, ?_⟩
  intro ha
  have hfin : finDerivado w.numeroDeEquipos w.tableroLogico = true := by
    unfold finDerivado
    simp [ha]
  simp [recalculado, hfin, mensajeFin_asesino _ _ _ ha]

theorem actualizarIndicadorTurno_campos (t : TIPOS_CARTA) (b : Bool) (m : Option String)
    (w : Mundo) :
    (actualizarIndicadorTurno t b m w).juegoTerminado = w.juegoTerminado ∧
      (actualizarIndicadorTurno t b m w).numeroDeEquipos = w.numeroDeEquipos ∧
      (actualizarIndicadorTurno t b m w).tableroLogico = w.tableroLogico := by
  unfold actualizarIndicadorTurno
  split_ifs <;> exact ⟨rfl, rfl, rfl⟩

/-- Whenever `initGame` loads a saved game, the finished flag it leaves is the one read
from the board it loaded. -/
theorem initGame_derivado (w w2 : Mundo) (h : initGame w = .retorna true w2) :
    w2.juegoTerminado = finDerivado w2.numeroDeEquipos w2.tableroLogico := by
  unfold initGame at h
  split at h
  · simp at h
  · split at h
    · split at h
      · cases h
      · cases h
      · split at h
        · dsimp only at h
          split at h
          · cases h
          · cases h
          · rename_i w3 hr
            simp only [Resultado.retorna.injEq, true_and] at h
            subst h
            have h1 := (recalcularEstado_derivado _ _ _ hr rfl).1
            obtain ⟨a1, a2, a3⟩ := actualizarIndicadorTurno_campos w3.turnoActual
              w3.juegoTerminado none w3
            rw [a1, a2, a3]
            exact h1
        · cases h
    · cases h

theorem restantes_map (t : TIPOS_CARTA) (f : Carta → Carta) (tablero : List Carta)
    (hf : ∀ c, (f c).type = c.type ∧ (f c).revealed = c.revealed) :
    restantes t (tablero.map f) = restantes t tablero := by
  unfold restantes
  rw [← List.countP_eq_length_filter, ← List.countP_eq_length_filter, List.countP_map]
  congr 1
  funext c
  simp [(hf c).1, (hf c).2]

theorem asesinoRevelado_map (f : Carta → Carta) (tablero : List Carta)
    (hf : ∀ c, (f c).type = c.type ∧ (f c).revealed = c.revealed) :
    asesinoRevelado (tablero.map f) = asesinoRevelado tablero := by
  unfold asesinoRevelado
  rw [List.any_map]
  congr 1
  funext c
  simp [(hf c).1, (hf c).2]

theorem finDerivado_map (n : Nat) (f : Carta → Carta) (tablero : List Carta)
    (hf : ∀ c, (f c).type = c.type ∧ (f c).revealed = c.revealed) :
    finDerivado n (tablero.map f) = finDerivado n tablero := by
  unfold finDerivado
  rw [asesinoRevelado_map f tablero hf, restantes_map _ f tablero hf,
    restantes_map _ f tablero hf, restantes_map _ f tablero hf]

/-- A snapshot saved from a state, whatever finished flag it holds: `initGame` loads it
and the finished flag is the one read from the board. -/
theorem initGame_guardado_derivado (w w0 : Mundo) (token : JSString)
    (h25 : w.tableroLogico.length = 25) (hnum : w.numeroDeEquipos ≠ 0) (hne : token ≠ [])
    (hd : descifrarXOR token = some (stringify (obtenerEstadoParaGuardar w)))
    (h0 : w0.estadoActual = some token) :
    ∃ w3, initGame w0 = .retorna true w3 ∧
      w3.juegoTerminado = finDerivado w.numeroDeEquipos w.tableroLogico := by
  obtain ⟨w3, h, hb, _, hn, _⟩ := initGame_guardado w w0 token h25 hnum hne hd h0
  refine ⟨w3, h, ?_⟩
  rw [initGame_derivado w0 w3 h, hb, hn]
  exact finDerivado_map _ _ _ (fun _ => ⟨rfl, rfl⟩)

/-! ## `shuffleArray` reaches every permutation once -/

theorem intercambiar_eq {α : Type} (l : List α) (i j : Nat) (hi : i < l.length)
    (hj : j < l.length) :
    intercambiar l i j = (l.set i (l.get ⟨j, hj⟩)).set j (l.get ⟨i, hi⟩) := by
  unfold intercambiar
  simp [List.get?_eq_getElem?, List.getElem?_eq_getElem hi, List.getElem?_eq_getElem hj]

theorem intercambiar_getElem? {α : Type} (l : List α) (i j k : Nat) (hi : i < l.length)
    (hj : j < l.length) :
    (intercambiar l i j)[k]? = if k = j then l[i]? else if k = i then l[j]? else l[k]? := by
  rw [intercambiar_eq l i j hi hj]
  simp only [List.get_eq_getElem, List.getElem?_set, List.length_set]
  by_cases h1 : k = j
  · subst h1
    simp [hj, hi]
  · by_cases h2 : k = i
    · subst h2
      simp [h1, Ne.symm h1, hi, hj]
    · simp [h1, h2, Ne.symm h1, Ne.symm h2]

theorem intercambiar_getElem?_izq {α : Type} (l : List α) (i j : Nat) (hi : i < l.length)
    (hj : j < l.length) : (intercambiar l i j)[i]? = l[j]? := by
  rw [intercambiar_getElem? l i j i hi hj]
  by_cases h : i = j
  · rw [if_pos h, h]
  · rw [if_neg h, if_pos rfl]

theorem intercambiar_length {α : Type} (l : List α) (i j : Nat) :
    (intercambiar l i j).length = l.length :=
  (intercambiar_perm l i j).length_eq

theorem bucle_length {α : Type} (azar : Nat → Nat) (i : Nat) (l : List α) :
    (shuffleArray.bucle azar i l).length = l.length :=
  (shuffleArray_bucle_perm azar i l).length_eq

/-- The loop from index `i` down leaves the entries above `i` where they are. -/
theorem bucle_getElem?_gt {α : Type} (azar : Nat → Nat) (i : Nat) (l : List α) (k : Nat)
    (hk : i < k) : (shuffleArray.bucle azar i l)[k]? = l[k]? := by
  induction i generalizing l with
  | zero => rfl
  | succ i ih =>
    unfold shuffleArray.bucle
    rw [ih _ (by omega)]
    by_cases hi : i + 1 < l.length
    · have hj : azar (i + 1) % (i + 2) < l.length := by
        have := Nat.mod_lt (azar (i + 1)) (show i + 2 > 0 by omega)
        omega
      rw [intercambiar_getElem? l _ _ k hi hj]
      have := Nat.mod_lt (azar (i + 1)) (show i + 2 > 0 by omega)
      rw [if_neg (by omega), if_neg (by omega)]
    · have : intercambiar l (i + 1) (azar (i + 1) % (i + 2)) = l := by
        unfold intercambiar
        rw [List.get?_eq_getElem?, List.getElem?_eq_none (by omega)]
      rw [this]

theorem bucle_congr {α : Type} (a1 a2 : Nat → Nat) (i : Nat) (l : List α)
    (h : ∀ k, 1 ≤ k → k ≤ i → a1 k = a2 k) :
    shuffleArray.bucle a1 i l = shuffleArray.bucle a2 i l := by
  induction i generalizing l with
  | zero => rfl
  | succ i ih =>
    unfold shuffleArray.bucle
    rw [h (i + 1) (by omega) (by omega)]
    exact ih _ (fun k h1 h2 => h k h1 (by omega))

/-- On distinct elements, two runs of the loop with the same result made the same draws. -/
theorem bucle_inyectiva {α : Type} (a1 a2 : Nat → Nat) (i : Nat) (l : List α)
    (hl : l.Nodup) (hi : i < l.length)
    (h : shuffleArray.bucle a1 i l = shuffleArray.bucle a2 i l) :
    ∀ k, 1 ≤ k → k ≤ i → a1 k % (k + 1) = a2 k % (k + 1) := by
  induction i generalizing l with
  | zero =>
    intro k h1 h2
    omega
  | succ i ih =>
    have hm1 := Nat.mod_lt (a1 (i + 1)) (show i + 2 > 0 by omega)
    have hm2 := Nat.mod_lt (a2 (i + 1)) (show i + 2 > 0 by omega)
    have hj1 : a1 (i + 1) % (i + 2) < l.length := by omega
    have hj2 : a2 (i + 1) % (i + 2) < l.length := by omega
    unfold shuffleArray.bucle at h
    have hk := congrArg (fun r => r[i + 1]?) h
    simp only at hk
    rw [bucle_getElem?_gt _ _ _ _ (by omega), bucle_getElem?_gt _ _ _ _ (by omega),
      intercambiar_getElem?_izq l _ _ hi hj1, intercambiar_getElem?_izq l _ _ hi hj2,
      List.getElem?_eq_getElem hj1, List.getElem?_eq_getElem hj2] at hk
    simp only [Option.some.injEq] at hk
    have hjj : a1 (i + 1) % (i + 2) = a2 (i + 1) % (i + 2) :=
      (List.Nodup.getElem_inj_iff hl).mp hk
    intro k h1 h2
    by_cases hke : k = i + 1
    · subst hke
      exact hjj
    · rw [hjj] at h
      exact ih _ ((intercambiar_perm l _ _).nodup_iff.mpr hl)
        (by rw [intercambiar_length]; omega) h k h1 (by omega)

theorem drop_eq_of_getElem? {α : Type} (p l : List α) (n : Nat)
    (hd : ∀ k, n ≤ k → p[k]? = l[k]?) : p.drop n = l.drop n := by
  apply List.ext_getElem?
  intro k
  rw [List.getElem?_drop, List.getElem?_drop]
  exact hd _ (by omega)

theorem perm_take_of_getElem? {α : Type} (p l : List α) (n : Nat) (hp : p.Perm l)
    (hd : ∀ k, n ≤ k → p[k]? = l[k]?) : (p.take n).Perm (l.take n) := by
  have h1 := drop_eq_of_getElem? p l n hd
  have h2 : (p.take n ++ l.drop n).Perm (l.take n ++ l.drop n) := by
    rw [← h1, List.take_append_drop, h1, List.take_append_drop]
    exact hp
  exact (List.perm_append_right_iff _).mp h2

/-- The loop from index `i` down reaches every arrangement of the entries that agrees
with the list above `i`. -/
theorem bucle_sobre {α : Type} (i : Nat) (l p : List α) (hp : p.Perm l) (hi : i < l.length)
    (hd : ∀ k, i < k → p[k]? = l[k]?) : ∃ azar, shuffleArray.bucle azar i l = p := by
  induction i generalizing l with
  | zero =>
    refine ⟨fun _ => 0, ?_⟩
    show l = p
    have h1 := drop_eq_of_getElem? p l 1 (fun k hk => hd k (by omega))
    have h2 := perm_take_of_getElem? p l 1 hp (fun k hk => hd k (by omega))
    have h3 : l.take 1 = [l.get ⟨0, hi⟩] := by
      cases l with
      | nil => simp at hi
      | cons a t => rfl
    rw [h3, List.perm_singleton] at h2
    rw [← List.take_append_drop 1 l, ← List.take_append_drop 1 p, h1, h2, h3]
  | succ i ih =>
    have hlen := hp.length_eq
    have hpi : i + 1 < p.length := by omega
    have hx : p.get ⟨i + 1, hpi⟩ ∈ l.take (i + 2) := by
      apply (perm_take_of_getElem? p l (i + 2) hp (fun k hk => hd k (by omega))).mem_iff.mp
      rw [List.mem_iff_getElem?]
      refine ⟨i + 1, ?_⟩
      rw [List.getElem?_take, if_pos (by omega), List.getElem?_eq_getElem hpi]
      rfl
    rw [List.mem_iff_getElem?] at hx
    obtain ⟨j, hj⟩ := hx
    rw [List.getElem?_take] at hj
    have hj2 : j < i + 2 := by
      by_contra hc
      rw [if_neg hc] at hj
      cases hj
    rw [if_pos hj2] at hj
    have hjl : j < l.length := by
      by_contra hc
      rw [List.getElem?_eq_none (by omega)] at hj
      cases hj
    obtain ⟨azar, ha⟩ := ih (intercambiar l (i + 1) j)
      (hp.trans (intercambiar_perm l (i + 1) j).symm)
      (by rw [intercambiar_length]; omega)
      (by
        intro k hk
        rw [intercambiar_getElem? l (i + 1) j k hi hjl]
        by_cases h1 : k = i + 1
        · subst h1
          rw [List.getElem?_eq_getElem hpi]
          by_cases h2 : i + 1 = j
          · rw [if_pos h2]
            rw [← h2] at hj
            rw [hj]
            rfl
          · rw [if_neg h2, if_pos rfl, hj]
            rfl
        · rw [if_neg (by omega), if_neg h1]
          exact hd k (by omega))
    refine ⟨fun k => if k = i + 1 then j else azar k, ?_⟩
    unfold shuffleArray.bucle
    simp only [if_true]
    rw [Nat.mod_eq_of_lt hj2, ← ha]
    apply bucle_congr
    intro k _ h2
    rw [if_neg (by omega)]

/-- Every permutation of a list is the result of `shuffleArray` for some draws. -/
theorem shuffleArray_sobre {α : Type} (l p : List α) (hp : p.Perm l) :
    ∃ azar, shuffleArray azar l = p := by
  unfold shuffleArray
  by_cases hl : l = []
  · subst hl
    rw [List.perm_nil] at hp
    subst hp
    exact ⟨fun _ => 0, rfl⟩
  · have hpos : 0 < l.length := List.length_pos.mpr hl
    apply bucle_sobre _ l p hp (by omega)
    intro k hk
    rw [List.getElem?_eq_none (by rw [hp.length_eq]; omega), List.getElem?_eq_none (by omega)]

theorem shuffleArray_inyectiva {α : Type} (a1 a2 : Nat → Nat) (l : List α) (hl : l.Nodup)
    (h : shuffleArray a1 l = shuffleArray a2 l) :
    ∀ i, 1 ≤ i → i < l.length → a1 i % (i + 1) = a2 i % (i + 1) := by
  intro i h1 h2
  unfold shuffleArray at h
  exact bucle_inyectiva a1 a2 (l.length - 1) l hl (by omega) h i h1 (by omega)

/-! ## The import of a leader token, read from the token -/

theorem prop_isSome_of_prop (item : JSVal) (k k2 : JSString) (x : JSVal)
    (h : item.prop k = some x) : ∃ y, item.prop k2 = some y := by
  cases item <;> simp [JSVal.prop] at h ⊢

theorem reconstruirCarta_importada (w : Mundo) (item : JSVal) (c : Carta)
    (h : reconstruirCarta w (fun _ => some true) item = .ok c) : cartaImportada w item c := by
  unfold reconstruirCarta at h
  cases hid : item.prop (lit "id") with
  | none => simp [hid] at h
  | some id =>
    cases htipo : item.prop (lit "type") with
    | none => simp [hid, htipo] at h
    | some tipo =>
      cases hr : item.prop (lit "r") with
      | none => simp [hid, htipo, hr] at h
      | some r =>
        simp only [hid, htipo, hr] at h
        cases id <;> try (simp at h)
        cases tipo <;> try (simp at h)
        rename_i n codigo
        cases hm : MAPEO_INVERSO codigo with
        | none => simp [hm] at h
        | some type =>
          simp only [hm, Except.ok.injEq] at h
          subst h
          exact ⟨n, codigo, hid, htipo, hm, rfl, rfl, rfl⟩

theorem reconstruirCarta_de_importada (w : Mundo) (item : JSVal) (c : Carta)
    (h : cartaImportada w item c) : reconstruirCarta w (fun _ => some true) item = .ok c := by
  obtain ⟨n, codigo, hid, htipo, hm, h1, h2, h3⟩ := h
  obtain ⟨r, hr⟩ := prop_isSome_of_prop item (lit "id") (lit "r") _ hid
  unfold reconstruirCarta
  simp only [hid, htipo, hr, hm]
  cases c
  simp only at h1 h2 h3
  subst h1 h2 h3
  rfl

theorem reconstruirTablero_importado (w : Mundo) (items : List JSVal) (cartas : List Carta) :
    reconstruirTablero w (fun _ => some true) items = .ok cartas
      ↔ List.Forall₂ (cartaImportada w) items cartas := by
  induction items generalizing cartas with
  | nil =>
    simp only [reconstruirTablero, Except.ok.injEq, List.forall₂_nil_left_iff]
    exact eq_comm
  | cons item resto ih =>
    constructor
    · intro h
      unfold reconstruirTablero at h
      rcases hc : reconstruirCarta w (fun _ => some true) item with (_ | _) | c <;>
        rcases hr : reconstruirTablero w (fun _ => some true) resto with (_ | _) | cs <;>
        rw [hc, hr] at h <;> simp only [Except.ok.injEq] at h <;> try (cases h)
      exact List.Forall₂.cons (reconstruirCarta_importada w item c hc) ((ih cs).mp hr)
    · intro h
      cases h with
      | cons hc hcs =>
        unfold reconstruirTablero
        rw [reconstruirCarta_de_importada w item _ hc, (ih _).mpr hcs]

theorem reconstruirCarta_no_null (w : Mundo) (revelar : JSVal → Option Bool) (item : JSVal)
    (h : reconstruirCarta w revelar item ≠ .error .excepcion) :
    item.prop (lit "id") ≠ none := by
  intro hn
  apply h
  unfold reconstruirCarta
  rw [hn]

theorem reconstruirTablero_no_null (w : Mundo) (revelar : JSVal → Option Bool)
    (items : List JSVal) (h : reconstruirTablero w revelar items ≠ .error .excepcion) :
    ∀ item ∈ items, item.prop (lit "id") ≠ none := by
  intro item hi
  intro hn
  exact h (reconstruirTablero_null w revelar items ⟨item, hi, hn⟩)

/-- The stored board falls outside the typed state: no entry is `null`, and one of them
has an `id` that is not an integer or a `type` that is not the code of a card type. -/
theorem reconstruirTablero_noTipado (w : Mundo) (items : List JSVal)
    (h : reconstruirTablero w (fun _ => some true) items = .error .noTipado) :
    (∀ item ∈ items, item.prop (lit "id") ≠ none) ∧
      ∃ item ∈ items, ∀ c, ¬ cartaImportada w item c := by
  refine ⟨reconstruirTablero_no_null w _ items (by rw [h]; simp), ?_⟩
  induction items with
  | nil => simp [reconstruirTablero] at h
  | cons item resto ih =>
    unfold reconstruirTablero at h
    rcases hc : reconstruirCarta w (fun _ => some true) item with (_ | _) | c
    · rw [hc] at h
      rcases hr : reconstruirTablero w (fun _ => some true) resto with (_ | _) | cs <;>
        rw [hr] at h <;> cases h
    · refine ⟨item, List.mem_cons_self _ _, ?_⟩
      intro c hcc
      rw [reconstruirCarta_de_importada w item c hcc] at hc
      cases hc
    · rw [hc] at h
      rcases hr : reconstruirTablero w (fun _ => some true) resto with (_ | _) | cs
      · rw [hr] at h; cases h
      · obtain ⟨i, hi, hci⟩ := ih hr
        exact ⟨i, List.mem_cons_of_mem _ hi, hci⟩
      · rw [hr] at h; cases h

theorem leerTurnPassRule_importada (estadoPartida v : JSVal) (regla : Bool)
    (hv : estadoPartida.prop (lit "turnPassRule") = some v) :
    leerTurnPassRule v = some regla ↔ reglaImportada estadoPartida regla := by
  unfold reglaImportada leerTurnPassRule
  rw [hv]
  cases v <;> simp [eq_comm]

theorem esArrayDe_arr (n : Nat) (v : JSVal) (h : esArrayDe n v = true) :
    ∃ items, v = .arr items ∧ items.length = n := by
  cases v <;> simp [esArrayDe] at h
  exact ⟨_, rfl, h⟩

/-- The outcomes of `mostrarClaveSecretaURL`, read from the token: it is rejected with an
alert; or it decodes to a value whose `tablero` has 25 entries, none `null`, and then
either every entry gives a card and the rule is read, and the board, the team count and
the rule are replaced by those of the token, or an entry or the rule falls outside the
typed state. -/
theorem mostrarClaveSecretaURL_completo (cadenaCifrada : JSString) (w : Mundo)
    (R : Resultado Unit) (hR : mostrarClaveSecretaURL cadenaCifrada w = R) :
    (∃ mensaje, R = .retorna () (alert mensaje w)) ∨
    ∃ texto estadoPartida items,
      descifrarXOR cadenaCifrada = some texto ∧ texto ≠ [] ∧
      JSON_parse texto = some estadoPartida ∧
      estadoPartida.prop (lit "tablero") = some (.arr items) ∧ items.length = 25 ∧
      (∀ item ∈ items, item.prop (lit "id") ≠ none) ∧
      ((∃ cartas regla, List.Forall₂ (cartaImportada w) items cartas ∧
          reglaImportada estadoPartida regla ∧
          R = .retorna ()
            { w with
              tableroLogico := cartas
              numeroDeEquipos := if cartas.any (fun card => card.type = .VERDE) then 3 else 2
              paseTurnoAlFallar := regla }) ∨
        (R = .noTipado ∧
          ((∃ item ∈ items, ∀ c, ¬ cartaImportada w item c) ∨
            ∀ regla, ¬ reglaImportada estadoPartida regla))) := by
  unfold mostrarClaveSecretaURL at hR
  dsimp only at hR
  cases hd : descifrarXOR cadenaCifrada with
  | none =>
    rw [hd] at hR
    exact Or.inl ⟨_, hR.symm⟩
  | some texto =>
    rw [hd] at hR
    dsimp only at hR
    by_cases hn : texto = []
    · rw [if_pos hn] at hR
      exact Or.inl ⟨_, hR.symm⟩
    · rw [if_neg hn] at hR
      cases hp : JSON_parse texto with
      | none =>
        rw [hp] at hR
        exact Or.inl ⟨_, hR.symm⟩
      | some estadoPartida =>
        rw [hp] at hR
        dsimp only at hR
        cases ht : estadoPartida.prop (lit "tablero") with
        | none =>
          rw [ht] at hR
          exact Or.inl ⟨_, hR.symm⟩
        | some tablero =>
          rw [ht] at hR
          dsimp only at hR
          by_cases h25 : esArrayDe 25 tablero = true
          · obtain ⟨items, rfl, hlen⟩ := esArrayDe_arr 25 tablero h25
            rw [h25] at hR
            simp only [Bool.not_true, Bool.false_eq_true, if_false, JSVal.elementos] at hR
            rcases hr : reconstruirTablero w (fun _ => some true) items with (_ | _) | cartas
            · rw [hr] at hR
              exact Or.inl ⟨_, hR.symm⟩
            · rw [hr] at hR
              have hnt := reconstruirTablero_noTipado w items hr
              exact Or.inr ⟨texto, estadoPartida, items, rfl, hn, hp, ht, hlen, hnt.1,
                Or.inr ⟨hR.symm, Or.inl hnt.2⟩⟩
            · rw [hr] at hR
              dsimp only at hR
              have hnn := reconstruirTablero_no_null w (fun _ => some true) items
                (by rw [hr]; simp)
              cases hv : estadoPartida.prop (lit "turnPassRule") with
              | none =>
                rw [hv] at hR
                exact Or.inl ⟨_, hR.symm⟩
              | some v =>
                rw [hv] at hR
                dsimp only at hR
                cases hl : leerTurnPassRule v with
                | none =>
                  rw [hl] at hR
                  refine Or.inr ⟨texto, estadoPartida, items, rfl, hn, hp, ht, hlen, hnn,
                    Or.inr ⟨hR.symm, Or.inr ?_⟩⟩
                  intro regla hreg
                  rw [(leerTurnPassRule_importada estadoPartida v regla hv).mpr hreg] at hl
                  cases hl
                | some regla =>
                  rw [hl] at hR
                  exact Or.inr ⟨texto, estadoPartida, items, rfl, hn, hp, ht, hlen, hnn,
                    Or.inl ⟨cartas, regla, (reconstruirTablero_importado w items cartas).mp hr,
                      (leerTurnPassRule_importada estadoPartida v regla hv).mp hl, hR.symm⟩⟩
          · have h25f : esArrayDe 25 tablero = false := by simpa using h25
            rw [h25f] at hR
            exact Or.inl ⟨_, hR.symm⟩

/-- A token whose 25 entries give cards and whose rule is read is accepted: the board,
the team count and the rule are replaced by those of the token. -/
theorem mostrarClaveSecretaURL_acepta (cadenaCifrada : JSString) (w : Mundo)
    (texto : JSString) (estadoPartida : JSVal) (items : List JSVal) (cartas : List Carta)
    (regla : Bool)
    (hd : descifrarXOR cadenaCifrada = some texto) (hn : texto ≠ [])
    (hp : JSON_parse texto = some estadoPartida)
    (ht : estadoPartida.prop (lit "tablero") = some (.arr items)) (hlen : items.length = 25)
    (hc : List.Forall₂ (cartaImportada w) items cartas)
    (hr : reglaImportada estadoPartida regla) :
    mostrarClaveSecretaURL cadenaCifrada w
      = .retorna ()
          { w with
            tableroLogico := cartas
            numeroDeEquipos := if cartas.any (fun card => card.type = .VERDE) then 3 else 2
            paseTurnoAlFallar := regla } := by
  have hv : ∃ v, estadoPartida.prop (lit "turnPassRule") = some v := by
    rcases hr with ⟨h, _⟩ | h <;> exact ⟨_, h⟩
  obtain ⟨v, hv⟩ := hv
  have hl := (leerTurnPassRule_importada estadoPartida v regla hv).mpr hr
  have hrt := (reconstruirTablero_importado w items cartas).mpr hc
  unfold mostrarClaveSecretaURL
  simp only [hd, hn, if_false, hp, ht, esArrayDe, hlen, beq_self_eq_true, Bool.not_true,
    Bool.false_eq_true, JSVal.elementos, hrt, hv, hl]

/-- The entries of a saved snapshot give the cards of the saved board, all revealed. -/
theorem cartaImportada_guardada (w w0 : Mundo) :
    List.Forall₂ (cartaImportada w0)
      (w.tableroLogico.map (fun card =>
        JSVal.obj [ (lit "id", .num card.id), (lit "type", .str (MAPEO_CODIGO card.type)),
          (lit "r", .bool card.revealed) ]))
      (w.tableroLogico.map (fun card =>
        { id := card.id, word := PALABRAS_MAPA_get w0 card.id, type := card.type,
          revealed := true })) := by
  induction w.tableroLogico with
  | nil => exact List.Forall₂.nil
  | cons card resto ih =>
    refine List.Forall₂.cons ⟨card.id, MAPEO_CODIGO card.type, ?_, ?_,
      MAPEO_INVERSO_MAPEO_CODIGO card.type, rfl, rfl, rfl⟩ ih
    · simp [JSVal.prop, List.lookup]
    · simp [JSVal.prop, List.lookup, lit_id, lit_type]
/-! ## The claims -/

/-- C1: for 2 or 3 teams, a starting team that is active for that count, a dictionary of
at least 25 entries, a readable used-word record and every outcome of the two shuffles,
`startNewGame` returns with a board of exactly 25 cards, all unrevealed, one of them the
Assassin; with 2 teams 9 cards of the starting team, 8 of the other team and 7 Neutral;
with 3 teams 8 Blue, 8 Red, 8 Green and no Neutral. -/
theorem startNewGame_tablero (azarPalabras azarTipos : Nat → Nat) (fechaActual : JSString)
    (startingTeam : TIPOS_CARTA) (numTeams : Nat) (rulePassOnMiss : Bool) (w : Mundo)
    (hequipos : numTeams = 2 ∨ numTeams = 3)
    (hactivo : startingTeam = .AZUL ∨ startingTeam = .ROJO ∨
      (numTeams = 3 ∧ startingTeam = .VERDE))
    (hdicc : 25 ≤ w.PALABRAS_SECRETAS.length)
    (hreg : registroLegible w.palabrasUsadas = true) :
    ∃ w2,
      startNewGame azarPalabras azarTipos fechaActual startingTeam numTeams rulePassOnMiss w
        = .retorna () w2 ∧
      w2.tableroLogico.length = 25 ∧
      (∀ c ∈ w2.tableroLogico, c.revealed = false) ∧
      cuenta .ASESINO w2.tableroLogico = 1 ∧
      (numTeams = 2 →
        cuenta startingTeam w2.tableroLogico = 9 ∧
        cuenta (if startingTeam = .AZUL then .ROJO else .AZUL) w2.tableroLogico = 8 ∧
        cuenta .NEUTRAL w2.tableroLogico = 7) ∧
      (numTeams = 3 →
        cuenta .AZUL w2.tableroLogico = 8 ∧ cuenta .ROJO w2.tableroLogico = 8 ∧
        cuenta .VERDE w2.tableroLogico = 8 ∧ cuenta .NEUTRAL w2.tableroLogico = 0) := by
  obtain ⟨w2, h, ht, _⟩ := startNewGame_aux azarPalabras azarTipos fechaActual startingTeam
    numTeams rulePassOnMiss w hreg
  refine ⟨w2, h, ?_, ?_, ?_, ?_, ?_⟩
  · rw [ht]; exact tableroNuevo_length _ _ _ _ _ hdicc
  · rw [ht]; exact tableroNuevo_ocultas _ _ _ _ _
  · rw [ht, cuenta_tableroNuevo _ _ _ _ _ _ hdicc]
    rcases hequipos with rfl | rfl <;> rcases hactivo with rfl | rfl | ⟨h3, rfl⟩ <;> decide
  · intro h2
    subst h2
    rw [ht, cuenta_tableroNuevo _ _ _ _ _ _ hdicc, cuenta_tableroNuevo _ _ _ _ _ _ hdicc,
      cuenta_tableroNuevo _ _ _ _ _ _ hdicc]
    rcases hactivo with rfl | rfl | ⟨h3, _⟩
    · decide
    · decide
    · omega
  · intro h3
    subst h3
    rw [ht, cuenta_tableroNuevo _ _ _ _ _ _ hdicc, cuenta_tableroNuevo _ _ _ _ _ _ hdicc,
      cuenta_tableroNuevo _ _ _ _ _ _ hdicc, cuenta_tableroNuevo _ _ _ _ _ _ hdicc]
    rcases hactivo with rfl | rfl | ⟨_, rfl⟩ <;> decide


theorem startNewGame_tablero_witness :
    25 ≤ (Mundo.inicial diccionarioEjemplo none (some usadasEjemplo)).PALABRAS_SECRETAS.length ∧
    registroLegible (Mundo.inicial diccionarioEjemplo none (some usadasEjemplo)).palabrasUsadas
      = true ∧
    ∃ w2,
      startNewGame (fun _ => 0) (fun i => i) (lit "2024-06-01") .ROJO 2 true
          (Mundo.inicial diccionarioEjemplo none (some usadasEjemplo))
        = .retorna () w2 ∧
      w2.tableroLogico.length = 25 ∧
      (∀ c ∈ w2.tableroLogico, c.revealed = false) ∧
      cuenta .ASESINO w2.tableroLogico = 1 ∧
      cuenta .ROJO w2.tableroLogico = 9 ∧ cuenta .AZUL w2.tableroLogico = 8 ∧
      cuenta .NEUTRAL w2.tableroLogico = 7 := by
  obtain ⟨w2, h1, h2, h3, h4, h5, _⟩ :=
    startNewGame_tablero (fun _ => 0) (fun i => i) (lit "2024-06-01") .ROJO 2 true
      (Mundo.inicial diccionarioEjemplo none (some usadasEjemplo))
      (Or.inl rfl) (Or.inr (Or.inl rfl)) (by decide) registroLegible_usadasEjemplo
  exact ⟨by decide, registroLegible_usadasEjemplo, w2, h1, h2, h3, h4, h5 rfl⟩

/-- C2: for every string whose code units are all at most 255, `cifrarXOR` succeeds and
`descifrarXOR` gives the string back from the token. -/
theorem cifrarXOR_descifrarXOR (s : JSString) (h : ∀ c ∈ s, c ≤ 255) :
    ∃ t, cifrarXOR s = some t ∧ descifrarXOR t = some s :=
  descifrar_tras_cifrar s h

theorem cifrarXOR_descifrarXOR_witness :
    (∀ c ∈ lit "[1,\"a\"]", c ≤ 255) ∧
      ∃ t, cifrarXOR (lit "[1,\"a\"]") = some t ∧ descifrarXOR t = some (lit "[1,\"a\"]") :=
  ⟨by decide, cifrarXOR_descifrarXOR (lit "[1,\"a\"]") (by decide)⟩

/-- C3: for a state whose board has 25 cards and whose team count is 2 or 3, saving
(`obtenerEstadoParaGuardar` then `guardarEstadoPartida`) returns, and `initGame` run on
any state whose snapshot entry is the stored one returns `true` with a board that has
the same id, type and revealed flag at every position in the same order, and with the
same turn, team count and `paseTurnoAlFallar` rule, whether that rule is true or false. -/
theorem guardar_initGame (w : Mundo) (h25 : w.tableroLogico.length = 25)
    (hequipos : w.numeroDeEquipos = 2 ∨ w.numeroDeEquipos = 3) :
    ∃ w1, guardarEstadoPartida (obtenerEstadoParaGuardar w) w = .retorna () w1 ∧
      ∀ w0 : Mundo, w0.estadoActual = w1.estadoActual →
        ∃ w3, initGame w0 = .retorna true w3 ∧
          w3.tableroLogico.map (fun c => (c.id, c.type, c.revealed))
            = w.tableroLogico.map (fun c => (c.id, c.type, c.revealed)) ∧
          w3.turnoActual = w.turnoActual ∧ w3.numeroDeEquipos = w.numeroDeEquipos ∧
          w3.paseTurnoAlFallar = w.paseTurnoAlFallar := by
  obtain ⟨token, hne, hg, hd⟩ := guardarEstadoPartida_canonico (obtenerEstadoParaGuardar w) w
    (canonico_obtenerEstadoParaGuardar w)
  refine ⟨_, hg, ?_⟩
  intro w0 h0
  obtain ⟨w3, h1, h2, h3, h4, h5⟩ :=
    initGame_guardado w w0 token h25 (by omega) hne hd h0
  refine ⟨w3, h1, ?_, h3, h4, h5⟩
  rw [h2, List.map_map]
  rfl

theorem guardar_initGame_witness :
    (mundoEjemplo 3 .VERDE false).tableroLogico.length = 25 ∧
    ((mundoEjemplo 3 .VERDE false).numeroDeEquipos = 2 ∨
      (mundoEjemplo 3 .VERDE false).numeroDeEquipos = 3) ∧
    ∃ w1, guardarEstadoPartida (obtenerEstadoParaGuardar (mundoEjemplo 3 .VERDE false))
        (mundoEjemplo 3 .VERDE false) = .retorna () w1 ∧
      ∀ w0 : Mundo, w0.estadoActual = w1.estadoActual →
        ∃ w3, initGame w0 = .retorna true w3 ∧
          w3.tableroLogico.map (fun c => (c.id, c.type, c.revealed))
            = (mundoEjemplo 3 .VERDE false).tableroLogico.map
                (fun c => (c.id, c.type, c.revealed)) ∧
          w3.turnoActual = .VERDE ∧ w3.numeroDeEquipos = 3 ∧
          w3.paseTurnoAlFallar = false :=
  ⟨by decide, Or.inr rfl,
    guardar_initGame (mundoEjemplo 3 .VERDE false) (by decide) (Or.inr rfl)⟩

/-- C4: for a state with a 25-card board, whatever cards are revealed, saving returns and
stores a token, and `mostrarClaveSecretaURL` on that token, from any state, returns with
a board of 25 cards, all revealed, that has the same id and the same type at every
position, hence the same number of cards of each type. -/
theorem guardar_mostrarClaveSecretaURL (w : Mundo) (h25 : w.tableroLogico.length = 25) :
    ∃ w1 token, guardarEstadoPartida (obtenerEstadoParaGuardar w) w = .retorna () w1 ∧
      w1.estadoActual = some token ∧
      ∀ w0 : Mundo,
        ∃ w3, mostrarClaveSecretaURL token w0 = .retorna () w3 ∧
          w3.tableroLogico.length = 25 ∧
          (∀ c ∈ w3.tableroLogico, c.revealed = true) ∧
          w3.tableroLogico.map (fun c => (c.id, c.type))
            = w.tableroLogico.map (fun c => (c.id, c.type)) ∧
          ∀ t, cuenta t w3.tableroLogico = cuenta t w.tableroLogico := by
  obtain ⟨token, _, hg, hd⟩ := guardarEstadoPartida_canonico (obtenerEstadoParaGuardar w) w
    (canonico_obtenerEstadoParaGuardar w)
  refine ⟨_, token, hg, rfl, ?_⟩
  intro w0
  obtain ⟨w3, h1, h2⟩ := mostrarClaveSecretaURL_guardado w w0 token h25 hd
  refine ⟨w3, h1, ?_, ?_, ?_, ?_⟩
  · rw [h2, List.length_map, h25]
  · intro c hc
    rw [h2, List.mem_map] at hc
    obtain ⟨d, _, rfl⟩ := hc
    rfl
  · rw [h2, List.map_map]
    rfl
  · intro t
    rw [h2]
    unfold cuenta
    rw [List.countP_map]
    rfl

theorem guardar_mostrarClaveSecretaURL_witness :
    (mundoEjemplo 2 .AZUL true).tableroLogico.length = 25 ∧
    ∃ w1 token,
      guardarEstadoPartida (obtenerEstadoParaGuardar (mundoEjemplo 2 .AZUL true))
        (mundoEjemplo 2 .AZUL true) = .retorna () w1 ∧
      w1.estadoActual = some token ∧
      ∀ w0 : Mundo,
        ∃ w3, mostrarClaveSecretaURL token w0 = .retorna () w3 ∧
          w3.tableroLogico.length = 25 ∧
          (∀ c ∈ w3.tableroLogico, c.revealed = true) ∧
          w3.tableroLogico.map (fun c => (c.id, c.type))
            = (mundoEjemplo 2 .AZUL true).tableroLogico.map (fun c => (c.id, c.type)) ∧
          ∀ t, cuenta t w3.tableroLogico = cuenta t (mundoEjemplo 2 .AZUL true).tableroLogico :=
  ⟨by decide, guardar_mostrarClaveSecretaURL (mundoEjemplo 2 .AZUL true) (by decide)⟩

/-- C5: in a game that is not finished, a click on the unrevealed Assassin card returns,
sets `juegoTerminado`, keeps the turn, and the end message names as winners: with 2 teams
the team other than the one whose turn it was, with 3 teams the two other teams. -/
theorem handleCardClick_asesino (index : Nat) (w : Mundo) (cardData : Carta)
    (hcurso : w.juegoTerminado = false)
    (hcarta : w.tableroLogico.get? index = some cardData)
    (hoculta : cardData.revealed = false) (hasesino : cardData.type = .ASESINO) :
    ∃ w2, handleCardClick index w = .retorna () w2 ∧
      w2.juegoTerminado = true ∧ w2.turnoActual = w.turnoActual ∧
      (w.numeroDeEquipos = 2 → w.turnoActual = .AZUL →
        w2.indicadorTurno = .fin (some (mensajeAsesinado "Rojo 🔴"))) ∧
      (w.numeroDeEquipos = 2 → w.turnoActual = .ROJO →
        w2.indicadorTurno = .fin (some (mensajeAsesinado "Azul 🔵"))) ∧
      (w.numeroDeEquipos = 3 → w.turnoActual = .AZUL →
        w2.indicadorTurno = .fin (some (mensajeAsesinado "Los equipos restantes: 🔴 y 🟢"))) ∧
      (w.numeroDeEquipos = 3 → w.turnoActual = .ROJO →
        w2.indicadorTurno = .fin (some (mensajeAsesinado "Los equipos restantes: 🔵 y 🟢"))) ∧
      (w.numeroDeEquipos = 3 → w.turnoActual = .VERDE →
        w2.indicadorTurno = .fin (some (mensajeAsesinado "Los equipos restantes: 🔵 y 🔴"))) := by
  obtain ⟨w2, h1, h2, h3, h4⟩ :=
    click_asesino index w cardData hcurso hcarta hoculta hasesino
  refine ⟨w2, h1, h2, h3, ?_, ?_, ?_, ?_, ?_⟩ <;>
  · intro hn ht
    rw [h4, hn, ht]
    rfl

theorem handleCardClick_asesino_witness :
    (mundoEjemplo 3 .ROJO true).juegoTerminado = false ∧
    (mundoEjemplo 3 .ROJO true).tableroLogico.get? 24
      = some { id := 24, word := none, type := .ASESINO, revealed := false } ∧
    ∃ w2, handleCardClick 24 (mundoEjemplo 3 .ROJO true) = .retorna () w2 ∧
      w2.juegoTerminado = true ∧ w2.turnoActual = .ROJO ∧
      w2.indicadorTurno = .fin (some (mensajeAsesinado "Los equipos restantes: 🔵 y 🟢")) := by
  obtain ⟨w2, h1, h2, h3, _, _, _, h4, _⟩ :=
    handleCardClick_asesino 24 (mundoEjemplo 3 .ROJO true)
      { id := 24, word := none, type := .ASESINO, revealed := false } rfl (by decide) rfl rfl
  exact ⟨rfl, by decide, w2, h1, h2, h3, h4 rfl rfl⟩

/-- C6: in a 2-team game that is not finished and in which no Assassin is revealed, under
the rule `paseTurnoAlFallar = true`, a click on an unrevealed card whose type is neither
the current team nor the Assassin, and after which Blue and Red both keep an unrevealed
card, returns with the game unfinished and the turn moved once: Blue to Red, Red to Blue. -/
theorem handleCardClick_fallo_pasa_turno (index : Nat) (w : Mundo) (cardData : Carta)
    (hcurso : w.juegoTerminado = false)
    (hsinAsesino : asesinoRevelado w.tableroLogico = false)
    (hequipos : w.numeroDeEquipos = 2) (hregla : w.paseTurnoAlFallar = true)
    (hcarta : w.tableroLogico.get? index = some cardData)
    (hoculta : cardData.revealed = false)
    (hfallo : cardData.type ≠ w.turnoActual) (hno : cardData.type ≠ .ASESINO)
    (hazul : restantes .AZUL (revelar w.tableroLogico index cardData) ≠ 0)
    (hrojo : restantes .ROJO (revelar w.tableroLogico index cardData) ≠ 0) :
    ∃ w2, handleCardClick index w = .retorna () w2 ∧ w2.juegoTerminado = false ∧
      (w.turnoActual = .AZUL → w2.turnoActual = .ROJO) ∧
      (w.turnoActual = .ROJO → w2.turnoActual = .AZUL) := by
  have hsigue : finDerivado w.numeroDeEquipos (revelar w.tableroLogico index cardData)
      = false := by
    simp [finDerivado, asesinoRevelado_revelar_otro _ index _ hno hsinAsesino, hazul, hrojo,
      hequipos]
  obtain ⟨w2, h1, h2, h3, _⟩ :=
    click_fallo_con_pase index w cardData hcurso hcarta hoculta hregla hfallo hno hsigue
  refine ⟨w2, h1, h2, ?_, ?_⟩
  · intro ht
    rw [h3, hequipos, ht]
    rfl
  · intro ht
    rw [h3, hequipos, ht]
    rfl

theorem handleCardClick_fallo_pasa_turno_witness :
    (mundoEjemplo 2 .AZUL true).tableroLogico.get? 9
      = some { id := 9, word := none, type := .ROJO, revealed := false } ∧
    restantes .AZUL (revelar (mundoEjemplo 2 .AZUL true).tableroLogico 9
      { id := 9, word := none, type := .ROJO, revealed := false }) ≠ 0 ∧
    restantes .ROJO (revelar (mundoEjemplo 2 .AZUL true).tableroLogico 9
      { id := 9, word := none, type := .ROJO, revealed := false }) ≠ 0 ∧
    ∃ w2, handleCardClick 9 (mundoEjemplo 2 .AZUL true) = .retorna () w2 ∧
      w2.juegoTerminado = false ∧ w2.turnoActual = .ROJO := by
  obtain ⟨w2, h1, h2, h3, _⟩ :=
    handleCardClick_fallo_pasa_turno 9 (mundoEjemplo 2 .AZUL true)
      { id := 9, word := none, type := .ROJO, revealed := false }
      rfl (by decide) rfl rfl (by decide) rfl (by decide) (by decide) (by decide) (by decide)
  exact ⟨by decide, by decide, by decide, w2, h1, h2, h3 rfl⟩

/-- C7: in a game that is not finished, under the rule `paseTurnoAlFallar = false`, a click
on an unrevealed card returns, reveals the card and leaves the turn as it was. This holds
for every number of teams and every card, so in particular for the miss of a 2-team game
that is neither the Assassin nor game-ending. -/
theorem handleCardClick_fallo_conserva_turno (index : Nat) (w : Mundo) (cardData : Carta)
    (hcurso : w.juegoTerminado = false) (hregla : w.paseTurnoAlFallar = false)
    (hcarta : w.tableroLogico.get? index = some cardData)
    (hoculta : cardData.revealed = false) :
    ∃ w2, handleCardClick index w = .retorna () w2 ∧ w2.turnoActual = w.turnoActual ∧
      w2.tableroLogico = revelar w.tableroLogico index cardData := by
  obtain ⟨w2, h1, _, h3, h4, _⟩ :=
    click_sin_pase index w cardData hcurso hcarta hoculta (Or.inr hregla)
  exact ⟨w2, h1, h3, h4⟩

theorem handleCardClick_fallo_conserva_turno_witness :
    (mundoEjemplo 2 .AZUL false).tableroLogico.get? 9
      = some { id := 9, word := none, type := .ROJO, revealed := false } ∧
    ∃ w2, handleCardClick 9 (mundoEjemplo 2 .AZUL false) = .retorna () w2 ∧
      w2.turnoActual = .AZUL ∧
      w2.tableroLogico = revelar (mundoEjemplo 2 .AZUL false).tableroLogico 9
        { id := 9, word := none, type := .ROJO, revealed := false } := by
  obtain ⟨w2, h1, h2, h3⟩ :=
    handleCardClick_fallo_conserva_turno 9 (mundoEjemplo 2 .AZUL false)
      { id := 9, word := none, type := .ROJO, revealed := false }
      rfl rfl (by decide) rfl
  exact ⟨by decide, w2, h1, h2, h3⟩

/-- C8: for a dictionary of at least 25 entries, a readable used-word record and every
outcome of the shuffles, `startNewGame` for 2 teams with Blue starting returns with a
board that has 9 Blue cards, and for every order `orden` of 9 distinct positions of Blue
cards, revealed one after another with `handleCardClick`: after each of the first 8
reveals the game is not finished and the turn is Blue, and after the 9th the game is
finished and the end message is the victory of Blue. -/
theorem startNewGame_revelar_azules (azarPalabras azarTipos : Nat → Nat)
    (fechaActual : JSString) (rulePassOnMiss : Bool) (w : Mundo)
    (hdicc : 25 ≤ w.PALABRAS_SECRETAS.length)
    (hreg : registroLegible w.palabrasUsadas = true) :
    ∃ w1,
      startNewGame azarPalabras azarTipos fechaActual .AZUL 2 rulePassOnMiss w
        = .retorna () w1 ∧
      cuenta .AZUL w1.tableroLogico = 9 ∧
      ∀ orden : List Nat, orden.Nodup → orden.length = 9 →
        (∀ i ∈ orden, (w1.tableroLogico.get? i).map (fun c => c.type) = some .AZUL) →
        ∀ k, k ≤ 9 →
          ∃ wk, jugar (orden.take k) w1 = .retorna () wk ∧
            (k < 9 → wk.juegoTerminado = false ∧ wk.turnoActual = .AZUL) ∧
            (k = 9 → wk.juegoTerminado = true ∧
              wk.indicadorTurno = .fin (some VICTORIA_AZUL)) := by
  obtain ⟨w1, h, ht, hturno, hn, _, hfin, _⟩ := startNewGame_aux azarPalabras azarTipos
    fechaActual .AZUL 2 rulePassOnMiss w hreg
  have hoc : ∀ c ∈ w1.tableroLogico, c.revealed = false := by
    rw [ht]; exact tableroNuevo_ocultas _ _ _ _ _
  have hca : cuenta .AZUL w1.tableroLogico = 9 := by
    rw [ht, cuenta_tableroNuevo _ _ _ _ _ _ hdicc]; decide
  have hcr : cuenta .ROJO w1.tableroLogico = 8 := by
    rw [ht, cuenta_tableroNuevo _ _ _ _ _ _ hdicc]; decide
  have hra : restantes .AZUL w1.tableroLogico = 9 := by
    rw [restantes_eq_cuenta _ _ hoc, hca]
  have hrr : restantes .ROJO w1.tableroLogico ≠ 0 := by
    rw [restantes_eq_cuenta _ _ hoc, hcr]; decide
  have hcurso : w1.juegoTerminado = false := by
    rw [hfin, ← ht]
    simp [finDerivado, asesinoRevelado_ocultas _ hoc, hra, hrr]
  refine ⟨w1, h, hca, ?_⟩
  intro orden hnodup hlen hazules k hk
  obtain ⟨wk, h1, _, _, _, _, h6, _, h8, h9⟩ :=
    jugar_azules w1 orden hnodup hn hturno hcurso hoc hra hrr hazules k hk (by omega)
  exact ⟨wk, h1, fun hlt => ⟨h8 hlt, h6⟩, h9⟩

theorem startNewGame_revelar_azules_witness :
    25 ≤ (Mundo.inicial diccionarioEjemplo none (some usadasEjemplo)).PALABRAS_SECRETAS.length ∧
    registroLegible (Mundo.inicial diccionarioEjemplo none (some usadasEjemplo)).palabrasUsadas
      = true ∧
    ∃ w1,
      startNewGame (fun _ => 0) (fun _ => 1) (lit "2024-06-01") .AZUL 2 false
          (Mundo.inicial diccionarioEjemplo none (some usadasEjemplo))
        = .retorna () w1 ∧
      cuenta .AZUL w1.tableroLogico = 9 ∧
      ∀ orden : List Nat, orden.Nodup → orden.length = 9 →
        (∀ i ∈ orden, (w1.tableroLogico.get? i).map (fun c => c.type) = some .AZUL) →
        ∀ k, k ≤ 9 →
          ∃ wk, jugar (orden.take k) w1 = .retorna () wk ∧
            (k < 9 → wk.juegoTerminado = false ∧ wk.turnoActual = .AZUL) ∧
            (k = 9 → wk.juegoTerminado = true ∧
              wk.indicadorTurno = .fin (some VICTORIA_AZUL)) :=
  ⟨by decide, registroLegible_usadasEjemplo,
    startNewGame_revelar_azules (fun _ => 0) (fun _ => 1) (lit "2024-06-01") false
      (Mundo.inicial diccionarioEjemplo none (some usadasEjemplo)) (by decide)
      registroLegible_usadasEjemplo⟩

/-- C9 (the code at the failing input): the dictionary has 30 entries, ids 0 to 29, and
the used-word record holds the ids 20 to 29, so 20 entries are unused. `startNewGame`,
with draws that leave both shuffles in place, returns with the ids 0 to 24 on the board,
and the used-word record then holds 30 ids, the old ones 25 to 29 among them: the
history was not cleared. -/
theorem startNewGame_conserva_usadas :
    (palabrasCandidatas (Mundo.inicial diccionarioEjemplo none (some usadasEjemplo))).length
      = 20 ∧
    ∃ w2,
      startNewGame (fun i => i) (fun i => i) (lit "2024-06-01") .AZUL 2 true
          (Mundo.inicial diccionarioEjemplo none (some usadasEjemplo))
        = .retorna () w2 ∧
      w2.tableroLogico.map (fun c => c.id)
        = [0, 1, 2, 3, 4, 5, 6, 7, 8, 9, 10, 11, 12, 13, 14, 15, 16, 17, 18, 19, 20, 21, 22,
            23, 24] ∧
      (cargarIdsUsados w2).map (fun ids => ids.map JSVal.entero)
        = some ([20, 21, 22, 23, 24, 25, 26, 27, 28, 29, 0, 1, 2, 3, 4, 5, 6, 7, 8, 9, 10, 11,
            12, 13, 14, 15, 16, 17, 18, 19].map some) := by
  constructor
  · unfold palabrasCandidatas idsLeidos
    simp only [Mundo.inicial, listaUsadas_usadasEjemplo]
    decide
  · obtain ⟨w2, h, ht, _, _, _, _, hu, _⟩ := startNewGame_aux (fun i => i) (fun i => i)
      (lit "2024-06-01") .AZUL 2 true
      (Mundo.inicial diccionarioEjemplo none (some usadasEjemplo)) registroLegible_usadasEjemplo
    have hc : canonico (.arr (usadasTras (lit "2024-06-01")
        ((diccionarioEjemplo.take 25).map (fun item => item.id)) (some usadasEjemplo)))
        = true := by
      unfold usadasTras
      rw [listaUsadas_usadasEjemplo]
      decide
    refine ⟨w2, h, ?_, ?_⟩
    · rw [ht]
      unfold tableroNuevo
      rw [palabrasElegidas_ejemplo]
      decide
    · rw [palabrasElegidas_ejemplo] at hu
      simp only [Mundo.inicial] at hu
      unfold cargarIdsUsados
      simp only [hu, stringify_ne_nil _ hc, if_false, JSON_parse_stringify _ hc]
      unfold usadasTras
      rw [listaUsadas_usadasEjemplo]
      decide

/-- C10 (the code at the failing input): the snapshot entry holds `!!!`, which is not
Base64. `cargarEstadoPartida` returns `null`, and the entry is still in storage. For
comparison, the entry `OQ==`, which decodes to the text `x`, not JSON, goes through the
`catch`: `null` is returned and the entry is removed. -/
theorem cargarEstadoPartida_conserva_base64_invalido :
    atob (lit "!!!") = none ∧
    cargarEstadoPartida (Mundo.inicial diccionarioEjemplo (some (lit "!!!")) none)
      = (none, Mundo.inicial diccionarioEjemplo (some (lit "!!!")) none) ∧
    (cargarEstadoPartida (Mundo.inicial diccionarioEjemplo (some (lit "!!!")) none)).2.estadoActual
      = some (lit "!!!") ∧
    descifrarXOR (lit "OQ==") = some (lit "x") ∧
    cargarEstadoPartida (Mundo.inicial diccionarioEjemplo (some (lit "OQ==")) none)
      = (none, Mundo.inicial diccionarioEjemplo none none) := by
  have ha : atob (lit "!!!") = none := by decide
  have hd : descifrarXOR (lit "!!!") = none := by
    unfold descifrarXOR
    rw [ha]
  have hn : lit "!!!" ≠ [] := by decide
  have hc : cargarEstadoPartida (Mundo.inicial diccionarioEjemplo (some (lit "!!!")) none)
      = (none, Mundo.inicial diccionarioEjemplo (some (lit "!!!")) none) := by
    unfold cargarEstadoPartida
    simp only [Mundo.inicial, hn, if_false, hd]
  have hx : descifrarXOR (lit "OQ==") = some (lit "x") := by
    unfold descifrarXOR
    decide
  have hv : parseValue (2 * (lit "x").length + 2) (lit "x") = none :=
    Option.eq_none_of_isNone (by decide)
  have hp : JSON_parse (lit "x") = none := by
    unfold JSON_parse
    rw [hv]
  have hn2 : lit "OQ==" ≠ [] := by decide
  have hn3 : lit "x" ≠ [] := by decide
  have hc2 : cargarEstadoPartida (Mundo.inicial diccionarioEjemplo (some (lit "OQ==")) none)
      = (none, Mundo.inicial diccionarioEjemplo none none) := by
    unfold cargarEstadoPartida
    simp only [Mundo.inicial, hn2, if_false, hx, hn3, hp, limpiarEstadoPartida]
  exact ⟨ha, hc, by rw [hc]; rfl, hx, hc2⟩

/-- C11: `handleCardClick` is without effect when the game is finished, whatever the
index, and when the card at the index is already revealed: it returns and leaves the
state as it was, so the board, the turn, the finished flag, the counts of remaining
agents and the stored snapshot are unchanged. -/
theorem handleCardClick_sin_efecto (index : Nat) (w : Mundo)
    (h : w.juegoTerminado = true ∨
      ∃ cardData, w.tableroLogico.get? index = some cardData ∧ cardData.revealed = true) :
    handleCardClick index w = .retorna () w := by
  unfold handleCardClick
  by_cases h0 : w.juegoTerminado = true
  · rw [if_pos h0]
  · rcases h with h | ⟨cardData, h1, h2⟩
    · exact absurd h h0
    · rw [if_neg h0]
      simp only [h1]
      rw [if_pos h2]

theorem handleCardClick_sin_efecto_witness :
    (tableroEjemplo.map (fun c => { c with revealed := true })).get? 7
      = some { id := 7, word := none, type := .AZUL, revealed := true } ∧
    handleCardClick 7
        { mundoEjemplo 2 .ROJO true with
          tableroLogico := tableroEjemplo.map (fun c => { c with revealed := true }) }
      = .retorna ()
        { mundoEjemplo 2 .ROJO true with
          tableroLogico := tableroEjemplo.map (fun c => { c with revealed := true }) } :=
  ⟨by decide,
    handleCardClick_sin_efecto 7
      { mundoEjemplo 2 .ROJO true with
        tableroLogico := tableroEjemplo.map (fun c => { c with revealed := true }) }
      (Or.inr ⟨{ id := 7, word := none, type := .AZUL, revealed := true }, by decide, rfl⟩)⟩

/-- C12: on a finished game `passTurn` returns and leaves the state as it was. On a game
that is not finished it returns with the board, the finished flag, the team count, the
rule, the counts of remaining agents, the dictionary and the used-word record unchanged,
and the turn moved: with 2 teams Blue to Red and Red to Blue, with 3 teams Blue to Red,
Red to Green and Green to Blue (the indicator and the stored snapshot follow the new
turn). Hence 2 passes in a row with 2 teams, and 3 with 3 teams, come back to the team
that was to play. -/
theorem passTurn_solo_cambia_turno (w : Mundo) :
    (w.juegoTerminado = true → passTurn w = .retorna () w) ∧
    (w.juegoTerminado = false →
      ∃ w2, passTurn w = .retorna () w2 ∧
        w2.tableroLogico = w.tableroLogico ∧ w2.juegoTerminado = w.juegoTerminado ∧
        w2.numeroDeEquipos = w.numeroDeEquipos ∧ w2.paseTurnoAlFallar = w.paseTurnoAlFallar ∧
        w2.agentesAzulesRestantes = w.agentesAzulesRestantes ∧
        w2.agentesRojosRestantes = w.agentesRojosRestantes ∧
        w2.agentesVerdesRestantes = w.agentesVerdesRestantes ∧
        w2.PALABRAS_SECRETAS = w.PALABRAS_SECRETAS ∧ w2.PALABRAS_MAPA = w.PALABRAS_MAPA ∧
        w2.palabrasUsadas = w.palabrasUsadas ∧
        (w.numeroDeEquipos = 2 → w.turnoActual = .AZUL → w2.turnoActual = .ROJO) ∧
        (w.numeroDeEquipos = 2 → w.turnoActual = .ROJO → w2.turnoActual = .AZUL) ∧
        (w.numeroDeEquipos = 3 → w.turnoActual = .AZUL → w2.turnoActual = .ROJO) ∧
        (w.numeroDeEquipos = 3 → w.turnoActual = .ROJO → w2.turnoActual = .VERDE) ∧
        (w.numeroDeEquipos = 3 → w.turnoActual = .VERDE → w2.turnoActual = .AZUL)) ∧
    (w.juegoTerminado = false → w.numeroDeEquipos = 2 →
      w.turnoActual = .AZUL ∨ w.turnoActual = .ROJO →
      ∃ w2 w3, passTurn w = .retorna () w2 ∧ passTurn w2 = .retorna () w3 ∧
        w3.turnoActual = w.turnoActual) ∧
    (w.juegoTerminado = false → w.numeroDeEquipos = 3 →
      w.turnoActual = .AZUL ∨ w.turnoActual = .ROJO ∨ w.turnoActual = .VERDE →
      ∃ w2 w3 w4, passTurn w = .retorna () w2 ∧ passTurn w2 = .retorna () w3 ∧
        passTurn w3 = .retorna () w4 ∧ w4.turnoActual = w.turnoActual) := by
  refine ⟨passTurn_terminado w, ?_, ?_, ?_⟩
  · intro h0
    obtain ⟨w2, hw, _, hb, hf, hn, hr, ha, hro, hv, hd, hm, hu, ht, _⟩ := passTurn_estado w h0
    refine ⟨w2, hw, hb, hf.trans h0.symm, hn, hr, ha, hro, hv, hd, hm, hu, ?_, ?_, ?_, ?_, ?_⟩ <;>
    · intro hn2 ht2
      rw [ht, hn2, ht2]
      rfl
  · intro h0 hn hturno
    obtain ⟨w2, hw2, _, _, hf2, hn2, _, _, _, _, _, _, _, ht2, _⟩ := passTurn_estado w h0
    obtain ⟨w3, hw3, _, _, _, _, _, _, _, _, _, _, _, ht3, _⟩ := passTurn_estado w2 hf2
    refine ⟨w2, w3, hw2, hw3, ?_⟩
    rw [ht3, ht2, hn2, hn]
    rcases hturno with h | h <;> rw [h] <;> rfl
  · intro h0 hn hturno
    obtain ⟨w2, hw2, _, _, hf2, hn2, _, _, _, _, _, _, _, ht2, _⟩ := passTurn_estado w h0
    obtain ⟨w3, hw3, _, _, hf3, hn3, _, _, _, _, _, _, _, ht3, _⟩ := passTurn_estado w2 hf2
    obtain ⟨w4, hw4, _, _, _, _, _, _, _, _, _, _, _, ht4, _⟩ := passTurn_estado w3 hf3
    refine ⟨w2, w3, w4, hw2, hw3, hw4, ?_⟩
    rw [ht4, ht3, ht2, hn3, hn2, hn]
    rcases hturno with h | h | h <;> rw [h] <;> rfl

theorem passTurn_solo_cambia_turno_witness :
    ∃ w2 w3 w4, passTurn (mundoEjemplo 3 .VERDE false) = .retorna () w2 ∧
      passTurn w2 = .retorna () w3 ∧ passTurn w3 = .retorna () w4 ∧
      w4.turnoActual = .VERDE :=
  (passTurn_solo_cambia_turno (mundoEjemplo 3 .VERDE false)).2.2.2 rfl rfl (Or.inr (Or.inr rfl))

/-- C13: on a used-word record of plain JSON values, two calls of `guardarNuevosIds` with
the same list of ids (each on a date of simple code units, as an ISO date is) both
return, and after the second the record has the ids it had after the first, as
`cargarIdsUsados` reads them, and as many entries. -/
theorem guardarNuevosIds_idempotente (fecha1 fecha2 : JSString) (nuevosIds : List Int)
    (w : Mundo) (hreg : registroCanonico w.palabrasUsadas = true)
    (hf1 : fecha1.all esSimple = true) (hf2 : fecha2.all esSimple = true) :
    ∃ w1 w2 ids, guardarNuevosIds fecha1 nuevosIds w = .retorna () w1 ∧
      guardarNuevosIds fecha2 nuevosIds w1 = .retorna () w2 ∧
      cargarIdsUsados w1 = some ids ∧ cargarIdsUsados w2 = some ids ∧
      (listaUsadas w2.palabrasUsadas).length = (listaUsadas w1.palabrasUsadas).length := by
  obtain ⟨h1, hl1, hc1⟩ := guardarNuevosIds_canonico fecha1 nuevosIds w hreg hf1
  obtain ⟨h2, hl2, hc2⟩ := guardarNuevosIds_canonico fecha2 nuevosIds
    { w with
      palabrasUsadas := some (stringify (.arr (usadasTras fecha1 nuevosIds w.palabrasUsadas))) }
    hc1 hf2
  have hcan : canonicoElems (usadasTras fecha1 nuevosIds w.palabrasUsadas) = true := by
    rw [canonicoElems_iff, ← hl1]
    exact ((registroCanonico_iff _).mp hc1).2
  have hotra := usadasTras_otra_vez fecha1 fecha2 nuevosIds w.palabrasUsadas hcan
  refine ⟨_, _, (usadasTras fecha1 nuevosIds w.palabrasUsadas).map claveDe, h1, h2, ?_, ?_, ?_⟩
  · rw [cargarIdsUsados_eq _ ((registroCanonico_iff _).mp hc1).1, idsLeidos_eq]
    exact congrArg some (congrArg (List.map claveDe) hl1)
  · rw [cargarIdsUsados_eq _ ((registroCanonico_iff _).mp hc2).1, idsLeidos_eq]
    exact congrArg some ((congrArg (List.map claveDe) hl2).trans hotra)
  · have := congrArg List.length hotra
    rw [List.length_map, List.length_map] at this
    show (listaUsadas (some _)).length = (listaUsadas (some _)).length
    rw [hl1]
    exact (congrArg List.length hl2).trans this

theorem guardarNuevosIds_idempotente_witness :
    ∃ w1 w2 ids,
      guardarNuevosIds (lit "2024-06-01") [3, 21, 3]
        (Mundo.inicial diccionarioEjemplo none (some usadasEjemplo)) = .retorna () w1 ∧
      guardarNuevosIds (lit "2024-06-02") [3, 21, 3] w1 = .retorna () w2 ∧
      cargarIdsUsados w1 = some ids ∧ cargarIdsUsados w2 = some ids ∧
      (listaUsadas w2.palabrasUsadas).length = (listaUsadas w1.palabrasUsadas).length :=
  guardarNuevosIds_idempotente (lit "2024-06-01") (lit "2024-06-02") [3, 21, 3]
    (Mundo.inicial diccionarioEjemplo none (some usadasEjemplo))
    registroCanonico_usadasEjemplo (by decide) (by decide)

/-- C14: on a used-word record of plain JSON values and a date of simple code units,
`guardarNuevosIds` returns, and in the record it leaves, as `cargarIdsUsados` and
`JSON.parse` read it: an id is recorded exactly when it was recorded before or is in the
new list; no id is the id of two entries; and the entry of every id of the new list,
recorded before or not, is `{ id, fecha }` with the date of the call. -/
theorem guardarNuevosIds_union_fechada (fechaActual : JSString) (nuevosIds : List Int)
    (w : Mundo) (hreg : registroCanonico w.palabrasUsadas = true)
    (hf : fechaActual.all esSimple = true) :
    cargarIdsUsados w = some (idsLeidos w.palabrasUsadas) ∧
    ∃ w2, guardarNuevosIds fechaActual nuevosIds w = .retorna () w2 ∧
      cargarIdsUsados w2 = some (idsLeidos w2.palabrasUsadas) ∧
      (∀ id : Int, setHas (idsLeidos w2.palabrasUsadas) id = true ↔
        (setHas (idsLeidos w.palabrasUsadas) id = true ∨ id ∈ nuevosIds)) ∧
      (∀ id : Int, ((listaUsadas w2.palabrasUsadas).filter
        (fun item => sameValueZero (claveDe item) (.num id))).length ≤ 1) ∧
      (∀ id ∈ nuevosIds,
        .obj [(lit "id", .num id), (lit "fecha", .str fechaActual)]
            ∈ listaUsadas w2.palabrasUsadas ∧
          ∀ item ∈ listaUsadas w2.palabrasUsadas, claveDe item = .num id →
            item = .obj [(lit "id", .num id), (lit "fecha", .str fechaActual)]) := by
  obtain ⟨h1, hl1, hc1⟩ := guardarNuevosIds_canonico fechaActual nuevosIds w hreg hf
  refine ⟨cargarIdsUsados_eq _ ((registroCanonico_iff _).mp hreg).1, _, h1,
    cargarIdsUsados_eq _ ((registroCanonico_iff _).mp hc1).1, ?_, ?_, ?_⟩
  · intro id
    show setHas (idsLeidos (some _)) id = true ↔ _
    rw [idsLeidos_eq, hl1, setHas_usadasTras]
    simp
  · intro id
    show ((listaUsadas (some _)).filter _).length ≤ 1
    rw [hl1]
    exact filter_clave_le_one _ (usadasTras_sin_repetir _ _ _) id
  · intro id hid
    show _ ∈ listaUsadas (some _) ∧ ∀ item ∈ listaUsadas (some _), _
    rw [hl1]
    exact ⟨usadasTras_contiene _ _ _ id hid,
      fun item hitem hk => usadasTras_fecha _ _ _ item hitem id hid hk⟩

theorem guardarNuevosIds_union_fechada_witness :
    ∃ w2,
      guardarNuevosIds (lit "2024-06-01") [3, 21, 3]
        (Mundo.inicial diccionarioEjemplo none (some usadasEjemplo)) = .retorna () w2 ∧
      (∀ id : Int, setHas (idsLeidos w2.palabrasUsadas) id = true ↔
        (setHas (idsLeidos (some usadasEjemplo)) id = true ∨ id ∈ [3, 21, 3])) ∧
      (∀ id : Int, ((listaUsadas w2.palabrasUsadas).filter
        (fun item => sameValueZero (claveDe item) (.num id))).length ≤ 1) ∧
      .obj [(lit "id", .num 21), (lit "fecha", .str (lit "2024-06-01"))]
        ∈ listaUsadas w2.palabrasUsadas := by
  obtain ⟨_, w2, h1, _, h2, h3, h4⟩ :=
    guardarNuevosIds_union_fechada (lit "2024-06-01") [3, 21, 3]
      (Mundo.inicial diccionarioEjemplo none (some usadasEjemplo))
      registroCanonico_usadasEjemplo (by decide)
  exact ⟨w2, h1, h2, h3, (h4 21 (by decide)).1⟩

/-- C15 (the code does otherwise): when a click reveals a card and the reveal ends the
game, `handleCardClick` returns with the snapshot key present: `verificarFinJuego` removes
it, and `recalcularEstado` then stores the snapshot of the finished game, a token that is
not empty and that decodes to the projection of the final state. -/
theorem handleCardClick_final_deja_instantanea (index : Nat) (w : Mundo) (cardData : Carta)
    (hcurso : w.juegoTerminado = false)
    (hcarta : w.tableroLogico.get? index = some cardData)
    (hoculta : cardData.revealed = false)
    (hfin : finDerivado w.numeroDeEquipos (revelar w.tableroLogico index cardData) = true) :
    ∃ w2 token, handleCardClick index w = .retorna () w2 ∧ w2.juegoTerminado = true ∧
      w2.estadoActual = some token ∧ token ≠ [] ∧
      descifrarXOR token = some (stringify (obtenerEstadoParaGuardar w2)) := by
  obtain ⟨w2, hw, _, _, _, _, hf, token, he, ht, hd, _⟩ :=
    handleCardClick_revela index w cardData hcurso hcarta hoculta
  exact ⟨w2, token, hw, hf.trans hfin, he, ht, hd⟩

theorem handleCardClick_final_deja_instantanea_witness :
    (mundoEjemplo 2 .AZUL true).juegoTerminado = false ∧
    (mundoEjemplo 2 .AZUL true).tableroLogico.get? 24
      = some { id := 24, word := none, type := .ASESINO, revealed := false } ∧
    ∃ w2 token, handleCardClick 24 (mundoEjemplo 2 .AZUL true) = .retorna () w2 ∧
      w2.juegoTerminado = true ∧ w2.estadoActual = some token ∧ token ≠ [] ∧
      descifrarXOR token = some (stringify (obtenerEstadoParaGuardar w2)) :=
  ⟨rfl, by decide,
    handleCardClick_final_deja_instantanea 24 (mundoEjemplo 2 .AZUL true)
      { id := 24, word := none, type := .ASESINO, revealed := false } rfl (by decide) rfl
      (by decide)⟩

/-- C16: after `startNewGame` (on a used-word record it can read), after every
`handleCardClick` that reveals a card and after every `passTurn` on a game that is not
finished, the call returns and the snapshot key holds the encoding of the projection of
the state reached: the token decodes to the JSON text of `obtenerEstadoParaGuardar` of
that state (board ids, type codes and revealed flags, the turn after any automatic
advance, the finished flag, the team count and the rule), which parses back to it. -/
theorem instantanea_tras_cada_cambio :
    (∀ (azarPalabras azarTipos : Nat → Nat) (fechaActual : JSString)
        (startingTeam : TIPOS_CARTA) (numTeams : Nat) (rulePassOnMiss : Bool) (w : Mundo),
      registroLegible w.palabrasUsadas = true →
      ∃ w2,
        startNewGame azarPalabras azarTipos fechaActual startingTeam numTeams rulePassOnMiss w
          = .retorna () w2 ∧ instantaneaAlDia w2) ∧
    (∀ (index : Nat) (w : Mundo) (cardData : Carta),
      w.juegoTerminado = false → w.tableroLogico.get? index = some cardData →
      cardData.revealed = false →
      ∃ w2, handleCardClick index w = .retorna () w2 ∧ instantaneaAlDia w2) ∧
    (∀ w : Mundo, w.juegoTerminado = false →
      ∃ w2, passTurn w = .retorna () w2 ∧ instantaneaAlDia w2) := by
  refine ⟨startNewGame_instantanea, ?_, ?_⟩
  · intro index w cardData h0 h1 h2
    obtain ⟨w2, hw, _, _, _, _, _, hi⟩ := handleCardClick_revela index w cardData h0 h1 h2
    exact ⟨w2, hw, hi⟩
  · intro w h0
    obtain ⟨w2, hw, _, _, _, _, _, _, _, _, _, _, _, _, hi⟩ := passTurn_estado w h0
    exact ⟨w2, hw, hi⟩

theorem instantanea_tras_cada_cambio_witness :
    ∃ w2, handleCardClick 24 (mundoEjemplo 2 .AZUL true) = .retorna () w2 ∧
      instantaneaAlDia w2 :=
  instantanea_tras_cada_cambio.2.1 24 (mundoEjemplo 2 .AZUL true)
    { id := 24, word := none, type := .ASESINO, revealed := false } rfl (by decide) rfl

/-- C17: `descifrarXOR` raises nothing: on a text that is not valid Base64 it returns
`null` (here `none`), and on a valid one it returns a string. -/
theorem descifrarXOR_no_lanza (base64String : JSString) :
    (esBase64 base64String = false → descifrarXOR base64String = none) ∧
    (esBase64 base64String = true → ∃ texto, descifrarXOR base64String = some texto) := by
  unfold descifrarXOR
  constructor
  · intro h
    rw [(atob_none_iff base64String).mpr h]
  · intro h
    cases ha : atob base64String with
    | none =>
        rw [(atob_none_iff base64String).mp ha] at h
        exact absurd h (by decide)
    | some cipherText => exact ⟨_, rfl⟩

theorem descifrarXOR_no_lanza_witness :
    esBase64 (lit "AGENT") = false ∧ descifrarXOR (lit "AGENT") = none ∧
    esBase64 (lit "AGEN") = true ∧ ∃ texto, descifrarXOR (lit "AGEN") = some texto :=
  ⟨by decide, (descifrarXOR_no_lanza (lit "AGENT")).1 (by decide), by decide,
    (descifrarXOR_no_lanza (lit "AGEN")).2 (by decide)⟩

/-- C18: for a dictionary of at least 25 entries with pairwise different ids, a used-word
record of plain JSON values and a date of simple code units, `startNewGame` returns with
a board of 25 cards whose ids are pairwise different; when at least 25 entries of the
dictionary were unused before the call, no id of the board was in the used-word record
before the call; and every id of the board is in the used-word record after the call. -/
theorem startNewGame_sin_reemplazo (azarPalabras azarTipos : Nat → Nat)
    (fechaActual : JSString) (startingTeam : TIPOS_CARTA) (numTeams : Nat)
    (rulePassOnMiss : Bool) (w : Mundo)
    (hdist : (w.PALABRAS_SECRETAS.map (fun p => p.id)).Nodup)
    (hdicc : 25 ≤ w.PALABRAS_SECRETAS.length)
    (hreg : registroCanonico w.palabrasUsadas = true)
    (hf : fechaActual.all esSimple = true) :
    cargarIdsUsados w = some (idsLeidos w.palabrasUsadas) ∧
    ∃ w2,
      startNewGame azarPalabras azarTipos fechaActual startingTeam numTeams rulePassOnMiss w
        = .retorna () w2 ∧
      w2.tableroLogico.length = 25 ∧
      (w2.tableroLogico.map (fun c => c.id)).Nodup ∧
      (25 ≤ (w.PALABRAS_SECRETAS.filter
          (fun item => !setHas (idsLeidos w.palabrasUsadas) item.id)).length →
        ∀ c ∈ w2.tableroLogico, setHas (idsLeidos w.palabrasUsadas) c.id = false) ∧
      cargarIdsUsados w2 = some (idsLeidos w2.palabrasUsadas) ∧
      (∀ c ∈ w2.tableroLogico, setHas (idsLeidos w2.palabrasUsadas) c.id = true) := by
  have hleg := ((registroCanonico_iff _).mp hreg).1
  obtain ⟨w2, h, hb, _, _, _, _, hu, _⟩ := startNewGame_aux azarPalabras azarTipos fechaActual
    startingTeam numTeams rulePassOnMiss w hleg
  obtain ⟨_, hl1, hc1⟩ := guardarNuevosIds_canonico fechaActual
    ((palabrasElegidas azarPalabras w).map (fun item => item.id)) w hreg hf
  have hids := tableroNuevo_ids azarPalabras azarTipos startingTeam numTeams w hdicc
  have hmem : ∀ c ∈ w2.tableroLogico,
      c.id ∈ (palabrasElegidas azarPalabras w).map (fun item => item.id) := by
    intro c hc
    rw [← hids, ← hb]
    exact List.mem_map_of_mem _ hc
  refine ⟨cargarIdsUsados_eq _ hleg, w2, h, ?_, ?_, ?_, ?_, ?_⟩
  · rw [hb]
    exact tableroNuevo_length azarPalabras azarTipos startingTeam numTeams w hdicc
  · rw [hb, hids]
    exact palabrasElegidas_nodup azarPalabras w hdist
  · intro hc c hcb
    obtain ⟨item, hitem, hid⟩ := List.mem_map.mp (hmem c hcb)
    rw [← hid]
    exact palabrasElegidas_sin_usar azarPalabras w hc item hitem
  · apply cargarIdsUsados_eq
    rw [hu]
    exact ((registroCanonico_iff _).mp hc1).1
  · intro c hcb
    rw [hu, idsLeidos_eq, hl1, setHas_usadasTras, decide_eq_true (hmem c hcb), Bool.or_true]

theorem startNewGame_sin_reemplazo_witness :
    ∃ w2,
      startNewGame (fun _ => 0) (fun i => i) (lit "2024-06-01") .ROJO 2 true
          (Mundo.inicial diccionarioEjemplo none (some usadasPocas))
        = .retorna () w2 ∧
      w2.tableroLogico.length = 25 ∧
      (w2.tableroLogico.map (fun c => c.id)).Nodup ∧
      (∀ c ∈ w2.tableroLogico, setHas (idsLeidos (some usadasPocas)) c.id = false) ∧
      (∀ c ∈ w2.tableroLogico, setHas (idsLeidos w2.palabrasUsadas) c.id = true) := by
  obtain ⟨_, w2, h1, h2, h3, h4, _, h5⟩ :=
    startNewGame_sin_reemplazo (fun _ => 0) (fun i => i) (lit "2024-06-01") .ROJO 2 true
      (Mundo.inicial diccionarioEjemplo none (some usadasPocas))
      (by decide) (by decide) registroCanonico_usadasPocas (by decide)
  exact ⟨w2, h1, h2, h3, h4 candidatas_usadasPocas, h5⟩

/-- C19: for every state and every index, `handleCardClick` and `passTurn` end (they
return or raise, and the state they leave is `estado`) with a board of the same length in
which every card keeps its place, its id, its word and its type; a revealed card stays
revealed; after `handleCardClick` only the card at the clicked index may have a new
`revealed` flag, and after `passTurn` the board is the same. -/
theorem cartas_inmutables (index : Nat) (w : Mundo) :
    handleCardClick index w ≠ .noTipado ∧ passTurn w ≠ .noTipado ∧
    ((handleCardClick index w).estado w).tableroLogico.length = w.tableroLogico.length ∧
    (∀ j a, w.tableroLogico.get? j = some a →
      ∃ d, ((handleCardClick index w).estado w).tableroLogico.get? j = some d ∧
        d.id = a.id ∧ d.word = a.word ∧ d.type = a.type ∧
        (a.revealed = true → d.revealed = true) ∧ (j ≠ index → d.revealed = a.revealed)) ∧
    ((passTurn w).estado w).tableroLogico = w.tableroLogico := by
  have hp : passTurn w ≠ .noTipado ∧ ((passTurn w).estado w).tableroLogico = w.tableroLogico := by
    by_cases h0 : w.juegoTerminado = true
    · rw [passTurn_terminado w h0]
      exact ⟨by simp, rfl⟩
    · obtain ⟨w2, hw, _, hb, _⟩ := passTurn_estado w (by simpa using h0)
      rw [hw]
      exact ⟨by simp, hb⟩
  refine ⟨?_, hp.1, ?_, ?_, hp.2⟩
  · rcases handleCardClick_casos index w with hc | hc | ⟨cardData, h0, h1, h2⟩
    · rw [hc]; simp
    · rw [hc]; simp
    · obtain ⟨w2, hw, _⟩ := handleCardClick_revela index w cardData h0 h1 h2
      rw [hw]; simp
  · rcases handleCardClick_casos index w with hc | hc | ⟨cardData, h0, h1, h2⟩
    · rw [hc]; rfl
    · rw [hc]; rfl
    · obtain ⟨w2, hw, hb, _⟩ := handleCardClick_revela index w cardData h0 h1 h2
      rw [hw]
      show w2.tableroLogico.length = _
      rw [hb]
      simp [revelar]
  · intro j a ha
    rcases handleCardClick_casos index w with hc | hc | ⟨cardData, h0, h1, h2⟩
    · rw [hc]
      exact ⟨a, ha, rfl, rfl, rfl, fun h => h, fun _ => rfl⟩
    · rw [hc]
      exact ⟨a, ha, rfl, rfl, rfl, fun h => h, fun _ => rfl⟩
    · obtain ⟨w2, hw, hb, _⟩ := handleCardClick_revela index w cardData h0 h1 h2
      rw [hw]
      show ∃ d, w2.tableroLogico.get? j = some d ∧ _
      rw [hb]
      exact revelar_get? _ _ _ h1 j a ha

/-- C20: a game started by `startNewGame` with an active team (Blue or Red with 2 teams;
Blue, Red or Green with 3) keeps, after every sequence of `handleCardClick` and
`passTurn`, the team count it was started with and an active team to play. -/
theorem turno_siempre_activo (azarPalabras azarTipos : Nat → Nat) (fechaActual : JSString)
    (startingTeam : TIPOS_CARTA) (numTeams : Nat) (rulePassOnMiss : Bool) (w : Mundo)
    (acciones : List Accion)
    (hactivo : (numTeams = 2 ∧ (startingTeam = .AZUL ∨ startingTeam = .ROJO)) ∨
      (numTeams = 3 ∧
        (startingTeam = .AZUL ∨ startingTeam = .ROJO ∨ startingTeam = .VERDE))) :
    (ejecutar acciones ((startNewGame azarPalabras azarTipos fechaActual startingTeam numTeams
        rulePassOnMiss w).estado w)).numeroDeEquipos = numTeams ∧
    equipoActivo numTeams
      (ejecutar acciones ((startNewGame azarPalabras azarTipos fechaActual startingTeam numTeams
        rulePassOnMiss w).estado w)).turnoActual = true := by
  apply ejecutar_conserva_activo
  obtain ⟨ht, hn⟩ := startNewGame_estado azarPalabras azarTipos fechaActual startingTeam
    numTeams rulePassOnMiss w
  refine ⟨hn, ?_⟩
  rw [ht]
  rcases hactivo with ⟨rfl, h | h⟩ | ⟨rfl, h | h | h⟩ <;> rw [h] <;> rfl

theorem turno_siempre_activo_witness :
    (ejecutar [.click 0, .pase, .click 30, .click 1]
      ((startNewGame (fun _ => 0) (fun i => i) (lit "2024-06-01") .VERDE 3 true
        (Mundo.inicial diccionarioEjemplo none (some usadasEjemplo))).estado
        (Mundo.inicial diccionarioEjemplo none (some usadasEjemplo)))).numeroDeEquipos = 3 ∧
    equipoActivo 3
      (ejecutar [.click 0, .pase, .click 30, .click 1]
        ((startNewGame (fun _ => 0) (fun i => i) (lit "2024-06-01") .VERDE 3 true
          (Mundo.inicial diccionarioEjemplo none (some usadasEjemplo))).estado
          (Mundo.inicial diccionarioEjemplo none (some usadasEjemplo)))).turnoActual = true :=
  turno_siempre_activo (fun _ => 0) (fun i => i) (lit "2024-06-01") .VERDE 3 true
    (Mundo.inicial diccionarioEjemplo none (some usadasEjemplo))
    [.click 0, .pase, .click 30, .click 1] (Or.inr ⟨rfl, Or.inr (Or.inr rfl)⟩)

/-- C21, the claim fails: a leader token of a three-team game played without the rule of
passing on a miss is imported on a page whose state is a two-team game in progress with
the rule on. `mostrarClaveSecretaURL` returns with another board (the 25 cards of the
token, all revealed), with a team count of 3 instead of 2 and with the rule off. -/
theorem mostrarClaveSecretaURL_cambia_estado :
    ∃ w1 token w2,
      guardarEstadoPartida (obtenerEstadoParaGuardar mundoTres) mundoTres = .retorna () w1 ∧
      w1.estadoActual = some token ∧
      mostrarClaveSecretaURL token (mundoEjemplo 2 .AZUL true) = .retorna () w2 ∧
      (mundoEjemplo 2 .AZUL true).tableroLogico = tableroEjemplo ∧
      w2.tableroLogico = tableroTres.map (fun c => { c with revealed := true }) ∧
      w2.tableroLogico ≠ (mundoEjemplo 2 .AZUL true).tableroLogico ∧
      (mundoEjemplo 2 .AZUL true).numeroDeEquipos = 2 ∧ w2.numeroDeEquipos = 3 ∧
      (mundoEjemplo 2 .AZUL true).paseTurnoAlFallar = true ∧ w2.paseTurnoAlFallar = false := by
  obtain ⟨token, _, hg, hd⟩ := guardarEstadoPartida_canonico
    (obtenerEstadoParaGuardar mundoTres) mundoTres (canonico_obtenerEstadoParaGuardar _)
  have h := mostrarClaveSecretaURL_guardado_estado mundoTres (mundoEjemplo 2 .AZUL true) token
    (by decide) hd
  refine ⟨_, token, _, hg, rfl, h, rfl, ?_, ?_, rfl, ?_, rfl, rfl⟩
  · decide
  · decide
  · decide

/-- C21, as amended: for every token and every state `mostrarClaveSecretaURL` raises
nothing and leaves the turn, the finished flag, the counts of remaining agents, the
dictionary and both storage keys (snapshot and used words) as they were. When it rejects
the token, which it tells by an alert, the board, the team count and the rule are as they
were too. It accepts the token exactly when the token decodes to a value whose `tablero`
has 25 entries, each with an integer `id` and the code of a card type as `type`, and
whose `turnPassRule` is a boolean or absent: then the board becomes the cards of those
entries in order (`cartaImportada`: the id of the entry, the word of that id, the type of
the code, revealed), the team count becomes 3 if one of them is Green and 2 otherwise,
and the rule becomes the one of the token (`reglaImportada`); nothing else changes. The
only other outcome is a token with 25 entries, none `null`, of which one has no integer
id or no known type code, or whose rule is not a boolean: it falls outside the typed
state. -/
theorem mostrarClaveSecretaURL_marco (cadenaCifrada : JSString) (w : Mundo) :
    (∀ w2, mostrarClaveSecretaURL cadenaCifrada w ≠ .lanza w2) ∧
    ((mostrarClaveSecretaURL cadenaCifrada w).estado w).turnoActual = w.turnoActual ∧
    ((mostrarClaveSecretaURL cadenaCifrada w).estado w).juegoTerminado = w.juegoTerminado ∧
    ((mostrarClaveSecretaURL cadenaCifrada w).estado w).agentesAzulesRestantes
      = w.agentesAzulesRestantes ∧
    ((mostrarClaveSecretaURL cadenaCifrada w).estado w).agentesRojosRestantes
      = w.agentesRojosRestantes ∧
    ((mostrarClaveSecretaURL cadenaCifrada w).estado w).agentesVerdesRestantes
      = w.agentesVerdesRestantes ∧
    ((mostrarClaveSecretaURL cadenaCifrada w).estado w).PALABRAS_SECRETAS
      = w.PALABRAS_SECRETAS ∧
    ((mostrarClaveSecretaURL cadenaCifrada w).estado w).estadoActual = w.estadoActual ∧
    ((mostrarClaveSecretaURL cadenaCifrada w).estado w).palabrasUsadas = w.palabrasUsadas ∧
    (∀ w2, mostrarClaveSecretaURL cadenaCifrada w = .retorna () w2 →
      w2.alertas ≠ w.alertas →
      w2.tableroLogico = w.tableroLogico ∧ w2.numeroDeEquipos = w.numeroDeEquipos ∧
        w2.paseTurnoAlFallar = w.paseTurnoAlFallar) ∧
    (∀ w2, mostrarClaveSecretaURL cadenaCifrada w = .retorna () w2 →
      w2.alertas = w.alertas →
      w2.tableroLogico.length = 25 ∧ (∀ c ∈ w2.tableroLogico, c.revealed = true) ∧
        w2.numeroDeEquipos
          = (if w2.tableroLogico.any (fun card => card.type = .VERDE) then 3 else 2) ∧
        ∃ texto estadoPartida items,
          descifrarXOR cadenaCifrada = some texto ∧ JSON_parse texto = some estadoPartida ∧
          estadoPartida.prop (lit "tablero") = some (.arr items) ∧
          List.Forall₂ (cartaImportada w) items w2.tableroLogico ∧
          reglaImportada estadoPartida w2.paseTurnoAlFallar) ∧
    (∀ (texto : JSString) (estadoPartida : JSVal) (items : List JSVal) (cartas : List Carta)
        (regla : Bool),
      descifrarXOR cadenaCifrada = some texto → texto ≠ [] →
      JSON_parse texto = some estadoPartida →
      estadoPartida.prop (lit "tablero") = some (.arr items) → items.length = 25 →
      List.Forall₂ (cartaImportada w) items cartas → reglaImportada estadoPartida regla →
      mostrarClaveSecretaURL cadenaCifrada w
        = .retorna ()
            { w with
              tableroLogico := cartas
              numeroDeEquipos := if cartas.any (fun card => card.type = .VERDE) then 3 else 2
              paseTurnoAlFallar := regla }) ∧
    (mostrarClaveSecretaURL cadenaCifrada w = .noTipado →
      ∃ texto estadoPartida items,
        descifrarXOR cadenaCifrada = some texto ∧ JSON_parse texto = some estadoPartida ∧
        estadoPartida.prop (lit "tablero") = some (.arr items) ∧ items.length = 25 ∧
        (∀ item ∈ items, item.prop (lit "id") ≠ none) ∧
        ((∃ item ∈ items, ∀ c, ¬ cartaImportada w item c) ∨
          ∀ regla, ¬ reglaImportada estadoPartida regla)) := by
  have hacepta := mostrarClaveSecretaURL_acepta cadenaCifrada w
  rcases mostrarClaveSecretaURL_completo cadenaCifrada w _ rfl with
    ⟨m, h⟩ | ⟨texto, ep, items, hd, hn, hp, ht, hlen, hnn, hcaso⟩
  · rw [h]
    refine ⟨by simp, rfl, rfl, rfl, rfl, rfl, rfl, rfl, rfl, ?_, ?_, ?_, ?_⟩
    · intro w2 hw _
      simp only [Resultado.retorna.injEq, true_and] at hw
      subst hw
      exact ⟨rfl, rfl, rfl⟩
    · intro w2 hw ha
      simp only [Resultado.retorna.injEq, true_and] at hw
      subst hw
      simp [alert] at ha
    · rw [← h]
      exact hacepta
    · intro hx
      cases hx
  · rcases hcaso with ⟨cartas, regla, hc, hr, h⟩ | ⟨h, hmal⟩
    · have hrev : ∀ c ∈ cartas, c.revealed = true := by
        intro c hcm
        have hcs2 := (reconstruirTablero_importado w items cartas).mpr hc
        obtain ⟨_, h2⟩ := reconstruirTablero_ok w _ items cartas hcs2
        obtain ⟨r, hr2⟩ := h2 c hcm
        simpa using hr2.symm
      have hl : cartas.length = 25 := by rw [← hc.length_eq, hlen]
      rw [h]
      refine ⟨by simp, rfl, rfl, rfl, rfl, rfl, rfl, rfl, rfl, ?_, ?_, ?_, ?_⟩
      · intro w2 hw ha
        simp only [Resultado.retorna.injEq, true_and] at hw
        subst hw
        exact absurd rfl ha
      · intro w2 hw _
        simp only [Resultado.retorna.injEq, true_and] at hw
        subst hw
        exact ⟨hl, hrev, rfl, texto, ep, items, hd, hp, ht, hc, hr⟩
      · rw [← h]
        exact hacepta
      · intro hx
        cases hx
    · rw [h]
      refine ⟨by simp, rfl, rfl, rfl, rfl, rfl, rfl, rfl, rfl, ?_, ?_, ?_, ?_⟩
      · intro w2 hw
        cases hw
      · intro w2 hw
        cases hw
      · rw [← h]
        exact hacepta
      · intro _
        exact ⟨texto, ep, items, hd, hp, ht, hlen, hnn, hmal⟩

theorem mostrarClaveSecretaURL_marco_witness :
    ((mostrarClaveSecretaURL (lit "!!!") (mundoEjemplo 2 .AZUL true)).estado
      (mundoEjemplo 2 .AZUL true)).estadoActual = none ∧
    ∃ w1 token,
      guardarEstadoPartida (obtenerEstadoParaGuardar mundoTres) mundoTres = .retorna () w1 ∧
      w1.estadoActual = some token ∧
      mostrarClaveSecretaURL token (mundoEjemplo 2 .AZUL true)
        = .retorna ()
            { mundoEjemplo 2 .AZUL true with
              tableroLogico := tableroTres.map (fun c => { c with revealed := true })
              numeroDeEquipos := 3
              paseTurnoAlFallar := false } := by
  obtain ⟨token, _, hg, hd⟩ := guardarEstadoPartida_canonico
    (obtenerEstadoParaGuardar mundoTres) mundoTres (canonico_obtenerEstadoParaGuardar _)
  have hc := canonico_obtenerEstadoParaGuardar mundoTres
  have h := (mostrarClaveSecretaURL_marco token (mundoEjemplo 2 .AZUL true)).2.2.2.2.2.2.2.2.2.2.2.1
    _ _ _ _ mundoTres.paseTurnoAlFallar hd (stringify_ne_nil _ hc) (JSON_parse_stringify _ hc)
    (prop_tablero mundoTres) (by decide)
    (cartaImportada_guardada mundoTres (mundoEjemplo 2 .AZUL true))
    (Or.inr (prop_turnPassRule mundoTres))
  refine ⟨(mostrarClaveSecretaURL_marco (lit "!!!")
    (mundoEjemplo 2 .AZUL true)).2.2.2.2.2.2.2.1, _, token, hg, rfl, ?_⟩
  rw [h]
  decide

/-- C22 (the code at the failing inputs): the used-word entry holds `x`, which is not
JSON, or `5`, which is JSON but not a list, or `[null]`, a list whose entry is not a
record. In each case `cargarIdsUsados` raises instead of returning a set, and
`startNewGame` is aborted by it, after it has set the turn, the team count and the rule
and before it builds a board. -/
theorem cargarIdsUsados_propaga_error :
    cargarIdsUsados (Mundo.inicial diccionarioEjemplo none (some (lit "x"))) = none ∧
    cargarIdsUsados (Mundo.inicial diccionarioEjemplo none (some (lit "5"))) = none ∧
    cargarIdsUsados (Mundo.inicial diccionarioEjemplo none (some (lit "[null]"))) = none ∧
    startNewGame (fun i => i) (fun i => i) (lit "2024-06-01") .ROJO 3 false
        (Mundo.inicial diccionarioEjemplo none (some (lit "x")))
      = .lanza
        { Mundo.inicial diccionarioEjemplo none (some (lit "x")) with
          juegoTerminado := false
          turnoActual := .ROJO
          numeroDeEquipos := 3
          paseTurnoAlFallar := false } ∧
    ((startNewGame (fun i => i) (fun i => i) (lit "2024-06-01") .ROJO 3 false
        (Mundo.inicial diccionarioEjemplo none (some (lit "x")))).estado
      (Mundo.inicial diccionarioEjemplo none (some (lit "x")))).tableroLogico = [] := by
  have h1 : registroLegible (some (lit "x")) = false := by
    unfold registroLegible JSON_parse
    decide
  have h2 : registroLegible (some (lit "5")) = false := by
    unfold registroLegible JSON_parse
    decide
  have h3 : registroLegible (some (lit "[null]")) = false := by
    unfold registroLegible JSON_parse
    decide
  have hs := startNewGame_lanza (fun i => i) (fun i => i) (lit "2024-06-01") .ROJO 3 false
    (Mundo.inicial diccionarioEjemplo none (some (lit "x"))) h1
  refine ⟨cargarIdsUsados_none _ h1, cargarIdsUsados_none _ h2, cargarIdsUsados_none _ h3, hs, ?_⟩
  rw [hs]
  rfl

/-- C23: in a game that is not finished and whose board is not in a terminal condition,
a click that reveals the last unrevealed card of an active team (Blue or Red with 2
teams; Blue, Red or Green with 3) returns with the game finished and the end message
that announces the victory of that team, whichever team was to play; the turn is not
moved. -/
theorem handleCardClick_ultima_carta_victoria (index : Nat) (w : Mundo) (cardData : Carta)
    (hcurso : w.juegoTerminado = false)
    (htablero : finDerivado w.numeroDeEquipos w.tableroLogico = false)
    (hcarta : w.tableroLogico.get? index = some cardData)
    (hoculta : cardData.revealed = false)
    (hactivo : equipoActivo w.numeroDeEquipos cardData.type = true)
    (hultima : restantes cardData.type w.tableroLogico = 1) :
    ∃ w2, handleCardClick index w = .retorna () w2 ∧ w2.juegoTerminado = true ∧
      w2.turnoActual = w.turnoActual ∧
      w2.indicadorTurno = .fin (some (mensajeVictoria cardData.type)) :=
  click_ultima_carta index w cardData hcurso htablero hcarta hoculta hactivo hultima

theorem handleCardClick_ultima_carta_victoria_witness :
    mundoUltimaRoja.turnoActual = .AZUL ∧
    mundoUltimaRoja.tableroLogico.get? 16
      = some { id := 16, word := none, type := .ROJO, revealed := false } ∧
    restantes .ROJO mundoUltimaRoja.tableroLogico = 1 ∧
    ∃ w2, handleCardClick 16 mundoUltimaRoja = .retorna () w2 ∧ w2.juegoTerminado = true ∧
      w2.turnoActual = .AZUL ∧
      w2.indicadorTurno
        = .fin (some "¡<span class=\"text-red-400 font-bold\">VICTORIA ROJA</span>! 🏆") :=
  ⟨rfl, by decide, by decide,
    handleCardClick_ultima_carta_victoria 16 mundoUltimaRoja
      { id := 16, word := none, type := .ROJO, revealed := false } rfl (by decide) (by decide)
      rfl (by decide) (by decide)⟩

/-- C24 (the code at the failing input): the dictionary has 30 entries, ids 0 to 29, of
which the used-word record leaves 20 unused. `startNewGame`, whose first shuffle draws
`j = 0` at every step, returns with the dictionary reordered: it now starts at the entry
of id 1 and ends with the entry of id 0. With a used-word record that leaves 27 entries
unused, the same call leaves the dictionary as it was. -/
theorem startNewGame_reordena_diccionario :
    (Mundo.inicial diccionarioEjemplo none (some usadasEjemplo)).PALABRAS_SECRETAS.map
        (fun p => p.id)
      = [0, 1, 2, 3, 4, 5, 6, 7, 8, 9, 10, 11, 12, 13, 14, 15, 16, 17, 18, 19, 20, 21, 22,
          23, 24, 25, 26, 27, 28, 29] ∧
    (∃ w2,
      startNewGame (fun _ => 0) (fun i => i) (lit "2024-06-01") .AZUL 2 true
          (Mundo.inicial diccionarioEjemplo none (some usadasEjemplo))
        = .retorna () w2 ∧
      w2.PALABRAS_SECRETAS.map (fun p => p.id)
        = [1, 2, 3, 4, 5, 6, 7, 8, 9, 10, 11, 12, 13, 14, 15, 16, 17, 18, 19, 20, 21, 22, 23,
            24, 25, 26, 27, 28, 29, 0]) ∧
    ∃ w3,
      startNewGame (fun _ => 0) (fun i => i) (lit "2024-06-01") .AZUL 2 true
          (Mundo.inicial diccionarioEjemplo none (some usadasPocas))
        = .retorna () w3 ∧
      w3.PALABRAS_SECRETAS = diccionarioEjemplo := by
  refine ⟨by decide, ?_, ?_⟩
  · obtain ⟨w2, h, _, _, _, _, _, _, hp⟩ := startNewGame_aux (fun _ => 0) (fun i => i)
      (lit "2024-06-01") .AZUL 2 true
      (Mundo.inicial diccionarioEjemplo none (some usadasEjemplo)) registroLegible_usadasEjemplo
    have hc : (palabrasCandidatas
        (Mundo.inicial diccionarioEjemplo none (some usadasEjemplo))).length = 20 := by
      unfold palabrasCandidatas idsLeidos
      simp only [Mundo.inicial, listaUsadas_usadasEjemplo]
      decide
    rw [hc, if_pos (by decide)] at hp
    refine ⟨w2, h, ?_⟩
    rw [hp]
    decide
  · obtain ⟨w3, h, _, _, _, _, _, _, hp⟩ := startNewGame_aux (fun _ => 0) (fun i => i)
      (lit "2024-06-01") .AZUL 2 true
      (Mundo.inicial diccionarioEjemplo none (some usadasPocas))
      ((registroCanonico_iff _).mp registroCanonico_usadasPocas).1
    have hc := candidatas_usadasPocas
    rw [if_neg (by unfold palabrasCandidatas; omega)] at hp
    exact ⟨w3, h, hp⟩

/-- C25: `shuffleArray` is the Fisher-Yates shuffle without bias. For every array and
every sequence of draws (`j = azar i % (i + 1)`, a value of `0..i`, at step `i`) the
result is a permutation of the array, of the same length. For an array of distinct
elements two runs with the same result made the same draw at every step `1 ≤ i < n`, and
every permutation of the array is the result of some sequence of draws: each of the `n!`
permutations comes from exactly one sequence. -/
theorem shuffleArray_biyeccion {α : Type} (array : List α) :
    (∀ azar : Nat → Nat,
      (shuffleArray azar array).Perm array ∧
        (shuffleArray azar array).length = array.length) ∧
    (array.Nodup → ∀ azar1 azar2 : Nat → Nat,
      shuffleArray azar1 array = shuffleArray azar2 array →
      ∀ i, 1 ≤ i → i < array.length → azar1 i % (i + 1) = azar2 i % (i + 1)) ∧
    (∀ p ∈ array.permutations, ∃ azar : Nat → Nat, shuffleArray azar array = p) ∧
    array.permutations.length = array.length.factorial ∧
    (array.Nodup → array.permutations.Nodup) := by
  refine ⟨?_, ?_, ?_, List.length_permutations array, List.nodup_permutations array⟩
  · intro azar
    exact ⟨shuffleArray_perm azar array, (shuffleArray_perm azar array).length_eq⟩
  · intro hl azar1 azar2 h
    exact shuffleArray_inyectiva azar1 azar2 array hl h
  · intro p hp
    exact shuffleArray_sobre array p (List.mem_permutations.mp hp)

theorem shuffleArray_biyeccion_witness :
    shuffleArray (fun _ => 0) [10, 11, 12, 13] = [11, 12, 13, 10] ∧
    ∃ azar : Nat → Nat, shuffleArray azar [10, 11, 12, 13] = [13, 10, 12, 11] :=
  ⟨by decide,
    (shuffleArray_biyeccion [10, 11, 12, 13]).2.2.1 [13, 10, 12, 11]
      (List.mem_permutations.mpr (by decide))⟩

/-- C26: the finished flag is read from the board. `finDerivado` holds exactly when an
Assassin card is revealed, or no Blue card is unrevealed, or no Red card is unrevealed,
or (with 3 teams) no Green card is unrevealed. After `startNewGame`, after every
`handleCardClick` that reveals a card and whenever `initGame` loads a saved game,
`juegoTerminado` is `finDerivado` of the team count and the board of the state reached;
a snapshot saved from a state is loaded with the flag of its board, whatever flag the
state (and so the snapshot) held. With a revealed Assassin the end message that
`recalcularEstado` shows, and that a click leaves, is the one of the Assassin, whatever
the counts. -/
theorem juegoTerminado_derivado :
    (∀ (n : Nat) (tablero : List Carta),
      finDerivado n tablero = true ↔
        (asesinoRevelado tablero = true ∨ restantes .AZUL tablero = 0 ∨
          restantes .ROJO tablero = 0 ∨ (n = 3 ∧ restantes .VERDE tablero = 0))) ∧
    (∀ (azarPalabras azarTipos : Nat → Nat) (fechaActual : JSString)
        (startingTeam : TIPOS_CARTA) (numTeams : Nat) (rulePassOnMiss : Bool) (w : Mundo),
      registroLegible w.palabrasUsadas = true →
      ∃ w2,
        startNewGame azarPalabras azarTipos fechaActual startingTeam numTeams rulePassOnMiss w
          = .retorna () w2 ∧
        w2.juegoTerminado = finDerivado w2.numeroDeEquipos w2.tableroLogico) ∧
    (∀ (index : Nat) (w : Mundo) (cardData : Carta),
      w.juegoTerminado = false → w.tableroLogico.get? index = some cardData →
      cardData.revealed = false →
      ∃ w2, handleCardClick index w = .retorna () w2 ∧
        w2.juegoTerminado = finDerivado w2.numeroDeEquipos w2.tableroLogico ∧
        (asesinoRevelado w2.tableroLogico = true →
          w2.indicadorTurno = .fin (some (mensajeAsesinado
            (equipoGanadorTexto w.numeroDeEquipos w.turnoActual))))) ∧
    (∀ w w2 : Mundo, initGame w = .retorna true w2 →
      w2.juegoTerminado = finDerivado w2.numeroDeEquipos w2.tableroLogico) ∧
    (∀ (w w0 : Mundo) (token : JSString),
      w.tableroLogico.length = 25 → w.numeroDeEquipos ≠ 0 → token ≠ [] →
      descifrarXOR token = some (stringify (obtenerEstadoParaGuardar w)) →
      w0.estadoActual = some token →
      ∃ w3, initGame w0 = .retorna true w3 ∧
        w3.juegoTerminado = finDerivado w.numeroDeEquipos w.tableroLogico) ∧
    (∀ w : Mundo, asesinoRevelado w.tableroLogico = true →
      ∃ w2, recalcularEstado w.tableroLogico w = .retorna () w2 ∧ w2.juegoTerminado = true ∧
        w2.indicadorTurno = .fin (some (mensajeAsesinado
          (equipoGanadorTexto w.numeroDeEquipos w.turnoActual)))) := by
  refine ⟨?_, ?_, ?_, initGame_derivado, initGame_guardado_derivado, ?_⟩
  · intro n tablero
    unfold finDerivado
    simp only [Bool.or_eq_true, Bool.and_eq_true, decide_eq_true_eq, or_assoc]
  · intro azarPalabras azarTipos fechaActual startingTeam numTeams rulePassOnMiss w hreg
    obtain ⟨w2, h, hb, _, hn, _, hf, _⟩ := startNewGame_aux azarPalabras azarTipos fechaActual
      startingTeam numTeams rulePassOnMiss w hreg
    exact ⟨w2, h, by rw [hf, hb, hn]⟩
  · intro index w cardData h0 h1 h2
    obtain ⟨w2, hw, hb, hn, _, _, hf, _⟩ := handleCardClick_revela index w cardData h0 h1 h2
    refine ⟨w2, hw, by rw [hf, hb, hn], ?_⟩
    intro ha
    rw [hb] at ha
    have hfin : finDerivado w.numeroDeEquipos (revelar w.tableroLogico index cardData)
        = true := by
      unfold finDerivado
      simp [ha]
    obtain ⟨w3, hw3, _, _, hi⟩ := click_final index w cardData h0 h1 h2 hfin
    rw [hw] at hw3
    simp only [Resultado.retorna.injEq, true_and] at hw3
    rw [hw3, hi, mensajeFin_asesino _ _ _ ha]
  · intro w ha
    obtain ⟨token, _, hr, _⟩ := recalcularEstado_eq w
    obtain ⟨hf, hb, hn, _, hi⟩ := recalcularEstado_derivado _ _ _ hr rfl
    refine ⟨_, hr, ?_, hi ha⟩
    rw [hf, hb, hn]
    unfold finDerivado
    simp [ha]

theorem juegoTerminado_derivado_witness :
    mundoMarcado.juegoTerminado = true ∧
    ∃ w1 token w3,
      guardarEstadoPartida (obtenerEstadoParaGuardar mundoMarcado) mundoMarcado
        = .retorna () w1 ∧
      w1.estadoActual = some token ∧
      initGame w1 = .retorna true w3 ∧ w3.juegoTerminado = false := by
  obtain ⟨token, hne, hg, hd⟩ := guardarEstadoPartida_canonico
    (obtenerEstadoParaGuardar mundoMarcado) mundoMarcado (canonico_obtenerEstadoParaGuardar _)
  obtain ⟨w3, h3, hf⟩ := juegoTerminado_derivado.2.2.2.2.1
    mundoMarcado { mundoMarcado with estadoActual := some token } token (by decide)
    (by decide) hne hd rfl
  refine ⟨rfl, _, token, w3, hg, rfl, h3, ?_⟩
  rw [hf]
  decide

/-- C27: when `mostrarClaveSecretaURL` rejects a token, because it is not valid Base64, or
decodes to the empty text, or to a text that is not JSON, or to a value whose `tablero` is
missing or is not an array of exactly 25 entries, or has a `null` entry, the call returns
(no exception escapes) and the board, the team count and the rule are exactly what they
were; so are the turn, the finished flag and both storage keys. -/
theorem mostrarClaveSecretaURL_rechazo_atomico (cadenaCifrada : JSString) (w : Mundo)
    (h : esBase64 cadenaCifrada = false ∨
      descifrarXOR cadenaCifrada = some [] ∨
      (∃ texto, descifrarXOR cadenaCifrada = some texto ∧ JSON_parse texto = none) ∨
      (∃ texto estadoPartida, descifrarXOR cadenaCifrada = some texto ∧
        JSON_parse texto = some estadoPartida ∧
        ∀ tablero, estadoPartida.prop (lit "tablero") = some tablero →
          esArrayDe 25 tablero = false ∨ ∃ item ∈ tablero.elementos, item = .null)) :
    ∃ w2, mostrarClaveSecretaURL cadenaCifrada w = .retorna () w2 ∧
      w2.tableroLogico = w.tableroLogico ∧ w2.numeroDeEquipos = w.numeroDeEquipos ∧
      w2.paseTurnoAlFallar = w.paseTurnoAlFallar ∧ w2.turnoActual = w.turnoActual ∧
      w2.juegoTerminado = w.juegoTerminado ∧ w2.estadoActual = w.estadoActual ∧
      w2.palabrasUsadas = w.palabrasUsadas := by
  obtain ⟨mensaje, hm⟩ := mostrarClaveSecretaURL_alerta cadenaCifrada w h
  exact ⟨_, hm, rfl, rfl, rfl, rfl, rfl, rfl, rfl⟩

theorem mostrarClaveSecretaURL_rechazo_atomico_witness :
    esBase64 (lit "!!!") = false ∧
    ∃ w2, mostrarClaveSecretaURL (lit "!!!") (mundoEjemplo 3 .VERDE false) = .retorna () w2 ∧
      w2.tableroLogico = tableroEjemplo ∧ w2.numeroDeEquipos = 3 ∧
      w2.paseTurnoAlFallar = false := by
  obtain ⟨w2, h1, h2, h3, h4, _⟩ :=
    mostrarClaveSecretaURL_rechazo_atomico (lit "!!!") (mundoEjemplo 3 .VERDE false)
      (Or.inl (by decide))
  exact ⟨by decide, w2, h1, h2, h3, h4⟩

end SpyGame
